import Mathlib

/-!
# Bomberman server: session logic of `src/server/server.js`

A shallow embedding of the authoritative game server.  JavaScript objects
become records, the mutable registries become an explicit `Server` value that
every handler receives and returns, and everything a handler sends or schedules
is returned as a list of `Event`s and `Timer`s.

Conventions of the embedding

* Client objects are shared by reference between `clients` and `game.players`.
  They are kept in a store `Server.objects` addressed by the client id, and
  `Game.players` holds the ids: a write through one reference is seen through
  every other one.
* Numbers that the server treats as integers (tile coordinates, lives, counts,
  timestamps in milliseconds) are `Int` or `Nat`; speed and the random draws
  are exact rationals.
* A property that may be absent (`undefined`) and is tested for by the code is
  an `Option`.
* A handler returns `none` when the JavaScript code raises an uncaught
  `TypeError` (reading a property of `undefined`).
* `Math.random()` is a stream of draws that the code consumes in order;
  `Date.now()` is the parameter `now`.
-/

namespace Bomberman

/-! ## Data model -/

/-- Tile types of the map: the strings 'empty', 'wall' and 'block'. -/
inductive Tile where
  | empty
  | wall
  | block
  deriving DecidableEq, Repr

/-- The map `game.state.map`: an array of rows, indexed `map[y][x]`. -/
abbrev TileMap := List (List Tile)

/-- Direction names 'right', 'left', 'down', 'up'. -/
inductive Direction where
  | right
  | left
  | down
  | up
  deriving DecidableEq, Repr

/-- Power-up types 'bomb', 'flame', 'speed'. -/
inductive PowerUp where
  | bomb
  | flame
  | speed
  deriving DecidableEq, Repr

/-- Explosion tile types sent to the clients: 'center', 'end', 'extension'. -/
inductive BlastType where
  | center
  | endTile
  | extension
  deriving DecidableEq, Repr

/-- Countdown phases 'waiting' and 'starting'. -/
inductive Phase where
  | waiting
  | starting
  deriving DecidableEq, Repr

/-- A client object `clients[id]`, which is also the player object pushed into
`game.players`.  Its `id` is the key under which `Server.objects` stores it. -/
structure Player where
  nickname : String
  lives : Int
  bombCount : Int
  bombPower : Nat
  speed : Rat
  tileX : Int
  tileY : Int
  direction : Option Direction
  moving : Option Bool
  activeBombs : Int
  lastHitTime : Option Int
  hitByExplosions : Option (List (Nat × Int))
  deriving DecidableEq, Repr

/-- A live bomb, as built by `handleBombPlaced`. -/
structure Bomb where
  id : Nat
  tileX : Int
  tileY : Int
  power : Nat
  ownerId : Nat
  planted : Int
  timer : Nat
  deriving DecidableEq, Repr

/-- An entry of `game.activeExplosions`. -/
structure Explosion where
  bombId : Nat
  tileX : Int
  tileY : Int
  expires : Int
  deriving DecidableEq, Repr

/-- The countdown descriptor `game.countdown`. -/
structure Countdown where
  remaining : Int
  phase : Phase
  deriving DecidableEq, Repr

/-- The object `game.state`: created as `{}`, `map` and `bombs` are assigned by
`startGame`. -/
structure GameState where
  map : Option TileMap
  bombs : Option (List Bomb)
  deriving DecidableEq, Repr

/-- A session, an entry of `games`. -/
structure Game where
  id : Nat
  players : List Nat
  state : GameState
  countdown : Option Countdown
  started : Bool
  baseHue : Nat
  activeExplosions : Option (List Explosion)
  lastExplosionCheck : Option Int
  tickCount : Option Nat
  deriving DecidableEq, Repr

/-- The mutable world of the server: the client objects, the keys of the
`clients` registry and the `games` registry in insertion order. -/
structure Server where
  objects : Nat → Player
  clients : List Nat
  games : List Game

/-- Text of a system chat message. -/
inductive ChatText where
  | wasHit (nickname : String) (lives : Int)
  | sploded (nickname : String)
  deriving DecidableEq, Repr

/-- An entry of the `players` array of an `updatePlayers` message; `speed` is
only sent on a join into an existing session. -/
structure PlayerInfo where
  id : Nat
  nickname : String
  lives : Int
  speed : Option Rat
  deriving DecidableEq, Repr

/-- An entry of the `players` array of a `gameStarted` message. -/
structure StartInfo where
  id : Nat
  nickname : String
  lives : Int
  tileX : Int
  tileY : Int
  direction : Option Direction
  moving : Option Bool
  speed : Rat
  deriving DecidableEq, Repr

/-- An entry of the `players` array of a `gameStateSync` message. -/
structure SyncInfo where
  id : Nat
  tileX : Int
  tileY : Int
  direction : Option Direction
  moving : Option Bool
  lives : Int
  activeBombs : Int
  speed : Rat
  deriving DecidableEq, Repr

/-- A message sent to clients; `dest` lists the receiving client ids in sending
order. -/
inductive Event where
  | bombRejected (dest : Nat) (reason : String)
  | bombPlaced (dest : List Nat) (bombId : Nat) (tileX tileY : Int) (playerId : Nat)
  | explosionCreated (dest : List Nat) (tileX tileY : Int) (type : BlastType)
      (direction : Option Direction) (bombId : Nat)
  | mapUpdate (dest : List Nat) (tileX tileY : Int) (type : Tile)
  | powerUpCreated (dest : List Nat) (tileX tileY : Int) (type : PowerUp) (fromPlayer : Bool)
  | playerUpdate (dest : List Nat) (id : Nat) (tileX tileY : Int) (direction : Option Direction)
      (moving : Option Bool) (lives : Int) (activeBombs : Int) (invulnerable : Bool)
      (lastHitTime : Option Int)
  | activeBombsUpdate (dest : List Nat) (id : Nat) (activeBombs : Int)
  | chatMessage (dest : List Nat) (text : ChatText) (timestamp : Int)
  | clientId (dest : Nat) (clientId : Nat)
  | error (dest : Nat) (message : String)
  | updatePlayers (dest : List Nat) (players : List PlayerInfo)
  | countdownUpdate (dest : List Nat) (remaining : Option Int) (phase : Phase)
  | gameStarted (dest : List Nat) (players : List StartInfo) (map : TileMap) (baseHue : Nat)
  | powerUpCollected (dest : List Nat) (playerId : Nat) (tileX tileY : Int)
      (type : Option PowerUp) (bombCount : Int) (bombPower : Nat) (speed : Rat)
  | gameStateSync (dest : List Nat) (players : List SyncInfo) (timestamp : Int)
  | gameOverVerified (dest : Nat) (verified : Bool) (winnerId : Option Nat)
      (correctState : List (Nat × Int))
  | gameEnded (dest : List Nat) (winner : Option (Nat × String))
      (players : List (Nat × String × Int))
  deriving DecidableEq, Repr

/-- A call of the timer interface, in program order: a callback registered with
`setTimeout` (`chainReaction`, `gameOver`), the countdown callback registered
with `setInterval` for a session, or `clearInterval` on the countdown interval
of a session. -/
inductive Timer where
  | chainReaction (delay : Nat) (gameId : Nat) (ownerId bombId : Nat) (tileX tileY : Int)
      (power : Nat)
  | gameOver (delay : Nat) (gameId : Nat) (winner : Option Nat)
  | countdownInterval (period : Nat) (gameId : Nat)
  | clearCountdown (gameId : Nat)
  deriving DecidableEq, Repr

/-- What a handler leaves behind: the new world, the messages sent and the
timers registered, both in program order. -/
structure Outcome where
  server : Server
  events : List Event
  timers : List Timer

/-- The stream of values returned by successive calls of `Math.random()`. -/
abbrev Rand := Nat → Rat

/-- The stream after one draw. -/
def Rand.next (r : Rand) : Rand := fun n => r (n + 1)

/-! ## Small helpers for the registries -/

/-- Write `p` to the client object with id `i`. -/
def setObject (objects : Nat → Player) (i : Nat) (p : Player) : Nat → Player :=
  fun j => if j = i then p else objects j

/-- The expression `game.players.map(p => clients[p.id]).filter(c => c)`: the
players of the game whose id is still a key of `clients`. -/
def recipients (clients : List Nat) (game : Game) : List Nat :=
  game.players.filter (fun id => clients.contains id)

/-- The lookup `Object.keys(games).find(id => games[id].players.some(p => p.id
=== clientId))`: position of the first game that has the client as a player. -/
def findGameIdx (s : Server) (clientId : Nat) : Option Nat :=
  s.games.findIdx? (fun g => g.players.contains clientId)

/-- The first game that has the client as a player, with its position. -/
def findGame (s : Server) (clientId : Nat) : Option (Nat × Game) :=
  match findGameIdx s clientId with
  | none => none
  | some i =>
    match s.games[i]? with
    | none => none
    | some g => some (i, g)

/-- Truthiness of a bomb id (a JSON number): `0` is falsy. -/
def truthyId (id : Nat) : Bool := id != 0

/-! ## Map access -/

/-- The read `map[y][x]` for integer indices; `none` is `undefined`. -/
def tileAt (m : TileMap) (x y : Int) : Option Tile :=
  if 0 ≤ x ∧ 0 ≤ y then
    match m[y.toNat]? with
    | none => none
    | some row => row[x.toNat]?
  else none

/-- The write `map[y][x] = t` at an existing tile. -/
def setTile (m : TileMap) (x y : Int) (t : Tile) : TileMap :=
  match m[y.toNat]? with
  | none => m
  | some row => m.set y.toNat (row.set x.toNat t)

/-- Column step of a direction (`dx`). -/
def Direction.dx : Direction → Int
  | .right => 1
  | .left => -1
  | .down => 0
  | .up => 0

/-- Row step of a direction (`dy`). -/
def Direction.dy : Direction → Int
  | .right => 0
  | .left => 0
  | .down => 1
  | .up => -1

/-- The array `directions` of `calculateExplosionTiles`, in its order. -/
def directions : List Direction := [.right, .left, .down, .up]

/-! ## Power-up spawning -/

/-- The selection loop shared by `trySpawnPowerUp` and
`spawnPlayerDeathPowerUp`: walk the list accumulating weight, the first item
with `random <= cumulativeWeight` wins, the running default is kept otherwise.
Weights and draws live in an ordered field `K`: the rationals when the server is
run, the reals when draws are measured. -/
def selectLoop {K : Type} [LinearOrderedField K] (random : K) :
    List (PowerUp × K) → K → PowerUp → PowerUp
  | [], _, selected => selected
  | (type, weight) :: rest, cumulativeWeight, selected =>
    if random ≤ cumulativeWeight + weight then type
    else selectLoop random rest (cumulativeWeight + weight) selected

/-- The `reduce` computing `totalWeight`. -/
def totalWeight {K : Type} [LinearOrderedField K] (items : List (PowerUp × K)) : K :=
  items.foldl (fun sum item => sum + item.2) 0

/-- Weighted selection on one draw: `random = draw * totalWeight`, default
'bomb'. -/
def selectPowerUp {K : Type} [LinearOrderedField K] (items : List (PowerUp × K)) (draw : K) :
    PowerUp :=
  selectLoop (draw * totalWeight items) items 0 .bomb

/-- The table `powerUpTypes` of `trySpawnPowerUp`. -/
def blockPowerUpTypes {K : Type} [LinearOrderedField K] : List (PowerUp × K) :=
  [(.bomb, 37 / 100), (.flame, 37 / 100), (.speed, 26 / 100)]

/-- The table `powerUpTypes` of `spawnPlayerDeathPowerUp`. -/
def deathPowerUpTypes {K : Type} [LinearOrderedField K] : List (PowerUp × K) :=
  [(.bomb, 33 / 100), (.flame, 33 / 100), (.speed, 34 / 100)]

/-- `trySpawnPowerUp(game, tileX, tileY)`: with a first draw below 0.4 a second
draw selects the type and a `powerUpCreated` message goes to `dest`, the
recipients of the game.  Returns the messages and the remaining draws. -/
def trySpawnPowerUp (dest : List Nat) (tileX tileY : Int) (rand : Rand) : List Event × Rand :=
  if rand 0 < 4 / 10 then
    let selectedType := selectPowerUp blockPowerUpTypes (rand 1)
    ([Event.powerUpCreated dest tileX tileY selectedType false], rand.next.next)
  else
    ([], rand.next)

/-- `spawnPlayerDeathPowerUp(game, tileX, tileY)`: one draw selects the type and
the message is always sent. -/
def spawnPlayerDeathPowerUp (dest : List Nat) (tileX tileY : Int) (rand : Rand) :
    List Event × Rand :=
  let selectedType := selectPowerUp deathPowerUpTypes (rand 0)
  ([Event.powerUpCreated dest tileX tileY selectedType true], rand.next)

/-! ## Blast computation -/

/-- An element of the array returned by `calculateExplosionTiles`.  The centre
tile carries no `direction`, and no `isEnd`, which then reads as false. -/
structure BlastTile where
  x : Int
  y : Int
  direction : Option Direction
  isEnd : Bool
  deriving DecidableEq, Repr

/-- The argument `bomb` of `calculateExplosionTiles`. -/
structure BlastSource where
  tileX : Int
  tileY : Int
  power : Nat
  id : Nat
  deriving DecidableEq, Repr

/-- The variables that the loops of `calculateExplosionTiles` update: the array
`tiles`, the map, the messages sent so far and the remaining random draws. -/
structure Blast where
  tiles : List BlastTile
  map : Option TileMap
  events : List Event
  rand : Rand

/-- The loop `for (let i = 1; i <= bomb.power; i++)` for one direction, entered
with `i` and with `n = bomb.power + 1 - i` iterations left.  `break` returns the
current state. -/
def rayLoop (dest : List Nat) (bomb : BlastSource) (dir : Direction) :
    Nat → Nat → Blast → Option Blast
  | 0, _, st => some st
  | n + 1, i, st =>
    match st.map with
    | none => none
    | some m =>
      match m.head? with
      | none => none
      | some row0 =>
        let x := bomb.tileX + dir.dx * (i : Int)
        let y := bomb.tileY + dir.dy * (i : Int)
        if x < 0 ∨ x ≥ (row0.length : Int) ∨ y < 0 ∨ y ≥ (m.length : Int) then some st
        else
          let tileType := tileAt m x y
          if tileType = some Tile.wall then some st
          else
            let tile : BlastTile := ⟨x, y, some dir, decide (i = bomb.power)⟩
            if tileType = some Tile.block then
              let spawn := trySpawnPowerUp dest x y st.rand
              some
                { tiles := st.tiles ++ [tile]
                  map := some (setTile m x y Tile.empty)
                  events := st.events ++ [Event.mapUpdate dest x y Tile.empty] ++ spawn.1
                  rand := spawn.2 }
            else
              rayLoop dest bomb dir n (i + 1) { st with tiles := st.tiles ++ [tile] }

/-- The body of `directions.forEach` run over a list of directions. -/
def raysLoop (dest : List Nat) (bomb : BlastSource) : List Direction → Blast → Option Blast
  | [], st => some st
  | dir :: rest, st =>
    match rayLoop dest bomb dir bomb.power 1 st with
    | none => none
    | some st1 => raysLoop dest bomb rest st1

/-- `calculateExplosionTiles(game, bomb)`, on the map of the game, with `dest` the
recipients of its broadcasts. -/
def calculateExplosionTiles (dest : List Nat) (map : Option TileMap) (bomb : BlastSource)
    (rand : Rand) : Option Blast :=
  raysLoop dest bomb directions
    { tiles := [⟨bomb.tileX, bomb.tileY, none, false⟩], map := map, events := [], rand := rand }

/-! ## Movement -/

/-- `isValidMove(game, player, newTileX, newTileY)`.  The result is `none` when
the read `game.state.bombs.some` raises because no bomb list exists. -/
def isValidMove (game : Game) (player : Player) (newTileX newTileY : Int) : Option Bool :=
  match game.state.map with
  | none => some false
  | some m =>
    match m.head? with
    | none => some false
    | some row0 =>
      let dx := |newTileX - player.tileX|
      let dy := |newTileY - player.tileY|
      if dx > 1 ∨ dy > 1 ∨ dx + dy > 1 then some false
      else if newTileX < 0 ∨ newTileX ≥ (row0.length : Int) ∨
          newTileY < 0 ∨ newTileY ≥ (m.length : Int) ∨ (m[newTileY.toNat]?).isNone then
        some false
      else
        let tileType := tileAt m newTileX newTileY
        match game.state.bombs with
        | none => none
        | some bombs =>
          let bombAtTile := bombs.any (fun b => decide (b.tileX = newTileX ∧ b.tileY = newTileY))
          some (decide (tileType ≠ some Tile.wall) && decide (tileType ≠ some Tile.block)
            && !bombAtTile)

/-- The message built by `broadcastUpdate(game, clientId, player, isInvulnerable)`. -/
def broadcastUpdate (clients : List Nat) (game : Game) (clientId : Nat) (player : Player)
    (isInvulnerable : Bool) : Event :=
  Event.playerUpdate (recipients clients game) clientId player.tileX player.tileY
    player.direction player.moving player.lives player.activeBombs isInvulnerable
    player.lastHitTime

/-- The `data` of a `playerUpdate` message.  `tileX` and `tileY` are the values
of `Number(data.tileX)` and `Number(data.tileY)`, `none` standing for `NaN`;
`speed` and `lives` are `none` when the field is `undefined`. -/
structure PlayerUpdateData where
  tileX : Option Int
  tileY : Option Int
  direction : Option Direction
  moving : Option Bool
  speed : Option Rat
  lives : Option Int
  forceUpdate : Bool
  deriving DecidableEq, Repr

/-- The branch of `handlePlayerUpdate` taken when a coordinate is `NaN`: only a
life field is looked at. -/
def playerUpdateNaN (s : Server) (game : Game) (clientId : Nat) (data : PlayerUpdateData) :
    Outcome :=
  let player := s.objects clientId
  match data.lives with
  | none => ⟨s, [], []⟩
  | some lives =>
    if data.forceUpdate ∧ lives < player.lives ∧ player.lives - lives = 1 then
      ⟨{ s with objects := setObject s.objects clientId { player with lives := lives } }, [], []⟩
    else
      ⟨s, [broadcastUpdate s.clients game clientId player false], []⟩

/-- `handlePlayerUpdate(clientId, data)`. -/
def handlePlayerUpdate (s : Server) (clientId : Nat) (data : PlayerUpdateData) :
    Option Outcome :=
  match findGame s clientId with
  | none => some ⟨s, [], []⟩
  | some (_, game) =>
    match data.tileX, data.tileY with
    | some newTileX, some newTileY =>
      let player := s.objects clientId
      let player1 : Player :=
        match data.speed with
        | some speed => { player with speed := speed }
        | none => player
      let player2 : Player :=
        match data.lives with
        | some lives => { player1 with lives := lives }
        | none => player1
      let moved : Player :=
        { player2 with
          tileX := newTileX, tileY := newTileY
          direction := data.direction, moving := data.moving }
      let accept : Outcome :=
        ⟨{ s with objects := setObject s.objects clientId moved },
          [broadcastUpdate s.clients game clientId moved false], []⟩
      let stay : Server := { s with objects := setObject s.objects clientId player2 }
      if data.forceUpdate then some accept
      else
        match isValidMove game player2 newTileX newTileY with
        | none => none
        | some true => some accept
        | some false =>
          if data.forceUpdate then
            some ⟨stay, [broadcastUpdate s.clients game clientId player2 false], []⟩
          else if data.lives.isSome then
            some ⟨stay, [broadcastUpdate s.clients game clientId player2 false], []⟩
          else some ⟨stay, [], []⟩
    | _, _ => some (playerUpdateNaN s game clientId data)

/-! ## Bomb placement -/

/-- The `data` of a `bombPlaced` message. -/
structure BombPlacedData where
  bombId : Nat
  tileX : Int
  tileY : Int
  deriving DecidableEq, Repr

/-- Replace the game at position `i` of the registry. -/
def setGame (s : Server) (i : Nat) (game : Game) : Server :=
  { s with games := s.games.set i game }

/-- `handleBombPlaced(clientId, data)` at time `now`. -/
def handleBombPlaced (s : Server) (clientId : Nat) (data : BombPlacedData) (now : Int) :
    Option Outcome :=
  match findGame s clientId with
  | none => some ⟨s, [], []⟩
  | some (gi, game) =>
    let player := s.objects clientId
    if !game.players.contains clientId ∨ player.activeBombs ≥ player.bombCount then
      if s.clients.contains clientId then
        some ⟨s, [Event.bombRejected clientId "Max bombs reached"], []⟩
      else some ⟨s, [], []⟩
    else
      let bomb : Bomb :=
        { id := data.bombId, tileX := data.tileX, tileY := data.tileY
          power := player.bombPower, ownerId := clientId, planted := now, timer := 3000 }
      match game.state.bombs with
      | none => none
      | some bombs =>
        let game1 : Game := { game with state := { game.state with bombs := some (bombs ++ [bomb]) } }
        let player1 : Player := { player with activeBombs := player.activeBombs + 1 }
        let s1 : Server :=
          { setGame s gi game1 with objects := setObject s.objects clientId player1 }
        some ⟨s1, [Event.bombPlaced (recipients s.clients game1) bomb.id bomb.tileX bomb.tileY
          clientId], []⟩

/-! ## Damage -/

/-- The variables that the loop over the players in `checkExplosionCollisions`
updates. -/
structure CheckState where
  objects : Nat → Player
  events : List Event
  rand : Rand

/-- `Map.prototype.set`: overwrite the value of an existing key in place,
append a new key. -/
def mapSet : List (Nat × Int) → Nat → Int → List (Nat × Int)
  | [], k, v => [(k, v)]
  | (k1, v1) :: rest, k, v => if k1 = k then (k, v) :: rest else (k1, v1) :: mapSet rest k v

/-- The search `for (const explosion of activeExplosions)` with its `break`:
the first explosion on the tile of the player. -/
def findHit (activeExplosions : List Explosion) (player : Player) : Option Explosion :=
  activeExplosions.find? (fun e => decide (e.tileX = player.tileX ∧ e.tileY = player.tileY))

/-- The callback of `game.players.forEach` in `checkExplosionCollisions`, for
the player object with id `id`. -/
def checkPlayer (clients : List Nat) (game : Game) (activeExplosions : List Explosion)
    (now : Int) (st : CheckState) (id : Nat) : CheckState :=
  let player := st.objects id
  if player.lives ≤ 0 then st
  else
    let lastHitTime : Int :=
      match player.lastHitTime with
      | none => 0
      | some t => t
    let hitByExplosions : List (Nat × Int) :=
      match player.hitByExplosions with
      | none => []
      | some hits => hits
    let player1 : Player :=
      { player with lastHitTime := some lastHitTime, hitByExplosions := some hitByExplosions }
    if now - lastHitTime < 3000 then { st with objects := setObject st.objects id player1 }
    else
      match findHit activeExplosions player1 with
      | none => { st with objects := setObject st.objects id player1 }
      | some explosion =>
        if truthyId explosion.bombId then
          let player2 : Player :=
            { player1 with
              lastHitTime := some now
              lives := player1.lives - 1
              hitByExplosions := some (mapSet hitByExplosions explosion.bombId now) }
          let dest := recipients clients game
          let hitEvents : List Event :=
            [broadcastUpdate clients game id player2 true,
              Event.chatMessage dest (ChatText.wasHit player2.nickname player2.lives) now]
          if player2.lives ≤ 0 then
            let spawn := spawnPlayerDeathPowerUp dest player2.tileX player2.tileY st.rand
            { objects := setObject st.objects id player2
              events := st.events ++ hitEvents ++ spawn.1 ++
                [Event.chatMessage dest (ChatText.sploded player2.nickname) now]
              rand := spawn.2 }
          else
            { st with
              objects := setObject st.objects id player2
              events := st.events ++ hitEvents }
        else { st with objects := setObject st.objects id player1 }

/-- What `checkExplosionCollisions` leaves behind. -/
structure CheckResult where
  objects : Nat → Player
  game : Game
  events : List Event
  rand : Rand

/-- `checkExplosionCollisions(game)` at time `now`. -/
def checkExplosionCollisions (clients : List Nat) (objects : Nat → Player) (game : Game)
    (now : Int) (rand : Rand) : CheckResult :=
  if !game.started ∨ game.players.length = 0 then ⟨objects, game, [], rand⟩
  else
    let activeExplosions : List Explosion :=
      match game.activeExplosions with
      | none => []
      | some l => l
    if activeExplosions.length = 0 then ⟨objects, game, [], rand⟩
    else
      let skip : Bool :=
        match game.lastExplosionCheck with
        | none => false
        | some last => decide (last ≠ 0) && decide (now - last < 50)
      if skip then ⟨objects, game, [], rand⟩
      else
        let game1 : Game := { game with lastExplosionCheck := some now }
        let st := game1.players.foldl (checkPlayer clients game1 activeExplosions now)
          ⟨objects, [], rand⟩
        ⟨st.objects, game1, st.events, st.rand⟩

/-- `cleanupExpiredExplosions(game)` at time `now`. -/
def cleanupExpiredExplosions (game : Game) (now : Int) : Game :=
  match game.activeExplosions with
  | none => game
  | some l => { game with activeExplosions := some (l.filter (fun e => decide (e.expires > now))) }

/-! ## Detonation -/

/-- `checkGameOver(game)`: the final state updates and the delayed end of the
game, when at most one player is alive. -/
def checkGameOver (s : Server) (game : Game) : List Event × List Timer :=
  let alivePlayers := game.players.filter (fun id => decide ((s.objects id).lives > 0))
  if alivePlayers.length ≤ 1 then
    (game.players.map (fun id => broadcastUpdate s.clients game id (s.objects id) false),
      [Timer.gameOver 250 game.id alivePlayers.head?])
  else ([], [])

/-- The `data` of a `bombExploded` message; `power` is only present in the
synthetic message of a chain reaction. -/
structure BombExplodedData where
  bombId : Nat
  tileX : Int
  tileY : Int
  power : Option Nat
  deriving DecidableEq, Repr

/-- The test `explosionTiles.some(tile => tile.x === otherBomb.tileX && tile.y
=== otherBomb.tileY)`. -/
def bombHit (explosionTiles : List BlastTile) (otherBomb : Bomb) : Bool :=
  explosionTiles.any (fun tile => decide (tile.x = otherBomb.tileX ∧ tile.y = otherBomb.tileY))

/-- The timers registered by `chainReactionBombs.forEach((chainBomb, index) =>
setTimeout(..., 100 * (index + 1)))`, from position `index` on. -/
def chainTimers (gameId : Nat) : List Bomb → Nat → List Timer
  | [], _ => []
  | chainBomb :: rest, index =>
    Timer.chainReaction (100 * (index + 1)) gameId chainBomb.ownerId chainBomb.id
      chainBomb.tileX chainBomb.tileY chainBomb.power :: chainTimers gameId rest (index + 1)

/-- The `explosionCreated` message for one blast tile. -/
def explosionEvent (dest : List Nat) (bomb : Bomb) (tile : BlastTile) : Event :=
  let type :=
    if tile.x = bomb.tileX ∧ tile.y = bomb.tileY then BlastType.center
    else if tile.isEnd then BlastType.endTile else BlastType.extension
  Event.explosionCreated dest tile.x tile.y type tile.direction bomb.id

/-- `handleBombExploded(clientId, data)` at time `now`, also returning the
random draws left. -/
def handleBombExploded (s : Server) (clientId : Nat) (data : BombExplodedData) (now : Int)
    (rand : Rand) : Option (Outcome × Rand) :=
  match findGame s clientId with
  | none => some (⟨s, [], []⟩, rand)
  | some (gi, game) =>
    match game.state.bombs with
    | none => none
    | some bombs =>
      match bombs.findIdx? (fun b => b.id == data.bombId) with
      | none => some (⟨s, [], []⟩, rand)
      | some bombIndex =>
        match bombs[bombIndex]? with
        | none => some (⟨s, [], []⟩, rand)
        | some bomb =>
          if bomb.ownerId ≠ clientId then some (⟨s, [], []⟩, rand)
          else if bomb.tileX ≠ data.tileX ∨ bomb.tileY ≠ data.tileY then some (⟨s, [], []⟩, rand)
          else
            let bombPower := bomb.power
            let bombs1 := bombs.eraseIdx bombIndex
            let objects1 : Nat → Player :=
              if game.players.contains clientId then
                setObject s.objects clientId
                  { s.objects clientId with activeBombs := (s.objects clientId).activeBombs - 1 }
              else s.objects
            let clientsToSend := recipients s.clients game
            match calculateExplosionTiles clientsToSend game.state.map
                ⟨bomb.tileX, bomb.tileY, bombPower, bomb.id⟩ rand with
            | none => none
            | some blast =>
              let explosionTiles := blast.tiles
              let chainReactionBombs := bombs1.filter (bombHit explosionTiles)
              let activeExplosions : List Explosion :=
                match game.activeExplosions with
                | none => []
                | some l => l
              let game1 : Game :=
                { game with
                  state := { map := blast.map, bombs := some bombs1 }
                  activeExplosions := some (activeExplosions ++
                    explosionTiles.map (fun tile => ⟨bomb.id, tile.x, tile.y, now + 800⟩)) }
              let s1 : Server := { setGame s gi game1 with objects := objects1 }
              let syncEvents : List Event :=
                if game.players.contains clientId then
                  [Event.activeBombsUpdate clientsToSend clientId (objects1 clientId).activeBombs]
                else []
              let over := checkGameOver s1 game1
              some (⟨s1,
                blast.events ++ explosionTiles.map (explosionEvent clientsToSend bomb) ++
                  syncEvents ++ over.1,
                chainTimers game.id chainReactionBombs 0 ++ over.2⟩, blast.rand)

/-! ## Map generation -/

/-- The constant `width` of `generateMap`. -/
def mapWidth : Nat := 15

/-- The constant `height` of `generateMap`. -/
def mapHeight : Nat := 13

/-- The choice of `tileType` for the cell `(x, y)`: a wall on the border and on
the cells with both coordinates even; otherwise one draw decides between
'block' and 'empty'. -/
def pickTile (x y : Nat) (rand : Rand) : Tile × Rand :=
  if y = 0 ∨ y = mapHeight - 1 ∨ x = 0 ∨ x = mapWidth - 1 then (Tile.wall, rand)
  else if x % 2 = 0 ∧ y % 2 = 0 then (Tile.wall, rand)
  else if rand 0 < 4 / 10 then (Tile.block, rand.next)
  else (Tile.empty, rand.next)

/-- The loop `for (let x = 0; x < width; x++)` of row `y`, entered at `x` with
`n = width - x` iterations left and the tiles pushed so far. -/
def rowLoop (y : Nat) : Nat → Nat → List Tile → Rand → List Tile × Rand
  | 0, _, row, rand => (row, rand)
  | n + 1, x, row, rand =>
    let t := pickTile x y rand
    rowLoop y n (x + 1) (row ++ [t.1]) t.2

/-- The loop `for (let y = 0; y < height; y++)`, entered at `y` with
`n = height - y` iterations left and the rows pushed so far. -/
def mapLoop : Nat → Nat → TileMap → Rand → TileMap × Rand
  | 0, _, tileMap, rand => (tileMap, rand)
  | n + 1, y, tileMap, rand =>
    let r := rowLoop y mapWidth 0 [] rand
    mapLoop n (y + 1) (tileMap ++ [r.1]) r.2

/-- The array `corners` of `generateMap`. -/
def corners : List (Int × Int) :=
  [(1, 1), ((mapWidth : Int) - 2, 1), (1, (mapHeight : Int) - 2),
    ((mapWidth : Int) - 2, (mapHeight : Int) - 2)]

/-- The body of the two loops over `dy` and `dx` around a corner: the cell is
skipped when it is on or beyond the border or has both coordinates even, and
set to 'empty' otherwise.  (The remainder is only taken of positive numbers.) -/
def clearCell (corner : Int × Int) (tileMap : TileMap) (dy dx : Int) : TileMap :=
  let nx := corner.1 + dx
  let ny := corner.2 + dy
  if nx ≤ 0 ∨ nx ≥ (mapWidth : Int) - 1 ∨ ny ≤ 0 ∨ ny ≥ (mapHeight : Int) - 1 ∨
      (nx % 2 = 0 ∧ ny % 2 = 0) then tileMap
  else setTile tileMap nx ny Tile.empty

/-- The callback of `corners.forEach`: `dy` and `dx` run over -1, 0, 1. -/
def clearCorner (tileMap : TileMap) (corner : Int × Int) : TileMap :=
  [-1, 0, 1].foldl (fun m dy => [-1, 0, 1].foldl (fun m' dx => clearCell corner m' dy dx) m)
    tileMap

/-- `generateMap()`, also returning the draws left. -/
def generateMap (rand : Rand) : TileMap × Rand :=
  let r := mapLoop mapHeight 0 [] rand
  (corners.foldl clearCorner r.1, r.2)

/-! ## Lobby and countdown -/

/-- The messages and timer calls of `broadcastCountdown(game)`, for the
countdown just stored in the game. -/
def broadcastCountdown (clients : List Nat) (game : Game) (countdown : Countdown) :
    List Event × List Timer :=
  ([Event.countdownUpdate (recipients clients game) (some countdown.remaining) countdown.phase],
    [Timer.countdownInterval 1000 game.id])

/-- The connection request handler: a new client object is stored under a fresh
id, and the id is sent back.  The new object has no property yet: the optional
ones are absent, the others keep whatever the store holds until they are
assigned. -/
def connect (s : Server) (clientId : Nat) : Outcome :=
  ⟨{ s with
      objects := setObject s.objects clientId
        { s.objects clientId with
          direction := none, moving := none, lastHitTime := none, hitByExplosions := none }
      clients := s.clients ++ [clientId] },
    [Event.clientId clientId clientId], []⟩

/-- `handleJoinGame(connection, data)` for the connection of the client
`clientId` and `data.player.nickname = nickname`.  `gameId` is the value that
`guid()` returns and `baseHue` the value of `Math.floor(Math.random() * 360)`
when a session is created. -/
def handleJoinGame (s : Server) (clientId : Nat) (nickname : String) (gameId baseHue : Nat) :
    Outcome :=
  if !s.clients.contains clientId then ⟨s, [], []⟩
  else
    match s.games with
    | game :: rest =>
      if game.started = true ∨ game.players.length ≥ 4 then
        ⟨s, [Event.error clientId
          "A game is already in progress or full. Please wait until it finishes."], []⟩
      else
        let player : Player :=
          { s.objects clientId with
            nickname := nickname, lives := 3, bombCount := 1, bombPower := 1, speed := 3
            activeBombs := 0 }
        let objects1 := setObject s.objects clientId player
        let game1 : Game := { game with players := game.players ++ [clientId] }
        let joinEvents : List Event :=
          [Event.updatePlayers (recipients s.clients game1)
            (game1.players.map (fun id =>
              ⟨id, (objects1 id).nickname, (objects1 id).lives, some (objects1 id).speed⟩))] ++
          (match game1.countdown with
            | some countdown =>
              [Event.countdownUpdate [clientId] (some countdown.remaining) countdown.phase]
            | none => [])
        if game1.players.length = 2 ∧ game1.countdown = none then
          let countdown : Countdown := ⟨20, Phase.waiting⟩
          let game2 : Game := { game1 with countdown := some countdown }
          let b := broadcastCountdown s.clients game2 countdown
          ⟨{ s with objects := objects1, games := game2 :: rest }, joinEvents ++ b.1, b.2⟩
        else if game1.players.length = 4 then
          let cleared : List Timer :=
            match game1.countdown with
            | some _ => [Timer.clearCountdown game1.id]
            | none => []
          let countdown : Countdown := ⟨10, Phase.starting⟩
          let game2 : Game := { game1 with countdown := some countdown }
          let b := broadcastCountdown s.clients game2 countdown
          ⟨{ s with objects := objects1, games := game2 :: rest }, joinEvents ++ b.1,
            cleared ++ b.2⟩
        else
          ⟨{ s with objects := objects1, games := game1 :: rest }, joinEvents, []⟩
    | [] =>
      let player : Player := { s.objects clientId with nickname := nickname, lives := 3, speed := 3 }
      let objects1 := setObject s.objects clientId player
      let game : Game :=
        { id := gameId, players := [clientId], state := { map := none, bombs := none }
          countdown := none, started := false, baseHue := baseHue
          activeExplosions := none, lastExplosionCheck := none, tickCount := none }
      ⟨{ s with objects := objects1, games := [game] },
        [Event.updatePlayers (recipients s.clients game)
            (game.players.map (fun id =>
              ⟨id, (objects1 id).nickname, (objects1 id).lives, none⟩)),
          Event.countdownUpdate [clientId] none Phase.waiting], []⟩

/-- `handleDisconnect(clientId)`. -/
def handleDisconnect (s : Server) (clientId : Nat) : Outcome :=
  let left : List Nat := s.clients.filter (fun id => id != clientId)
  match findGame s clientId with
  | none => ⟨{ s with clients := left }, [], []⟩
  | some (gi, game) =>
    let oldPlayerCount := game.players.length
    let game1 : Game := { game with players := game.players.filter (fun id => id != clientId) }
    if game1.players.length = 0 then
      ⟨{ s with games := s.games.eraseIdx gi, clients := left }, [], []⟩
    else
      let clientsToSend := recipients s.clients game1
      let updateEvents : List Event :=
        [Event.updatePlayers clientsToSend
          (game1.players.map (fun id =>
            ⟨id, (s.objects id).nickname, (s.objects id).lives, none⟩))]
      if game1.started = false ∧ game1.countdown ≠ none then
        if game1.players.length < 2 then
          ⟨{ setGame s gi { game1 with countdown := none } with clients := left },
            updateEvents ++ [Event.countdownUpdate clientsToSend (some 0) Phase.waiting],
            [Timer.clearCountdown game1.id]⟩
        else if game1.players.length = 2 ∧ oldPlayerCount = 3 then
          let countdown : Countdown := ⟨20, Phase.waiting⟩
          let game2 : Game := { game1 with countdown := some countdown }
          let b := broadcastCountdown s.clients game2 countdown
          ⟨{ setGame s gi game2 with clients := left }, updateEvents ++ b.1,
            [Timer.clearCountdown game1.id] ++ b.2⟩
        else ⟨{ setGame s gi game1 with clients := left }, updateEvents, []⟩
      else ⟨{ setGame s gi game1 with clients := left }, updateEvents, []⟩

/-! ## Starting a game -/

/-- `resetPlayerStats(player)`. -/
def resetPlayerStats (player : Player) : Player :=
  { player with lives := 3, bombCount := 1, bombPower := 1, speed := 3, activeBombs := 0 }

/-- The lookup `spawnPositions[index % spawnPositions.length]` in the array
`[(1,1), (13,1), (1,11), (13,11)]`. -/
def spawnPosition (index : Nat) : Int × Int :=
  match index % 4 with
  | 0 => (1, 1)
  | 1 => (13, 1)
  | 2 => (1, 11)
  | _ => (13, 11)

/-- The callback of `game.players.map((player, index) => ...)` in `startGame`,
run over the player list from position `index` on: the player object is placed
and its entry for the broadcast is taken at that moment. -/
def placePlayers : (Nat → Player) → List Nat → Nat → (Nat → Player) × List StartInfo
  | objects, [], _ => (objects, [])
  | objects, id :: rest, index =>
    let spawn := spawnPosition index
    let player : Player :=
      { objects id with
        tileX := spawn.1, tileY := spawn.2, direction := some Direction.down
        moving := some false, activeBombs := 0, bombCount := 1, bombPower := 1 }
    let r := placePlayers (setObject objects id player) rest (index + 1)
    (r.1, ⟨id, player.nickname, player.lives, player.tileX, player.tileY, player.direction,
      player.moving, player.speed⟩ :: r.2)

/-- The writes of `startGame` to the player objects: `resetPlayerStats` on each
player of the list, then the placement loop. -/
def startPlayers (objects : Nat → Player) (players : List Nat) :
    (Nat → Player) × List StartInfo :=
  placePlayers (players.foldl (fun o id => setObject o id (resetPlayerStats (o id))) objects)
    players 0

/-- `startGame(game)` for the game at position `gi` of the registry, also
returning the draws left. -/
def startGame (s : Server) (gi : Nat) (game : Game) (rand : Rand) : Outcome × Rand :=
  let gen := generateMap rand
  let game1 : Game :=
    { game with started := true, state := { map := some gen.1, bombs := some [] } }
  let placed := startPlayers s.objects game.players
  (⟨{ setGame s gi game1 with objects := placed.1 },
    [Event.gameStarted (recipients s.clients game1) placed.2 gen.1 game1.baseHue], []⟩, gen.2)

/-- The callback that `broadcastCountdown` registers with `setInterval`, for the
game at position `gi` of the registry.  It raises when the game has no
countdown. -/
def countdownTick (s : Server) (gi : Nat) (rand : Rand) : Option (Outcome × Rand) :=
  match s.games[gi]? with
  | none => some (⟨s, [], []⟩, rand)
  | some game =>
    match game.countdown with
    | none => none
    | some countdown =>
      let countdown1 : Countdown := { countdown with remaining := countdown.remaining - 1 }
      let game1 : Game := { game with countdown := some countdown1 }
      if countdown1.remaining ≤ 0 then
        if countdown1.phase = Phase.waiting ∧ game1.players.length < 4 then
          let countdown2 : Countdown := ⟨10, Phase.starting⟩
          let game2 : Game := { game1 with countdown := some countdown2 }
          let b := broadcastCountdown s.clients game2 countdown2
          some (⟨setGame s gi game2, b.1, [Timer.clearCountdown game1.id] ++ b.2⟩, rand)
        else
          let started := startGame s gi game1 rand
          some (⟨started.1.server, started.1.events,
            [Timer.clearCountdown game1.id] ++ started.1.timers⟩, started.2)
      else
        some (⟨setGame s gi game1,
          [Event.countdownUpdate (recipients s.clients game1) (some countdown1.remaining)
            countdown1.phase], []⟩, rand)

/-! ## Power-up collection -/

/-- The `data` of a `powerUpCollected` message; `type` is `none` for a type
string other than 'bomb', 'flame' and 'speed'. -/
structure PowerUpCollectedData where
  tileX : Int
  tileY : Int
  type : Option PowerUp
  deriving DecidableEq, Repr

/-- The `switch` of `handlePowerUpCollected` on the player object.  A stat that
is falsy (here: zero) is replaced by its fallback before the increment. -/
def applyPowerUp (player : Player) (type : Option PowerUp) : Player :=
  match type with
  | some PowerUp.bomb =>
    { player with
      bombCount := min ((if player.bombCount = 0 then 1 else player.bombCount) + 1) 6 }
  | some PowerUp.flame =>
    { player with
      bombPower := min ((if player.bombPower = 0 then 1 else player.bombPower) + 1) 6 }
  | some PowerUp.speed =>
    { player with speed := min ((if player.speed = 0 then 2 else player.speed) + 3 / 4) 7 }
  | none => player

/-- `handlePowerUpCollected(clientId, data)`. -/
def handlePowerUpCollected (s : Server) (clientId : Nat) (data : PowerUpCollectedData) :
    Outcome :=
  match findGame s clientId with
  | none => ⟨s, [], []⟩
  | some (_, game) =>
    let player := applyPowerUp (s.objects clientId) data.type
    ⟨{ s with objects := setObject s.objects clientId player },
      [Event.powerUpCollected (recipients s.clients game) clientId data.tileX data.tileY
        data.type player.bombCount player.bombPower player.speed], []⟩

/-! ## End of a game -/

/-- The filter `game.players.filter(p => p.lives > 0)`. -/
def alivePlayers (objects : Nat → Player) (game : Game) : List Nat :=
  game.players.filter (fun id => decide ((objects id).lives > 0))

/-- `handleVerifyGameOver(clientId, data)` with `data.expectedWinner`. -/
def handleVerifyGameOver (s : Server) (clientId : Nat) (expectedWinner : Nat) : Outcome :=
  match findGame s clientId with
  | none => ⟨s, [], []⟩
  | some (_, game) =>
    let alive := alivePlayers s.objects game
    let serverStateMatches : Bool :=
      decide (alive.length = 1) && decide (alive.head? = some expectedWinner)
    if serverStateMatches then
      let over := checkGameOver s game
      ⟨s, over.1 ++
        (if s.clients.contains clientId then
          [Event.gameOverVerified clientId true (some expectedWinner) []]
        else []), over.2⟩
    else
      ⟨s, if s.clients.contains clientId then
          [Event.gameOverVerified clientId false none
            (game.players.map (fun id => (id, (s.objects id).lives)))]
        else [], []⟩

/-- The callback that `checkGameOver` registers with `setTimeout`.  It closes
over the session object and the winner found when it was registered; `game` is
that session object as it is when the callback runs, still in the registry or
not. -/
def gameOverCallback (s : Server) (game : Game) (winner : Option Nat) : Outcome :=
  ⟨{ s with games := s.games.filter (fun g => g.id != game.id) },
    [Event.gameEnded (recipients s.clients game)
      (winner.map (fun id => (id, (s.objects id).nickname)))
      (game.players.map (fun id => (id, (s.objects id).nickname, (s.objects id).lives)))],
    []⟩

/-- A value read as an id out of a `gameEnded` message: `undefined`, `null`, or
an id.  Two such values are `===` exactly when they are equal. -/
inductive IdValue where
  | undefined
  | null
  | id (n : Nat)
  deriving DecidableEq, Repr

/-- The `data` of a `gameEnded` message, as far as `handleGameEnded` reads it.
`playerWon` is the test `data.reason === 'playerWon'`; `winnerId` is
`data.winnerId`; `players` is `none` when `data.players` has no method `find`
(it is absent or not an array), and otherwise holds for each entry the value of
its `.id`, an entry `none` being `null`, on which the read `.id` raises. -/
structure GameEndedData where
  playerWon : Bool
  winnerId : IdValue
  players : Option (List (Option IdValue))
  deriving DecidableEq, Repr

/-- Whether `data.players.find(p => p.id === data.winnerId)` raises: it does on
a `null` entry that it reaches, that is, one before the first entry whose id is
`winnerId`. -/
def findRaises (winnerId : IdValue) : List (Option IdValue) → Bool
  | [] => false
  | none :: _ => true
  | some id :: rest => if id = winnerId then false else findRaises winnerId rest

/-- `handleGameEnded(clientId, data)`; `data` is `none` for a message without
`data`, on which the read `data.reason` raises.  The sender's session is looked
up first; the reason is then logged, which for 'playerWon' looks the winner up
in `data.players`; the session is deleted last.  The result is `none` when the
handler raises. -/
def handleGameEnded (s : Server) (clientId : Nat) (data : Option GameEndedData) :
    Option Outcome :=
  match findGame s clientId with
  | none => some ⟨s, [], []⟩
  | some (gi, _) =>
    match data with
    | none => none
    | some d =>
      if d.playerWon then
        match d.players with
        | none => none
        | some players =>
          if findRaises d.winnerId players then none
          else some ⟨{ s with games := s.games.eraseIdx gi }, [], []⟩
      else some ⟨{ s with games := s.games.eraseIdx gi }, [], []⟩

/-! ## The scheduler tick -/

/-- The message of `broadcastGameState(game)`, for a started game. -/
def broadcastGameState (clients : List Nat) (objects : Nat → Player) (game : Game)
    (now : Int) : List Event :=
  if !game.started then []
  else
    [Event.gameStateSync (recipients clients game)
      (game.players.map (fun id =>
        ⟨id, (objects id).tileX, (objects id).tileY, (objects id).direction,
          (objects id).moving, (objects id).lives, (objects id).activeBombs,
          (objects id).speed⟩)) now]

/-- The body of the tick for one game: damage check, purge, tick counter and
the state broadcast on every 15th tick. -/
def tickGame (clients : List Nat) (objects : Nat → Player) (game : Game) (now : Int)
    (rand : Rand) : CheckResult :=
  if game.started then
    let r := checkExplosionCollisions clients objects game now rand
    let game1 := cleanupExpiredExplosions r.game now
    let tickCount : Nat :=
      (match game1.tickCount with
        | none => 0
        | some n => n) + 1
    let game2 : Game := { game1 with tickCount := some tickCount }
    ⟨r.objects, game2,
      r.events ++ (if tickCount % 15 = 0 then broadcastGameState clients r.objects game2 now
        else []),
      r.rand⟩
  else ⟨objects, game, [], rand⟩

/-- The loop `Object.values(games).forEach` of the tick over a list of games;
the result holds the games after their tick, in order. -/
def tickGames (clients : List Nat) :
    (Nat → Player) → List Game → Int → Rand → (Nat → Player) × List Game × List Event × Rand
  | objects, [], _, rand => (objects, [], [], rand)
  | objects, game :: rest, now, rand =>
    let r := tickGame clients objects game now rand
    let r' := tickGames clients r.objects rest now r.rand
    (r'.1, r.game :: r'.2.1, r.events ++ r'.2.2.1, r'.2.2.2)

/-- The callback of `tickInterval`, at time `now`. -/
def tick (s : Server) (now : Int) (rand : Rand) : Outcome × Rand :=
  let r := tickGames s.clients s.objects s.games now rand
  (⟨{ s with objects := r.1, games := r.2.1 }, r.2.2.1, []⟩, r.2.2.2)

/-! ## Reachable worlds -/

/-- One operation of the server on its world.  Messages come from connected
clients; a callback may run at any time (a `bombExploded` step from any id also
covers the callback of a chain reaction); `orphanStart` is the countdown
callback of a session that has left the registry with its interval still
running: it starts that session, which only writes to the objects of its
players.  The operations that leave the world as it is (`chatMessage`,
`getClientId`, `verifyGameOver`) need no step. -/
inductive Step : Server → Server → Prop where
  | connect (s : Server) (clientId : Nat) :
      clientId ∉ s.clients → (∀ g ∈ s.games, clientId ∉ g.players) →
      Step s (connect s clientId).server
  | disconnect (s : Server) (clientId : Nat) :
      clientId ∈ s.clients → Step s (handleDisconnect s clientId).server
  | joinGame (s : Server) (clientId : Nat) (nickname : String) (gameId baseHue : Nat) :
      clientId ∈ s.clients → Step s (handleJoinGame s clientId nickname gameId baseHue).server
  | playerUpdate (s : Server) (clientId : Nat) (data : PlayerUpdateData) (out : Outcome) :
      clientId ∈ s.clients → handlePlayerUpdate s clientId data = some out → Step s out.server
  | bombPlaced (s : Server) (clientId : Nat) (data : BombPlacedData) (now : Int)
      (out : Outcome) :
      clientId ∈ s.clients → handleBombPlaced s clientId data now = some out →
      Step s out.server
  | bombExploded (s : Server) (clientId : Nat) (data : BombExplodedData) (now : Int)
      (rand rand1 : Rand) (out : Outcome) :
      handleBombExploded s clientId data now rand = some (out, rand1) → Step s out.server
  | powerUpCollected (s : Server) (clientId : Nat) (data : PowerUpCollectedData) :
      clientId ∈ s.clients → Step s (handlePowerUpCollected s clientId data).server
  | gameEnded (s : Server) (clientId : Nat) (data : Option GameEndedData) (out : Outcome) :
      clientId ∈ s.clients → handleGameEnded s clientId data = some out → Step s out.server
  | countdownTick (s : Server) (gi : Nat) (rand rand1 : Rand) (out : Outcome) :
      countdownTick s gi rand = some (out, rand1) → Step s out.server
  | tick (s : Server) (now : Int) (rand : Rand) : Step s (tick s now rand).1.server
  | gameOverTimer (s : Server) (game : Game) (winner : Option Nat) :
      Step s (gameOverCallback s game winner).server
  | orphanStart (s : Server) (players : List Nat) :
      Step s { s with objects := (startPlayers s.objects players).1 }

/-- The worlds that the server can be in: those reached by its operations from
the world without client and without session. -/
def Reachable (s : Server) : Prop :=
  ∃ objects, Relation.ReflTransGen Step ⟨objects, [], []⟩ s

/-! ## The blast as the specification words it -/

/-- The tile at distance `i` from `(x, y)` along `dir`. -/
def rayPoint (x y : Int) (dir : Direction) (i : Nat) : Int × Int :=
  (x + dir.dx * (i : Int), y + dir.dy * (i : Int))

/-- A map is rectangular: every row is as long as the first one. -/
def Rectangular (m : TileMap) : Prop :=
  ∀ row ∈ m, row.length = (m.headD []).length

instance (m : TileMap) : Decidable (Rectangular m) := by
  unfold Rectangular
  infer_instance

/-- The tile `(x, y)` is inside the grid: the map has a tile there. -/
def InGrid (m : TileMap) (x y : Int) : Prop :=
  (tileAt m x y).isSome = true

instance (m : TileMap) (x y : Int) : Decidable (InGrid m x y) := by
  unfold InGrid
  infer_instance

/-- A ray is cut before a tile that is a wall or lies outside the grid. -/
def cutBefore (m : TileMap) (p : Int × Int) : Bool :=
  decide (tileAt m p.1 p.2 = none ∨ tileAt m p.1 p.2 = some Tile.wall)

/-- A ray is cut at a block tile. -/
def cutAt (m : TileMap) (p : Int × Int) : Bool :=
  decide (tileAt m p.1 p.2 = some Tile.block)

/-- The number `k` of tiles of the ray of a bomb of power `P`: with `i` the
first distance in `1..P` whose tile cuts the ray, `k = i - 1` when the ray is
cut before that tile, `k = i` when it is cut at it; `k = P` when nothing cuts
the ray. -/
def rayReach (m : TileMap) (x y : Int) (dir : Direction) (P : Nat) : Nat :=
  match (List.range' 1 P).find?
      (fun i => cutBefore m (rayPoint x y dir i) || cutAt m (rayPoint x y dir i)) with
  | none => P
  | some i => if cutBefore m (rayPoint x y dir i) then i - 1 else i

/-- The tiles at distance `1..k` along `dir`. -/
def specRay (m : TileMap) (x y : Int) (dir : Direction) (P : Nat) : List (Int × Int) :=
  (List.range' 1 (rayReach m x y dir P)).map (rayPoint x y dir)

/-- The blast of a bomb of power `P` at `(x, y)`: the bomb tile first, then the
four rays. -/
def specBlast (m : TileMap) (x y : Int) (P : Nat) : List (Int × Int) :=
  (x, y) :: (specRay m x y .right P ++ specRay m x y .left P ++ specRay m x y .down P ++
    specRay m x y .up P)

/-- Coordinates of a blast tile. -/
def BlastTile.coords (t : BlastTile) : Int × Int := (t.x, t.y)

/-- Number of tiles that a ray still collects when it has reached distance `i`
with `n` steps left. -/
def reachFrom (m : TileMap) (x y : Int) (dir : Direction) : Nat → Nat → Nat
  | 0, _ => 0
  | n + 1, i =>
    if cutBefore m (rayPoint x y dir i) then 0
    else if cutAt m (rayPoint x y dir i) then 1
    else 1 + reachFrom m x y dir n (i + 1)

/-- The rays of a list of directions, one after the other. -/
def specRays (m : TileMap) (x y : Int) (P : Nat) : List Direction → List (Int × Int)
  | [] => []
  | dir :: rest => specRay m x y dir P ++ specRays m x y P rest

/-! ## The map as the specification words it -/

/-- The cell `(x, y)` of the 15 x 13 grid lies on the border or has both
coordinates even. -/
def IsWallCell (x y : Nat) : Prop :=
  x = 0 ∨ x = 14 ∨ y = 0 ∨ y = 12 ∨ (x % 2 = 0 ∧ y % 2 = 0)

instance (x y : Nat) : Decidable (IsWallCell x y) := by
  unfold IsWallCell
  infer_instance

/-- A grid of 13 rows of 15 tiles whose walls are exactly the wall cells. -/
def WallsInPlace (m : TileMap) : Prop :=
  m.length = 13 ∧ (∀ row ∈ m, row.length = 15) ∧
    ∀ (x y : Nat) (t : Tile), tileAt m x y = some t → (t = Tile.wall ↔ IsWallCell x y)

/-- Every session of the list has at most 4 entries in its player list. -/
def AtMostFour (games : List Game) : Prop :=
  ∀ g ∈ games, g.players.length ≤ 4

/-- Whether a message is a `gameEnded` message. -/
def Event.isGameEnded : Event → Bool
  | Event.gameEnded _ _ _ => true
  | _ => false

/-! ## The chain-reaction schedule as the specification words it -/

/-- The live bombs other than the one at position `idx` whose tile is a tile of
the blast, in live-list order. -/
def remainingHit (bombs : List Bomb) (idx : Nat) (tiles : List BlastTile) : List Bomb :=
  (bombs.enum.filter (fun jb => decide (jb.1 ≠ idx) &&
    decide ((jb.2.tileX, jb.2.tileY) ∈ tiles.map BlastTile.coords))).map Prod.snd

/-- The schedule of a list of bombs: the bomb at position `index` detonates
through its owner after `100 * (index + 1)` ms. -/
def chainSchedule (gameId : Nat) (chain : List Bomb) : List Timer :=
  chain.enum.map (fun kb => Timer.chainReaction (100 * (kb.1 + 1)) gameId kb.2.ownerId kb.2.id
    kb.2.tileX kb.2.tileY kb.2.power)

/-! ## The damage check seen from one player -/

/-- What one call of the callback in `checkExplosionCollisions` does to the
player object it is called on. -/
def hitStep (activeExplosions : List Explosion) (now : Int) (player : Player) : Player :=
  if player.lives ≤ 0 then player
  else
    let lastHitTime : Int :=
      match player.lastHitTime with
      | none => 0
      | some t => t
    let hitByExplosions : List (Nat × Int) :=
      match player.hitByExplosions with
      | none => []
      | some hits => hits
    let player1 : Player :=
      { player with lastHitTime := some lastHitTime, hitByExplosions := some hitByExplosions }
    if now - lastHitTime < 3000 then player1
    else
      match findHit activeExplosions player1 with
      | none => player1
      | some explosion =>
        if truthyId explosion.bombId then
          { player1 with
            lastHitTime := some now
            lives := player1.lives - 1
            hitByExplosions := some (mapSet hitByExplosions explosion.bombId now) }
        else player1

/-- A sequence of runs of `checkExplosionCollisions` on one session.  Each run
comes with its time and with the list of active explosions found at that time
(detonations add tiles and the purge removes tiles between two runs). -/
def runChecks (clients : List Nat) :
    (Nat → Player) → Game → Rand → List (Int × Option (List Explosion)) → CheckResult
  | objects, game, rand, [] => ⟨objects, game, [], rand⟩
  | objects, game, rand, (now, explosions) :: rest =>
    let r := checkExplosionCollisions clients objects { game with activeExplosions := explosions }
      now rand
    let r' := runChecks clients r.objects r.game r.rand rest
    ⟨r'.objects, r'.game, r.events ++ r'.events, r'.rand⟩

/-! ## The registry and the bomb counters as the specification words them -/

/-- Every session of the first list has a session with the same id in the second
list: no session has been removed. -/
def IdsKept (games games' : List Game) : Prop :=
  ∀ g ∈ games, ∃ g' ∈ games', g'.id = g.id

/-- The number of bombs of the list whose `ownerId` is `id`, as an integer like the
counters of the player objects. -/
def ownedBombs (bombs : List Bomb) (id : Nat) : Int :=
  ((bombs.filter (fun b => b.ownerId == id)).length : Int)

/-- The bookkeeping of bombs holds in a world: its only session is started and has
its bomb list, and each player of it has `activeBombs` equal to the number of
its live bombs, with `activeBombs <= bombCount <= 6`. -/
def BombsCounted (s : Server) : Prop :=
  ∃ game bombs, s.games = [game] ∧ game.started = true ∧ game.state.bombs = some bombs ∧
    ∀ id ∈ game.players,
      (s.objects id).activeBombs = ownedBombs bombs id ∧
      (s.objects id).activeBombs ≤ (s.objects id).bombCount ∧ (s.objects id).bombCount ≤ 6

/-- The worlds of a started session: the world that `startGame` leaves, run on the
only session of the registry, followed by any number of `bombPlaced`,
`bombExploded`, `powerUpCollected` and `playerUpdate` messages, from any sender,
that the handlers return from. -/
inductive Played : Server → Prop where
  | start (s : Server) (game : Game) (rand : Rand) :
      s.games = [game] → Played (startGame s 0 game rand).1.server
  | bombPlaced (s : Server) (clientId : Nat) (data : BombPlacedData) (now : Int)
      (out : Outcome) :
      Played s → handleBombPlaced s clientId data now = some out → Played out.server
  | bombExploded (s : Server) (clientId : Nat) (data : BombExplodedData) (now : Int)
      (rand rand1 : Rand) (out : Outcome) :
      Played s → handleBombExploded s clientId data now rand = some (out, rand1) →
      Played out.server
  | powerUpCollected (s : Server) (clientId : Nat) (data : PowerUpCollectedData) :
      Played s → Played (handlePowerUpCollected s clientId data).server
  | playerUpdate (s : Server) (clientId : Nat) (data : PlayerUpdateData) (out : Outcome) :
      Played s → handlePlayerUpdate s clientId data = some out → Played out.server

/-! ## Sample states -/

/-- A map with walls on the border, a block at `(3, 1)` and a wall at `(1, 2)`. -/
def demoMap : TileMap :=
  [[.wall, .wall, .wall, .wall, .wall],
   [.wall, .empty, .empty, .block, .wall],
   [.wall, .wall, .empty, .empty, .wall],
   [.wall, .empty, .empty, .empty, .wall],
   [.wall, .wall, .wall, .wall, .wall]]

/-- A player standing on tile `(1, 1)` with the stats that `startGame` assigns. -/
def demoPlayer : Player :=
  { nickname := "ann", lives := 3, bombCount := 1, bombPower := 1, speed := 3
    tileX := 1, tileY := 1, direction := some .down, moving := some false
    activeBombs := 0, lastHitTime := none, hitByExplosions := none }

/-- A started session on `demoMap` with the players 1 and 2 and no bomb. -/
def demoGame : Game :=
  { id := 10, players := [1, 2], state := { map := some demoMap, bombs := some [] }
    countdown := none, started := true, baseHue := 0
    activeExplosions := none, lastExplosionCheck := none, tickCount := none }

/-- Client objects: player 2 stands on `(3, 3)`, every other one on `(1, 1)`. -/
def demoObjects : Nat → Player :=
  fun i => if i = 2 then { demoPlayer with nickname := "bob", tileX := 3, tileY := 3 }
    else demoPlayer

/-- A server with the two connected clients 1 and 2 in `demoGame`. -/
def demoServer : Server :=
  { objects := demoObjects, clients := [1, 2], games := [demoGame] }

/-- Client objects of `demoObjects`, each with one bomb placed. -/
def armedObjects : Nat → Player :=
  fun i => { demoObjects i with activeBombs := 1 }

/-- The session `demoGame` with two live bombs: bomb 8 of player 1 on `(1, 1)`
and bomb 7 of player 2 on `(2, 1)`. -/
def armedGame : Game :=
  { demoGame with
    state := { map := some demoMap
               bombs := some [⟨8, 1, 1, 1, 1, 0, 3000⟩, ⟨7, 2, 1, 1, 2, 0, 3000⟩] } }

/-- A server holding `armedGame`. -/
def armedServer : Server :=
  { objects := armedObjects, clients := [1, 2], games := [armedGame] }

/-- A server on which player 1 may hold two bombs at a time. -/
def twoBombServer : Server :=
  { objects := fun i => { demoObjects i with bombCount := 2 }, clients := [1, 2]
    games := [demoGame] }

/-- The world after player 1 of `twoBombServer` has sent `bombPlaced` twice with
the bomb id 8 and the tile `(1, 1)`. -/
def placedTwice : Option Server :=
  (handleBombPlaced twoBombServer 1 ⟨8, 1, 1⟩ 0).bind (fun o1 =>
    (handleBombPlaced o1.server 1 ⟨8, 1, 1⟩ 5).map (fun o2 => o2.server))

/-- The session `demoGame` with one explosion tile of bomb 8 on `(1, 1)` that
expires at time 5000. -/
def blastGame : Game :=
  { demoGame with activeExplosions := some [⟨8, 1, 1, 5000⟩] }

/-- A recruiting session with the single player 1: the state after the first
join. -/
def lobbyGame : Game :=
  { id := 10, players := [1], state := { map := none, bombs := none }
    countdown := none, started := false, baseHue := 0
    activeExplosions := none, lastExplosionCheck := none, tickCount := none }

/-- A server with five connected clients, client 1 waiting in `lobbyGame`. -/
def lobbyServer : Server :=
  { objects := demoObjects, clients := [1, 2, 3, 4, 5], games := [lobbyGame] }

/-- A recruiting session with three players and a running countdown. -/
def lobbyGame3 : Game :=
  { lobbyGame with players := [1, 2, 3], countdown := some ⟨12, Phase.waiting⟩ }

/-- A server with five connected clients, three of them in `lobbyGame3`. -/
def lobbyServer3 : Server :=
  { objects := demoObjects, clients := [1, 2, 3, 4, 5], games := [lobbyGame3] }

/-- A server with five connected clients and the started session `demoGame`. -/
def startedServer : Server :=
  { objects := demoObjects, clients := [1, 2, 3, 4, 5], games := [demoGame] }

/-- The world after client 1, alone on the server, has sent `joinGame` twice. -/
def doubleJoin : Server :=
  (handleJoinGame (handleJoinGame ⟨demoObjects, [1], []⟩ 1 "ann" 10 0).server 1 "ann" 11 0).server

/-- Client objects of `armedObjects` with player 2 out of lives. -/
def overObjects : Nat → Player :=
  fun i => if i = 2 then { armedObjects 2 with lives := 0 } else armedObjects i

/-- A server holding `armedGame` in which only player 1 is alive. -/
def overServer : Server :=
  { objects := overObjects, clients := [1, 2], games := [armedGame] }

/-- Client objects of `demoObjects` with player 2 on the last life. -/
def lastLifeObjects : Nat → Player :=
  fun i => if i = 2 then { demoObjects 2 with lives := 1 } else demoObjects i

/-- The session `demoGame` with a blast tile of bomb 8 burning on `(3, 3)`. -/
def burningGame : Game :=
  { demoGame with activeExplosions := some [⟨8, 3, 3, 5500⟩] }

/-- A server holding `burningGame`, player 2 on the last life. -/
def lastLifeServer : Server :=
  { objects := lastLifeObjects, clients := [1, 2], games := [burningGame] }

/-- The world after client 1 has connected to the empty server. -/
def connectedOnce : Server :=
  (connect ⟨demoObjects, [], []⟩ 1).server

/-- The world after client 1 has then sent `joinGame`: a recruiting session with one player. -/
def joinedOnce : Server :=
  (handleJoinGame connectedOnce 1 "ann" 10 0).server

/-- The world after client 1 has sent `joinGame` a second time. -/
def joinedTwice : Server :=
  (handleJoinGame joinedOnce 1 "ann" 11 0).server

/-- The world after the clients 1 and 2 have connected and each has sent `joinGame`:
a recruiting session with two players. -/
def recruiting : Server :=
  (handleJoinGame (handleJoinGame (connect connectedOnce 2).server 1 "ann" 10 0).server 2 "bob"
    11 0).server

/-- A `playerUpdate` message with numeric coordinates, `forceUpdate` and `speed: 99`. -/
def fastUpdate : PlayerUpdateData :=
  ⟨some 1, some 1, some Direction.down, some false, some 99, none, true⟩

/-- What `handlePlayerUpdate` leaves behind for `fastUpdate` from client 1 of
`joinedOnce` (the handler returns there). -/
def fastOutcome : Outcome :=
  (handlePlayerUpdate joinedOnce 1 fastUpdate).getD ⟨joinedOnce, [], []⟩

/-- The world after `startGame` on the session of `lobbyServer3`. -/
def startedLobby : Server :=
  (startGame lobbyServer3 0 lobbyGame3 (fun _ => 1 / 2)).1.server

/-- What `handleBombPlaced` leaves behind when player 1 of `startedLobby` places
bomb 8 on (1,1) (the handler returns there). -/
def placedOutcome : Outcome :=
  (handleBombPlaced startedLobby 1 ⟨8, 1, 1⟩ 0).getD ⟨startedLobby, [], []⟩

/-- The `gameEnded` message of a client whose game timer ran out with players
1 and 2 in the game: reason 'timeExpired', `winnerId: null`. -/
def timeExpired : GameEndedData :=
  ⟨false, IdValue.null, some [some (IdValue.id 1), some (IdValue.id 2)]⟩

/-- What `handleGameEnded` leaves behind for `timeExpired` from player 1 of
`demoServer` (the handler returns there). -/
def endedOutcome : Outcome :=
  (handleGameEnded demoServer 1 (some timeExpired)).getD ⟨demoServer, [], []⟩

/-! ## Lemmas on map access -/

theorem tileAt_eq_none_of_lt {m : TileMap} {x y : Int} (h : x < 0 ∨ y < 0) :
    tileAt m x y = none := by
  unfold tileAt
  rw [if_neg]
  omega

theorem tileAt_of_nonneg {m : TileMap} {x y : Int} (hx : 0 ≤ x) (hy : 0 ≤ y) :
    tileAt m x y = (m[y.toNat]?).bind (fun row => row[x.toNat]?) := by
  unfold tileAt
  rw [if_pos ⟨hx, hy⟩]
  cases m[y.toNat]? <;> rfl

theorem setTile_map_length (m : TileMap) (x y : Int) (t : Tile) :
    (setTile m x y t).map List.length = m.map List.length := by
  unfold setTile
  cases h : m[y.toNat]? with
  | none => rfl
  | some row =>
    simp only [List.map_set, List.length_set]
    apply List.ext_getElem?
    intro j
    rw [List.getElem?_set]
    split
    · next hj =>
      subst hj
      simp only [List.length_map, List.getElem?_map, h, Option.map_some']
      have := (List.getElem?_eq_some.mp h).1
      simp [this]
    · rfl

theorem tileAt_setTile_ne (m : TileMap) {x y p q : Int} (t : Tile) (hx : 0 ≤ x) (hy : 0 ≤ y)
    (hne : (p, q) ≠ (x, y)) : tileAt (setTile m x y t) p q = tileAt m p q := by
  by_cases hp : 0 ≤ p ∧ 0 ≤ q
  · obtain ⟨hp, hq⟩ := hp
    rw [tileAt_of_nonneg hp hq, tileAt_of_nonneg hp hq]
    unfold setTile
    cases h : m[y.toNat]? with
    | none => rfl
    | some row =>
      by_cases hqy : y.toNat = q.toNat
      · have hxp : x.toNat ≠ p.toNat := by
          intro hxp
          apply hne
          have h1 : p = x := by omega
          have h2 : q = y := by omega
          rw [h1, h2]
        rw [hqy] at h ⊢
        rw [List.getElem?_set, if_pos rfl, h]
        have := (List.getElem?_eq_some.mp h).1
        simp only [this, if_true, Option.some_bind]
        rw [List.getElem?_set_ne hxp]
      · rw [List.getElem?_set_ne hqy]
  · rw [tileAt_eq_none_of_lt (by omega), tileAt_eq_none_of_lt (by omega)]

theorem tileAt_eq_none_iff {m : TileMap} {row0 : List Tile} (hrect : Rectangular m)
    (hhead : m.head? = some row0) (x y : Int) :
    tileAt m x y = none ↔
      (x < 0 ∨ x ≥ (row0.length : Int) ∨ y < 0 ∨ y ≥ (m.length : Int)) := by
  by_cases hneg : x < 0 ∨ y < 0
  · rw [tileAt_eq_none_of_lt hneg]
    constructor
    · intro _
      omega
    · intro _
      rfl
  · have hx : 0 ≤ x := by omega
    have hy : 0 ≤ y := by omega
    rw [tileAt_of_nonneg hx hy]
    by_cases hlen : y.toNat < m.length
    · have hrow : m[y.toNat] ∈ m := List.getElem_mem hlen
      have hl := hrect _ hrow
      have hd : m.headD [] = row0 := by
        cases m with
        | nil => simp at hhead
        | cons a as =>
          simp only [List.head?_cons, Option.some.injEq] at hhead
          simp [hhead]
      rw [hd] at hl
      rw [List.getElem?_eq_getElem hlen, Option.some_bind, List.getElem?_eq_none_iff]
      omega
    · rw [List.getElem?_eq_none (by omega), Option.none_bind]
      constructor
      · intro _
        omega
      · intro _
        rfl

theorem head?_length_of_shape {m m' : TileMap} {row0 : List Tile}
    (hshape : m'.map List.length = m.map List.length) (hhead : m.head? = some row0) :
    ∃ row0', m'.head? = some row0' ∧ row0'.length = row0.length := by
  cases m with
  | nil => simp at hhead
  | cons a as =>
    cases m' with
    | nil => simp at hshape
    | cons b bs =>
      simp only [List.map_cons, List.cons.injEq] at hshape
      simp only [List.head?_cons, Option.some.injEq] at hhead
      exact ⟨b, rfl, by rw [hshape.1, hhead]⟩

theorem length_of_shape {m m' : TileMap} (hshape : m'.map List.length = m.map List.length) :
    m'.length = m.length := by
  have := congrArg List.length hshape
  simpa using this

theorem rayPoint_dir_inj (x y : Int) {d d' : Direction} {i j : Nat} (hi : 1 ≤ i) (hj : 1 ≤ j)
    (h : rayPoint x y d i = rayPoint x y d' j) : d = d' := by
  cases d <;> cases d' <;> simp [rayPoint, Direction.dx, Direction.dy] at h ⊢ <;> omega

/-- One ray of the code against `reachFrom`: the loop run on a map `m'` that has
the shape of `m` and agrees with it along the ray collects the tiles that
`reachFrom` counts on `m`, and changes `m'` on this ray only. -/
theorem rayLoop_spec (dest : List Nat) (bomb : BlastSource) (dir : Direction) (m : TileMap)
    (row0 : List Tile) (hrect : Rectangular m) (hhead : m.head? = some row0) :
    ∀ (n i : Nat) (st : Blast) (m' : TileMap), 1 ≤ i → st.map = some m' →
      m'.map List.length = m.map List.length →
      (∀ j, i ≤ j → tileAt m' (rayPoint bomb.tileX bomb.tileY dir j).1
          (rayPoint bomb.tileX bomb.tileY dir j).2 =
        tileAt m (rayPoint bomb.tileX bomb.tileY dir j).1
          (rayPoint bomb.tileX bomb.tileY dir j).2) →
      ∃ st', rayLoop dest bomb dir n i st = some st' ∧
        st'.tiles.map BlastTile.coords = st.tiles.map BlastTile.coords ++
          (List.range' i (reachFrom m bomb.tileX bomb.tileY dir n i)).map
            (rayPoint bomb.tileX bomb.tileY dir) ∧
        ∃ m'', st'.map = some m'' ∧ m''.map List.length = m.map List.length ∧
          ∀ p q, (∀ j, 1 ≤ j → (p, q) ≠ rayPoint bomb.tileX bomb.tileY dir j) →
            tileAt m'' p q = tileAt m' p q := by
  intro n
  induction n with
  | zero =>
    intro i st m' _ hmap hshape _
    exact ⟨st, rfl, by simp [reachFrom], m', hmap, hshape, fun _ _ _ => rfl⟩
  | succ n ih =>
    intro i st m' hi hmap hshape hagree
    obtain ⟨row0', hhead', hlen0⟩ := head?_length_of_shape hshape hhead
    have hlen := length_of_shape hshape
    have hpt := hagree i (le_refl i)
    have hnone := tileAt_eq_none_iff hrect hhead (rayPoint bomb.tileX bomb.tileY dir i).1
      (rayPoint bomb.tileX bomb.tileY dir i).2
    simp only [rayPoint] at hpt hnone
    simp only [rayLoop, hmap, hhead', hlen0, hlen]
    by_cases hoob : bomb.tileX + dir.dx * (i : Int) < 0 ∨
        bomb.tileX + dir.dx * (i : Int) ≥ (row0.length : Int) ∨
        bomb.tileY + dir.dy * (i : Int) < 0 ∨ bomb.tileY + dir.dy * (i : Int) ≥ (m.length : Int)
    · rw [if_pos hoob]
      have hcut : cutBefore m (rayPoint bomb.tileX bomb.tileY dir i) = true := by
        simp only [cutBefore, rayPoint, decide_eq_true_eq]
        exact Or.inl (hnone.mpr hoob)
      refine ⟨st, rfl, ?_, m', hmap, hshape, fun _ _ _ => rfl⟩
      simp [reachFrom, hcut]
    · rw [if_neg hoob]
      have hsome : tileAt m (bomb.tileX + dir.dx * (i : Int)) (bomb.tileY + dir.dy * (i : Int))
          ≠ none := fun h => hoob (hnone.mp h)
      by_cases hwall : tileAt m (bomb.tileX + dir.dx * (i : Int))
          (bomb.tileY + dir.dy * (i : Int)) = some Tile.wall
      · rw [hpt, if_pos hwall]
        have hcut : cutBefore m (rayPoint bomb.tileX bomb.tileY dir i) = true := by
          simp only [cutBefore, rayPoint, decide_eq_true_eq]
          exact Or.inr hwall
        refine ⟨st, rfl, ?_, m', hmap, hshape, fun _ _ _ => rfl⟩
        simp [reachFrom, hcut]
      · rw [hpt, if_neg hwall]
        have hcut : cutBefore m (rayPoint bomb.tileX bomb.tileY dir i) = false := by
          simp only [cutBefore, rayPoint, decide_eq_false_iff_not]
          rintro (h | h)
          · exact hsome h
          · exact hwall h
        by_cases hblock : tileAt m (bomb.tileX + dir.dx * (i : Int))
            (bomb.tileY + dir.dy * (i : Int)) = some Tile.block
        · rw [if_pos hblock]
          have hat : cutAt m (rayPoint bomb.tileX bomb.tileY dir i) = true := by
            simp only [cutAt, rayPoint, decide_eq_true_eq]
            exact hblock
          refine ⟨_, rfl, ?_, _, rfl, ?_, ?_⟩
          · simp only [reachFrom, hcut, hat, Bool.false_eq_true, if_false, if_true]
            simp [BlastTile.coords, rayPoint]
          · rw [setTile_map_length, hshape]
          · intro p q hpq
            apply tileAt_setTile_ne
            · omega
            · omega
            · have := hpq i hi
              simpa [rayPoint] using this
        · rw [if_neg hblock]
          have hat : cutAt m (rayPoint bomb.tileX bomb.tileY dir i) = false := by
            simp only [cutAt, rayPoint, decide_eq_false_iff_not]
            exact hblock
          obtain ⟨st', hrun, htiles, m'', hmap'', hshape'', hframe⟩ :=
            ih (i + 1) { tiles := st.tiles ++
              [⟨bomb.tileX + dir.dx * (i : Int), bomb.tileY + dir.dy * (i : Int), some dir,
                decide (i = bomb.power)⟩], map := some m', events := st.events, rand := st.rand }
              m' (by omega) rfl hshape (fun j hj => hagree j (by omega))
          refine ⟨st', hrun, ?_, m'', hmap'', hshape'', hframe⟩
          rw [htiles]
          simp only [reachFrom, hcut, hat, Bool.false_eq_true, if_false, List.map_append,
            List.map_cons, List.map_nil, BlastTile.coords, List.append_assoc, List.singleton_append]
          rw [Nat.add_comm 1, List.range'_succ]
          simp [rayPoint]

/-- The count of `reachFrom` in closed form: the first cutting distance decides. -/
theorem reachFrom_eq_find (m : TileMap) (x y : Int) (dir : Direction) :
    ∀ (n i : Nat), reachFrom m x y dir n i =
      match (List.range' i n).find?
          (fun j => cutBefore m (rayPoint x y dir j) || cutAt m (rayPoint x y dir j)) with
      | none => n
      | some j => if cutBefore m (rayPoint x y dir j) then j - i else j - i + 1 := by
  intro n
  induction n with
  | zero =>
    intro i
    simp [reachFrom]
  | succ n ih =>
    intro i
    rw [List.range'_succ, List.find?_cons, reachFrom]
    cases hcb : cutBefore m (rayPoint x y dir i) with
    | true => simp [hcb]
    | false =>
      cases hca : cutAt m (rayPoint x y dir i) with
      | true => simp [hcb]
      | false =>
        simp only [Bool.or_self, Bool.false_eq_true, if_false]
        rw [ih (i + 1)]
        cases hfind : (List.range' (i + 1) n).find?
            (fun j => cutBefore m (rayPoint x y dir j) || cutAt m (rayPoint x y dir j)) with
        | none =>
          show 1 + n = n + 1
          omega
        | some j =>
          have hmem := List.mem_of_find?_eq_some hfind
          rw [List.mem_range'_1] at hmem
          show (1 + if cutBefore m (rayPoint x y dir j) = true then j - (i + 1)
            else j - (i + 1) + 1) =
            if cutBefore m (rayPoint x y dir j) = true then j - i else j - i + 1
          split <;> omega

theorem rayReach_eq_reachFrom (m : TileMap) (x y : Int) (dir : Direction) (P : Nat) :
    rayReach m x y dir P = reachFrom m x y dir P 1 := by
  rw [reachFrom_eq_find, rayReach]
  cases hfind : (List.range' 1 P).find?
      (fun j => cutBefore m (rayPoint x y dir j) || cutAt m (rayPoint x y dir j)) with
  | none => rfl
  | some j =>
    have hmem := List.mem_of_find?_eq_some hfind
    rw [List.mem_range'_1] at hmem
    show (if cutBefore m (rayPoint x y dir j) = true then j - 1 else j) =
      if cutBefore m (rayPoint x y dir j) = true then j - 1 else j - 1 + 1
    split <;> omega

/-- The rays of a list of pairwise different directions: each is computed on a
map that earlier rays changed on their own tiles only, so the result is the one
read off the initial map `m`. -/
theorem raysLoop_spec (dest : List Nat) (bomb : BlastSource) (m : TileMap) (row0 : List Tile)
    (hrect : Rectangular m) (hhead : m.head? = some row0) :
    ∀ (dirs : List Direction) (st : Blast) (m' : TileMap), dirs.Nodup → st.map = some m' →
      m'.map List.length = m.map List.length →
      (∀ d ∈ dirs, ∀ j, 1 ≤ j → tileAt m' (rayPoint bomb.tileX bomb.tileY d j).1
          (rayPoint bomb.tileX bomb.tileY d j).2 =
        tileAt m (rayPoint bomb.tileX bomb.tileY d j).1
          (rayPoint bomb.tileX bomb.tileY d j).2) →
      ∃ st', raysLoop dest bomb dirs st = some st' ∧
        st'.tiles.map BlastTile.coords = st.tiles.map BlastTile.coords ++
          specRays m bomb.tileX bomb.tileY bomb.power dirs := by
  intro dirs
  induction dirs with
  | nil =>
    intro st m' _ _ _ _
    exact ⟨st, rfl, by simp [specRays]⟩
  | cons d rest ih =>
    intro st m' hnodup hmap hshape hagree
    obtain ⟨st1, hrun1, htiles1, m1, hmap1, hshape1, hframe1⟩ :=
      rayLoop_spec dest bomb d m row0 hrect hhead bomb.power 1 st m' (le_refl 1) hmap hshape
        (fun j hj => hagree d (List.mem_cons_self d rest) j hj)
    have hd : d ∉ rest := (List.nodup_cons.mp hnodup).1
    obtain ⟨st2, hrun2, htiles2⟩ := ih st1 m1 (List.nodup_cons.mp hnodup).2 hmap1 hshape1
      (by
        intro d' hd' j hj
        rw [hframe1]
        · exact hagree d' (List.mem_cons_of_mem d hd') j hj
        · intro k hk heq
          have := rayPoint_dir_inj bomb.tileX bomb.tileY hj hk heq
          exact hd (this ▸ hd'))
    refine ⟨st2, ?_, ?_⟩
    · simp only [raysLoop, hrun1, hrun2]
    · rw [htiles2, htiles1, specRays, specRay, rayReach_eq_reachFrom, List.append_assoc]

/-- C1. For every rectangular map and every bomb of any power on a tile of the
grid, `calculateExplosionTiles` returns, and the coordinates of the tiles it returns
are exactly the bomb tile first, then for each of the four directions (right,
left, down, up) the tiles at distance `1..k`, where the ray is cut before the
first wall or out-of-grid tile, at the first block tile, and has `k = P`
otherwise. -/
theorem calculateExplosionTiles_coords (dest : List Nat) (m : TileMap) (bomb : BlastSource)
    (rand : Rand) (hrect : Rectangular m) (hin : InGrid m bomb.tileX bomb.tileY) :
    ∃ blast, calculateExplosionTiles dest (some m) bomb rand = some blast ∧
      blast.tiles.map BlastTile.coords = specBlast m bomb.tileX bomb.tileY bomb.power := by
  have hne : ∃ row0, m.head? = some row0 := by
    cases m with
    | nil => simp [InGrid, tileAt] at hin
    | cons a as => exact ⟨a, rfl⟩
  obtain ⟨row0, hhead⟩ := hne
  obtain ⟨st', hrun, htiles⟩ := raysLoop_spec dest bomb m row0 hrect hhead directions
    { tiles := [⟨bomb.tileX, bomb.tileY, none, false⟩], map := some m, events := [],
      rand := rand } m (by decide) rfl rfl (fun _ _ _ _ => rfl)
  refine ⟨st', hrun, ?_⟩
  rw [htiles]
  simp [specBlast, specRays, directions, BlastTile.coords]

theorem calculateExplosionTiles_coords_witness :
    Rectangular demoMap ∧ InGrid demoMap 1 1 ∧
    ∃ blast, calculateExplosionTiles [] (some demoMap) ⟨1, 1, 3, 7⟩ (fun _ => 1 / 2) =
        some blast ∧
      blast.tiles.map BlastTile.coords = specBlast demoMap 1 1 3 :=
  ⟨by decide, by decide,
    calculateExplosionTiles_coords [] demoMap ⟨1, 1, 3, 7⟩ (fun _ => 1 / 2) (by decide)
      (by decide)⟩

/-! ## Movement validation -/

/-- C2 (amended). `isValidMove` returns true only if the target tile is at
Manhattan distance at most 1 from the tile of the player, is inside the grid,
is neither a wall nor a block, and carries no live bomb. -/
theorem isValidMove_true_only_if (game : Game) (player : Player) (nx ny : Int)
    (h : isValidMove game player nx ny = some true) :
    ∃ m bombs, game.state.map = some m ∧ game.state.bombs = some bombs ∧
      |nx - player.tileX| + |ny - player.tileY| ≤ 1 ∧
      (0 ≤ nx ∧ nx < ((m.headD []).length : Int) ∧ 0 ≤ ny ∧ ny < (m.length : Int)) ∧
      tileAt m nx ny ≠ some Tile.wall ∧ tileAt m nx ny ≠ some Tile.block ∧
      ∀ b ∈ bombs, ¬ (b.tileX = nx ∧ b.tileY = ny) := by
  unfold isValidMove at h
  cases hm : game.state.map with
  | none => simp [hm] at h
  | some m =>
    cases hh : m.head? with
    | none => simp [hm, hh] at h
    | some row0 =>
      have hd : m.headD [] = row0 := by
        cases m with
        | nil => simp at hh
        | cons a as =>
          simp only [List.head?_cons, Option.some.injEq] at hh
          simp [hh]
      simp only [hm, hh] at h
      split at h
      · simp at h
      · next hdist =>
        split at h
        · simp at h
        · next hbounds =>
          cases hb : game.state.bombs with
          | none => simp [hb] at h
          | some bombs =>
            simp only [hb, Option.some.injEq, Bool.and_eq_true, decide_eq_true_eq,
              Bool.not_eq_true', List.any_eq_false] at h
            refine ⟨m, bombs, rfl, rfl, ?_, ?_, h.1.1, h.1.2, ?_⟩
            · omega
            · rw [hd]
              omega
            · intro b hbmem
              simpa using h.2 b hbmem

theorem isValidMove_true_only_if_witness :
    ∃ m bombs, demoGame.state.map = some m ∧ demoGame.state.bombs = some bombs ∧
      |(2 : Int) - demoPlayer.tileX| + |(1 : Int) - demoPlayer.tileY| ≤ 1 ∧
      (0 ≤ (2 : Int) ∧ (2 : Int) < ((m.headD []).length : Int) ∧ 0 ≤ (1 : Int) ∧
        (1 : Int) < (m.length : Int)) ∧
      tileAt m 2 1 ≠ some Tile.wall ∧ tileAt m 2 1 ≠ some Tile.block ∧
      ∀ b ∈ bombs, ¬ (b.tileX = 2 ∧ b.tileY = 1) :=
  isValidMove_true_only_if demoGame demoPlayer 2 1 (by decide)

/-- C2, as stated, fails: a move onto the tile the player already stands on
(Manhattan distance 0) is valid. -/
theorem isValidMove_distance_zero :
    isValidMove demoGame demoPlayer 1 1 = some true ∧
      |(1 : Int) - demoPlayer.tileX| + |(1 : Int) - demoPlayer.tileY| ≠ 1 := by
  decide

theorem findGame_some {s : Server} {clientId gi : Nat} {game : Game}
    (h : findGame s clientId = some (gi, game)) :
    findGameIdx s clientId = some gi ∧ s.games[gi]? = some game ∧
      game.players.contains clientId = true := by
  unfold findGame at h
  cases hidx : findGameIdx s clientId with
  | none => simp [hidx] at h
  | some i =>
    simp only [hidx] at h
    cases hget : s.games[i]? with
    | none => simp [hget] at h
    | some g =>
      simp only [hget, Option.some.injEq, Prod.mk.injEq] at h
      obtain ⟨rfl, rfl⟩ := h
      refine ⟨rfl, hget, ?_⟩
      unfold findGameIdx at hidx
      rw [List.findIdx?_eq_some_iff_getElem] at hidx
      obtain ⟨hlt, hp, _⟩ := hidx
      rw [List.getElem?_eq_getElem hlt, Option.some.injEq] at hget
      rw [← hget]
      exact hp

theorem isValidMove_congr (game : Game) (p p' : Player) (x y : Int)
    (hx : p'.tileX = p.tileX) (hy : p'.tileY = p.tileY) :
    isValidMove game p' x y = isValidMove game p x y := by
  simp only [isValidMove, hx, hy]

/-- C3. A `playerUpdate` with numeric tile coordinates and no `forceUpdate`
whose target tile fails `isValidMove` leaves `tileX`, `tileY`, `direction` and
`moving` of the player, and of every other client object, unchanged. -/
theorem handlePlayerUpdate_invalid_move (s : Server) (clientId gi : Nat) (game : Game)
    (data : PlayerUpdateData) (x y : Int)
    (hg : findGame s clientId = some (gi, game))
    (hx : data.tileX = some x) (hy : data.tileY = some y)
    (hforce : data.forceUpdate = false)
    (hinvalid : isValidMove game (s.objects clientId) x y = some false) :
    ∃ out, handlePlayerUpdate s clientId data = some out ∧
      ∀ id, (out.server.objects id).tileX = (s.objects id).tileX ∧
        (out.server.objects id).tileY = (s.objects id).tileY ∧
        (out.server.objects id).direction = (s.objects id).direction ∧
        (out.server.objects id).moving = (s.objects id).moving := by
  have hinv2 : ∀ p : Player, p.tileX = (s.objects clientId).tileX →
      p.tileY = (s.objects clientId).tileY → isValidMove game p x y = some false := by
    intro p h1 h2
    rw [isValidMove_congr game (s.objects clientId) p x y h1 h2, hinvalid]
  unfold handlePlayerUpdate
  simp only [hg, hx, hy, hforce, Bool.false_eq_true, if_false]
  rw [hinv2 _ (by cases data.speed <;> cases data.lives <;> rfl)
    (by cases data.speed <;> cases data.lives <;> rfl)]
  simp only []
  split
  all_goals
    refine ⟨_, rfl, ?_⟩
    intro id
    simp only [setObject]
    split
    · next hid =>
      subst hid
      cases data.speed <;> cases data.lives <;> exact ⟨rfl, rfl, rfl, rfl⟩
    · exact ⟨rfl, rfl, rfl, rfl⟩

theorem handlePlayerUpdate_invalid_move_witness :
    ∃ out, handlePlayerUpdate demoServer 1 ⟨some 3, some 1, some .right, some true, none,
        none, false⟩ = some out ∧
      ∀ id, (out.server.objects id).tileX = (demoServer.objects id).tileX ∧
        (out.server.objects id).tileY = (demoServer.objects id).tileY ∧
        (out.server.objects id).direction = (demoServer.objects id).direction ∧
        (out.server.objects id).moving = (demoServer.objects id).moving :=
  handlePlayerUpdate_invalid_move demoServer 1 0 demoGame
    ⟨some 3, some 1, some .right, some true, none, none, false⟩ 3 1 (by decide) rfl rfl rfl
    (by decide)

/-! ## Bomb placement -/

/-- C4. For a connected player of a session that has its bomb list (a started
session), `handleBombPlaced` rejects exactly when `activeBombs >= bombCount`.
On rejection the only message is `bombRejected` to the requester and the world
is unchanged.  Otherwise no rejection is sent, exactly one bomb is appended to
the live list, with the power of the player at that moment, the requester as
owner and the id and tile of the message, and `activeBombs` grows by one. -/
theorem handleBombPlaced_cap (s : Server) (clientId gi : Nat) (game : Game)
    (bombs : List Bomb) (data : BombPlacedData) (now : Int)
    (hg : findGame s clientId = some (gi, game))
    (hbombs : game.state.bombs = some bombs)
    (hconn : clientId ∈ s.clients) :
    ((s.objects clientId).activeBombs ≥ (s.objects clientId).bombCount →
      handleBombPlaced s clientId data now =
        some ⟨s, [Event.bombRejected clientId "Max bombs reached"], []⟩) ∧
    ((s.objects clientId).activeBombs < (s.objects clientId).bombCount →
      ∃ out game1, handleBombPlaced s clientId data now = some out ∧
        out.events = [Event.bombPlaced (recipients s.clients game) data.bombId data.tileX
          data.tileY clientId] ∧
        out.timers = [] ∧
        out.server.games[gi]? = some game1 ∧
        game1.state.bombs = some (bombs ++
          [⟨data.bombId, data.tileX, data.tileY, (s.objects clientId).bombPower, clientId,
            now, 3000⟩]) ∧
        (out.server.objects clientId).activeBombs = (s.objects clientId).activeBombs + 1) := by
  obtain ⟨_, hget, hmem⟩ := findGame_some hg
  have hconn' : s.clients.contains clientId = true := by simpa using hconn
  constructor
  · intro hcap
    unfold handleBombPlaced
    simp only [hg, hmem, hconn', if_true]
    rw [if_pos (Or.inr hcap)]
  · intro hfree
    unfold handleBombPlaced
    simp only [hg, hmem, hbombs]
    rw [if_neg (by
      rintro (h | h)
      · simp at h
      · omega)]
    refine ⟨_, { game with state := { game.state with bombs := some (bombs ++
      [⟨data.bombId, data.tileX, data.tileY, (s.objects clientId).bombPower, clientId,
        now, 3000⟩]) } }, rfl, rfl, rfl, ?_, rfl, ?_⟩
    · simp only [setGame]
      rw [List.getElem?_set, if_pos rfl, if_pos (List.getElem?_eq_some.mp hget).1]
    · simp [setObject]

theorem handleBombPlaced_cap_witness :
    ((demoServer.objects 1).activeBombs ≥ (demoServer.objects 1).bombCount →
      handleBombPlaced demoServer 1 ⟨7, 1, 1⟩ 100 =
        some ⟨demoServer, [Event.bombRejected 1 "Max bombs reached"], []⟩) ∧
    ((demoServer.objects 1).activeBombs < (demoServer.objects 1).bombCount →
      ∃ out game1, handleBombPlaced demoServer 1 ⟨7, 1, 1⟩ 100 = some out ∧
        out.events = [Event.bombPlaced (recipients demoServer.clients demoGame) 7 1 1 1] ∧
        out.timers = [] ∧
        out.server.games[0]? = some game1 ∧
        game1.state.bombs = some ([] ++
          [⟨7, 1, 1, (demoServer.objects 1).bombPower, 1, 100, 3000⟩]) ∧
        (out.server.objects 1).activeBombs = (demoServer.objects 1).activeBombs + 1) :=
  handleBombPlaced_cap demoServer 1 0 demoGame [] ⟨7, 1, 1⟩ 100 (by decide) rfl (by decide)

/-! ## Life updates sent by clients -/

/-- C6, failing input.  A `playerUpdate` with numeric coordinates and
`lives: 99` from a player whom the server holds at 3 lives: the life count of
the player becomes 99, although the message has no `forceUpdate` and does not
lower the count by one.  The same message without coordinates goes through the
validated branch and leaves the count at 3. -/
theorem handlePlayerUpdate_accepts_client_lives :
    (demoServer.objects 1).lives = 3 ∧
      (handlePlayerUpdate demoServer 1
        ⟨some 1, some 1, some .down, some false, none, some 99, false⟩).map
        (fun out => (out.server.objects 1).lives) = some 99 ∧
      (handlePlayerUpdate demoServer 1
        ⟨none, none, some .down, some false, none, some 99, false⟩).map
        (fun out => (out.server.objects 1).lives) = some 3 := by
  decide

/-! ## Detonation -/

/-- C5. A `bombExploded` message from a member of a session that has its bomb
list is dropped when no live bomb has the id, or the sender is not the stored
owner of the first live bomb with that id, or the reported tile differs from
the stored one: the world is unchanged, nothing is sent and nothing is
scheduled. -/
theorem handleBombExploded_rejected (s : Server) (clientId gi : Nat) (game : Game)
    (bombs : List Bomb) (data : BombExplodedData) (now : Int) (rand : Rand)
    (hg : findGame s clientId = some (gi, game))
    (hbombs : game.state.bombs = some bombs)
    (hrej : ∀ bomb, bombs.find? (fun b => b.id == data.bombId) = some bomb →
      bomb.ownerId ≠ clientId ∨ bomb.tileX ≠ data.tileX ∨ bomb.tileY ≠ data.tileY) :
    handleBombExploded s clientId data now rand = some (⟨s, [], []⟩, rand) := by
  unfold handleBombExploded
  simp only [hg, hbombs]
  cases hidx : bombs.findIdx? (fun b => b.id == data.bombId) with
  | none => rfl
  | some idx =>
    simp only []
    cases hget : bombs[idx]? with
    | none => rfl
    | some bomb =>
      simp only []
      have hfind : bombs.find? (fun b => b.id == data.bombId) = some bomb := by
        rw [List.findIdx?_eq_some_iff_getElem] at hidx
        obtain ⟨hlt, hp, hbefore⟩ := hidx
        rw [List.find?_eq_some_iff_getElem]
        rw [List.getElem?_eq_getElem hlt, Option.some.injEq] at hget
        refine ⟨hget ▸ hp, idx, hlt, hget, ?_⟩
        intro j hj
        simpa using hbefore j hj
      rcases hrej bomb hfind with h | h | h
      · rw [if_pos h]
      · split
        · rfl
        · rw [if_pos (Or.inl h)]
      · split
        · rfl
        · rw [if_pos (Or.inr h)]

theorem handleBombExploded_rejected_witness :
    handleBombExploded armedServer 1 ⟨7, 2, 1, none⟩ 3000 (fun _ => 1 / 2) =
      some (⟨armedServer, [], []⟩, fun _ => 1 / 2) :=
  handleBombExploded_rejected armedServer 1 0 armedGame
    [⟨8, 1, 1, 1, 1, 0, 3000⟩, ⟨7, 2, 1, 1, 2, 0, 3000⟩] ⟨7, 2, 1, none⟩ 3000 (fun _ => 1 / 2)
    (by decide) rfl (by decide)

theorem chainTimers_eq_enumFrom (gameId : Nat) :
    ∀ (chain : List Bomb) (k : Nat), chainTimers gameId chain k =
      (chain.enumFrom k).map (fun kb => Timer.chainReaction (100 * (kb.1 + 1)) gameId
        kb.2.ownerId kb.2.id kb.2.tileX kb.2.tileY kb.2.power) := by
  intro chain
  induction chain with
  | nil => intro k; rfl
  | cons b rest ih =>
    intro k
    rw [chainTimers, List.enumFrom_cons, List.map_cons, ih (k + 1)]

theorem filter_enumFrom_after (p : Bomb → Bool) (t : Nat) :
    ∀ (bombs : List Bomb) (k : Nat), t < k →
      ((bombs.enumFrom k).filter (fun jb => decide (jb.1 ≠ t) && p jb.2)).map Prod.snd =
        bombs.filter p := by
  intro bombs
  induction bombs with
  | nil => intro k _; rfl
  | cons b rest ih =>
    intro k hk
    have hne : k ≠ t := by omega
    rw [List.enumFrom_cons, List.filter_cons, List.filter_cons]
    simp only [hne, ne_eq, not_false_eq_true, decide_True, Bool.true_and]
    split
    · rw [List.map_cons, ih (k + 1) (by omega)]
    · exact ih (k + 1) (by omega)

theorem filter_enumFrom_eraseIdx (p : Bomb → Bool) :
    ∀ (bombs : List Bomb) (k idx : Nat),
      ((bombs.enumFrom k).filter (fun jb => decide (jb.1 ≠ k + idx) && p jb.2)).map Prod.snd =
        (bombs.eraseIdx idx).filter p := by
  intro bombs
  induction bombs with
  | nil => intro k idx; rfl
  | cons b rest ih =>
    intro k idx
    cases idx with
    | zero =>
      rw [List.enumFrom_cons, List.filter_cons, List.eraseIdx_cons_zero]
      simp only [Nat.add_zero, ne_eq, not_true_eq_false, decide_False, Bool.false_and,
        Bool.false_eq_true, if_false]
      exact filter_enumFrom_after p k rest (k + 1) (by omega)
    | succ i =>
      have hne : k ≠ k + (i + 1) := by omega
      have hidx : k + (i + 1) = (k + 1) + i := by omega
      rw [List.enumFrom_cons, List.filter_cons, List.eraseIdx_cons_succ, List.filter_cons]
      simp only [hne, ne_eq, not_false_eq_true, decide_True, Bool.true_and]
      rw [hidx]
      split
      · rw [List.map_cons, ih (k + 1) i]
      · exact ih (k + 1) i

theorem bombHit_eq_mem (tiles : List BlastTile) (b : Bomb) :
    bombHit tiles b = decide ((b.tileX, b.tileY) ∈ tiles.map BlastTile.coords) := by
  rw [Bool.eq_iff_iff]
  simp only [bombHit, List.any_eq_true, decide_eq_true_eq, List.mem_map, BlastTile.coords,
    Prod.mk.injEq]

theorem setTile_ne_nil {m : TileMap} (x y : Int) (t : Tile) (h : m ≠ []) :
    setTile m x y t ≠ [] := by
  have hlen := length_of_shape (setTile_map_length m x y t)
  intro hnil
  rw [hnil] at hlen
  exact h (List.length_eq_zero.mp hlen.symm)

/-- On a map with at least one row the loop of one ray returns. -/
theorem rayLoop_returns (dest : List Nat) (bomb : BlastSource) (dir : Direction) :
    ∀ (n i : Nat) (st : Blast) (m' : TileMap), st.map = some m' → m' ≠ [] →
      ∃ st' m'', rayLoop dest bomb dir n i st = some st' ∧ st'.map = some m'' ∧ m'' ≠ [] := by
  intro n
  induction n with
  | zero =>
    intro i st m' hmap hne
    exact ⟨st, m', rfl, hmap, hne⟩
  | succ n ih =>
    intro i st m' hmap hne
    cases hhead : m'.head? with
    | none =>
      cases m' with
      | nil => exact absurd rfl hne
      | cons a as => simp at hhead
    | some row0 =>
      simp only [rayLoop, hmap, hhead]
      split_ifs
      · exact ⟨st, m', rfl, hmap, hne⟩
      · exact ⟨st, m', rfl, hmap, hne⟩
      · exact ⟨_, _, rfl, rfl, setTile_ne_nil _ _ _ hne⟩
      · exact ih (i + 1) _ m' rfl hne

/-- On a map with at least one row `calculateExplosionTiles` returns. -/
theorem raysLoop_returns (dest : List Nat) (bomb : BlastSource) :
    ∀ (dirs : List Direction) (st : Blast) (m' : TileMap), st.map = some m' → m' ≠ [] →
      ∃ st', raysLoop dest bomb dirs st = some st' := by
  intro dirs
  induction dirs with
  | nil => intro st _ _ _; exact ⟨st, rfl⟩
  | cons d rest ih =>
    intro st m' hmap hne
    obtain ⟨st1, m1, hrun, hmap1, hne1⟩ := rayLoop_returns dest bomb d bomb.power 1 st m' hmap hne
    obtain ⟨st2, hrun2⟩ := ih st1 m1 hmap1 hne1
    exact ⟨st2, by simp only [raysLoop, hrun, hrun2]⟩

/-- C9. On an accepted detonation in a session whose map has at least one row
(the first live bomb with the id of the message belongs to the sender and lies
on the reported tile) the blast is computed, the detonated bomb leaves the live
list, and the timers registered are the chain-reaction schedule followed by
those of the game-over check: the schedule holds exactly the live bombs at the
other positions of the list whose tile is a tile of the blast, in list order,
the one at position `index` of the schedule with delay `100 * (index + 1)`
ms. -/
theorem handleBombExploded_chain_schedule (s : Server) (clientId gi : Nat) (game : Game)
    (bombs : List Bomb) (m : TileMap) (idx : Nat) (bomb : Bomb) (data : BombExplodedData)
    (now : Int) (rand : Rand)
    (hg : findGame s clientId = some (gi, game))
    (hbombs : game.state.bombs = some bombs)
    (hmap : game.state.map = some m) (hrows : m ≠ [])
    (hidx : bombs.findIdx? (fun b => b.id == data.bombId) = some idx)
    (hbomb : bombs[idx]? = some bomb)
    (howner : bomb.ownerId = clientId)
    (htile : bomb.tileX = data.tileX ∧ bomb.tileY = data.tileY) :
    ∃ blast out game1,
      calculateExplosionTiles (recipients s.clients game) game.state.map
        ⟨bomb.tileX, bomb.tileY, bomb.power, bomb.id⟩ rand = some blast ∧
      handleBombExploded s clientId data now rand = some (out, blast.rand) ∧
      out.server.games[gi]? = some game1 ∧
      game1.state.bombs = some (bombs.eraseIdx idx) ∧
      out.timers = chainSchedule game.id (remainingHit bombs idx blast.tiles) ++
        (checkGameOver out.server game1).2 := by
  obtain ⟨_, hget, hmem⟩ := findGame_some hg
  obtain ⟨blast, hblast⟩ : ∃ blast, calculateExplosionTiles (recipients s.clients game)
      game.state.map ⟨bomb.tileX, bomb.tileY, bomb.power, bomb.id⟩ rand = some blast := by
    rw [hmap]
    exact raysLoop_returns _ _ directions _ m rfl hrows
  have hsched : chainTimers game.id ((bombs.eraseIdx idx).filter (bombHit blast.tiles)) 0 =
      chainSchedule game.id (remainingHit bombs idx blast.tiles) := by
    rw [chainTimers_eq_enumFrom, chainSchedule, remainingHit]
    unfold List.enum
    have h := filter_enumFrom_eraseIdx (bombHit blast.tiles) bombs 0 idx
    rw [Nat.zero_add] at h
    have hfun : (fun jb : Nat × Bomb => decide (jb.1 ≠ idx) &&
        decide ((jb.2.tileX, jb.2.tileY) ∈ blast.tiles.map BlastTile.coords)) =
        (fun jb : Nat × Bomb => decide (jb.1 ≠ idx) && bombHit blast.tiles jb.2) := by
      funext jb
      rw [bombHit_eq_mem]
    rw [hfun, h]
  refine ⟨blast, ?_⟩
  unfold handleBombExploded
  simp only [hg, hbombs, hidx, hbomb, howner, htile.1, htile.2, ne_eq, not_true_eq_false,
    if_false, or_self]
  rw [← htile.1, ← htile.2, hblast]
  simp only []
  refine ⟨_, { game with
    state := { map := blast.map, bombs := some (bombs.eraseIdx idx) }
    activeExplosions := some ((match game.activeExplosions with
      | none => []
      | some l => l) ++
      blast.tiles.map (fun tile => ⟨bomb.id, tile.x, tile.y, now + 800⟩)) }, trivial, rfl, ?_,
    rfl, ?_⟩
  · simp only [setGame]
    rw [List.getElem?_set, if_pos rfl, if_pos (List.getElem?_eq_some.mp hget).1]
  · simp only [hsched]

theorem handleBombExploded_chain_schedule_witness :
    ∃ blast out game1,
      calculateExplosionTiles (recipients armedServer.clients armedGame) armedGame.state.map
        ⟨1, 1, 1, 8⟩ (fun _ => 1 / 2) = some blast ∧
      handleBombExploded armedServer 1 ⟨8, 1, 1, none⟩ 3000 (fun _ => 1 / 2) =
        some (out, blast.rand) ∧
      out.server.games[0]? = some game1 ∧
      game1.state.bombs = some [⟨7, 2, 1, 1, 2, 0, 3000⟩] ∧
      out.timers = chainSchedule 10 (remainingHit
          [⟨8, 1, 1, 1, 1, 0, 3000⟩, ⟨7, 2, 1, 1, 2, 0, 3000⟩] 0 blast.tiles) ++
        (checkGameOver out.server game1).2 :=
  handleBombExploded_chain_schedule armedServer 1 0 armedGame
    [⟨8, 1, 1, 1, 1, 0, 3000⟩, ⟨7, 2, 1, 1, 2, 0, 3000⟩] demoMap 0 ⟨8, 1, 1, 1, 1, 0, 3000⟩
    ⟨8, 1, 1, none⟩ 3000 (fun _ => 1 / 2)
    (by decide) rfl rfl (by decide) (by decide) rfl rfl ⟨rfl, rfl⟩

theorem findGame_setGame {s : Server} {clientId gi : Nat} {game game1 : Game}
    (objects : Nat → Player) (hg : findGame s clientId = some (gi, game))
    (hplayers : game1.players = game.players) :
    findGame { setGame s gi game1 with objects := objects } clientId = some (gi, game1) := by
  obtain ⟨hidx, hget, _⟩ := findGame_some hg
  unfold findGameIdx at hidx
  rw [List.findIdx?_eq_some_iff_getElem] at hidx
  obtain ⟨hlt, hp, hbefore⟩ := hidx
  have hidx1 : (s.games.set gi game1).findIdx? (fun g => g.players.contains clientId) =
      some gi := by
    rw [List.findIdx?_eq_some_iff_getElem]
    refine ⟨by rw [List.length_set]; exact hlt, ?_, ?_⟩
    · rw [List.getElem_set_self, hplayers]
      rw [List.getElem?_eq_getElem hlt, Option.some.injEq] at hget
      rw [← hget]
      exact hp
    · intro j hj
      rw [List.getElem_set_ne (by omega)]
      exact hbefore j hj
  unfold findGame findGameIdx
  simp only [setGame, hidx1]
  rw [List.getElem?_set, if_pos rfl, if_pos hlt]

theorem eraseIdx_findIdx?_id_ne (k : Nat) :
    ∀ (bombs : List Bomb) (idx : Nat), (bombs.map (fun b => b.id)).Nodup →
      bombs.findIdx? (fun b => b.id == k) = some idx →
      ∀ b ∈ bombs.eraseIdx idx, b.id ≠ k := by
  intro bombs
  induction bombs with
  | nil => intro idx _ h; simp at h
  | cons b rest ih =>
    intro idx hnodup hidx
    rw [List.map_cons, List.nodup_cons] at hnodup
    rw [List.findIdx?_cons] at hidx
    by_cases hb : (b.id == k) = true
    · rw [if_pos hb, Option.some.injEq] at hidx
      subst hidx
      rw [List.eraseIdx_cons_zero]
      intro b' hb' heq
      apply hnodup.1
      rw [List.mem_map]
      refine ⟨b', hb', ?_⟩
      have : b.id = k := by simpa using hb
      rw [heq, this]
    · rw [if_neg hb, List.findIdx?_succ] at hidx
      cases hrest : rest.findIdx? (fun b => b.id == k) with
      | none => simp [hrest] at hidx
      | some j =>
        simp only [hrest, Option.map_some', Option.some.injEq, Nat.zero_add] at hidx
        subst hidx
        rw [List.eraseIdx_cons_succ]
        intro b' hb'
        rw [List.mem_cons] at hb'
        rcases hb' with rfl | hb'
        · simpa using hb
        · exact ih j hnodup.2 hrest b' hb'

/-- C10 (amended). In a session whose live bombs have pairwise distinct ids,
once `handleBombExploded` has returned on a `bombExploded` message, applying
it again to the same message from the same sender, at any later time and with
any random draws, leaves the world unchanged, sends nothing and schedules
nothing. -/
theorem handleBombExploded_twice (s : Server) (clientId gi : Nat) (game : Game)
    (bombs : List Bomb) (data : BombExplodedData) (now now2 : Int) (rand rand1 rand2 : Rand)
    (out : Outcome)
    (hg : findGame s clientId = some (gi, game))
    (hbombs : game.state.bombs = some bombs)
    (hnodup : (bombs.map (fun b => b.id)).Nodup)
    (hrun : handleBombExploded s clientId data now rand = some (out, rand1)) :
    handleBombExploded out.server clientId data now2 rand2 =
      some (⟨out.server, [], []⟩, rand2) := by
  unfold handleBombExploded at hrun
  simp only [hg, hbombs] at hrun
  cases hidx : bombs.findIdx? (fun b => b.id == data.bombId) with
  | none =>
    simp only [hidx, Option.some.injEq, Prod.mk.injEq] at hrun
    rw [← hrun.1]
    unfold handleBombExploded
    simp only [hg, hbombs, hidx]
  | some idx =>
    simp only [hidx] at hrun
    cases hget : bombs[idx]? with
    | none =>
      simp only [hget, Option.some.injEq, Prod.mk.injEq] at hrun
      rw [← hrun.1]
      unfold handleBombExploded
      simp only [hg, hbombs, hidx, hget]
    | some bomb =>
      simp only [hget] at hrun
      by_cases howner : bomb.ownerId ≠ clientId
      · rw [if_pos howner] at hrun
        simp only [Option.some.injEq, Prod.mk.injEq] at hrun
        rw [← hrun.1]
        unfold handleBombExploded
        simp only [hg, hbombs, hidx, hget]
        rw [if_pos howner]
      · rw [if_neg howner] at hrun
        by_cases htile : bomb.tileX ≠ data.tileX ∨ bomb.tileY ≠ data.tileY
        · rw [if_pos htile] at hrun
          simp only [Option.some.injEq, Prod.mk.injEq] at hrun
          rw [← hrun.1]
          unfold handleBombExploded
          simp only [hg, hbombs, hidx, hget]
          rw [if_neg howner, if_pos htile]
        · rw [if_neg htile] at hrun
          cases hblast : calculateExplosionTiles (recipients s.clients game) game.state.map
              ⟨bomb.tileX, bomb.tileY, bomb.power, bomb.id⟩ rand with
          | none => simp [hblast] at hrun
          | some blast =>
            simp only [hblast, Option.some.injEq, Prod.mk.injEq] at hrun
            rw [← hrun.1]
            have hg1 := findGame_setGame
              (if game.players.contains clientId = true then
                setObject s.objects clientId
                  { s.objects clientId with
                    activeBombs := (s.objects clientId).activeBombs - 1 }
              else s.objects) hg
              (show ({ game with
                state := { map := blast.map, bombs := some (bombs.eraseIdx idx) }
                activeExplosions := some ((match game.activeExplosions with
                  | none => []
                  | some l => l) ++
                  blast.tiles.map (fun tile => ⟨bomb.id, tile.x, tile.y, now + 800⟩)) }
                : Game).players = game.players from rfl)
            have hnone : (bombs.eraseIdx idx).findIdx? (fun b => b.id == data.bombId) =
                none := by
              rw [List.findIdx?_eq_none_iff]
              intro b hb
              have := eraseIdx_findIdx?_id_ne data.bombId bombs idx hnodup hidx b hb
              simpa using this
            unfold handleBombExploded
            simp only [hg1, hnone]

theorem handleBombExploded_twice_witness :
    ∃ out rand1, handleBombExploded armedServer 1 ⟨8, 1, 1, none⟩ 3000 (fun _ => 1 / 2) =
        some (out, rand1) ∧
      out.events ≠ [] ∧
      handleBombExploded out.server 1 ⟨8, 1, 1, none⟩ 3100 (fun _ => 1 / 3) =
        some (⟨out.server, [], []⟩, fun _ => 1 / 3) :=
  ⟨_, _, rfl, by decide,
    handleBombExploded_twice armedServer 1 0 armedGame
      [⟨8, 1, 1, 1, 1, 0, 3000⟩, ⟨7, 2, 1, 1, 2, 0, 3000⟩] ⟨8, 1, 1, none⟩ 3000 3100
      (fun _ => 1 / 2) _ (fun _ => 1 / 3) _ (by decide) rfl (by decide) rfl⟩

/-- C10, as stated, fails.  Player 1, allowed two bombs, places two bombs with
the same id 8 on the same tile; the `bombExploded` message for bomb 8 is
accepted, and the same message applied a second time is accepted again: it
removes the second bomb and sends explosion events. -/
theorem handleBombExploded_twice_duplicate_id :
    ∃ s out1 rand1 out2 rand2, placedTwice = some s ∧
      handleBombExploded s 1 ⟨8, 1, 1, none⟩ 3005 (fun _ => 1 / 2) = some (out1, rand1) ∧
      handleBombExploded out1.server 1 ⟨8, 1, 1, none⟩ 3010 rand1 = some (out2, rand2) ∧
      out1.server.games.map (fun g => g.state.bombs) = [some [⟨8, 1, 1, 1, 1, 5, 3000⟩]] ∧
      out2.server.games.map (fun g => g.state.bombs) = [some []] ∧
      Event.explosionCreated [1, 2] 1 1 BlastType.center none 8 ∈ out2.events := by
  refine ⟨_, _, _, _, _, rfl, rfl, rfl, ?_, ?_, ?_⟩
  · decide
  · decide
  · decide

/-! ## Damage and invulnerability -/

theorem checkPlayer_objects (clients : List Nat) (game : Game) (exps : List Explosion)
    (now : Int) (st : CheckState) (id j : Nat) :
    (checkPlayer clients game exps now st id).objects j =
      if j = id then hitStep exps now (st.objects id) else st.objects j := by
  unfold checkPlayer hitStep
  by_cases hj : j = id
  · subst hj
    simp only [if_true]
    split
    · rfl
    · split
      · simp [setObject]
      · split
        · simp [setObject]
        · split
          · split <;> simp [setObject]
          · simp [setObject]
  · simp only [if_neg hj]
    split
    · rfl
    · split
      · simp [setObject, hj]
      · split
        · simp [setObject, hj]
        · split
          · split <;> simp [setObject, hj]
          · simp [setObject, hj]

theorem findHit_congr (exps : List Explosion) (p p' : Player) (hx : p'.tileX = p.tileX)
    (hy : p'.tileY = p.tileY) : findHit exps p' = findHit exps p := by
  simp only [findHit, hx, hy]

/-- The three ways `hitStep` can go: the player is left as is (dead), only the
bookkeeping fields are initialised (invulnerable or not hit), or the player is
hit. -/
theorem hitStep_cases (exps : List Explosion) (now : Int) (p : Player) :
    (p.lives ≤ 0 ∧ hitStep exps now p = p) ∨
    (0 < p.lives ∧
      (now - p.lastHitTime.getD 0 < 3000 ∨ ∀ e, findHit exps p = some e → truthyId e.bombId = false) ∧
      hitStep exps now p =
        { p with
          lastHitTime := some (p.lastHitTime.getD 0)
          hitByExplosions := some (p.hitByExplosions.getD []) }) ∨
    (0 < p.lives ∧ 3000 ≤ now - p.lastHitTime.getD 0 ∧
      ∃ e, findHit exps p = some e ∧ truthyId e.bombId = true ∧
        hitStep exps now p =
          { p with
            lastHitTime := some now
            lives := p.lives - 1
            hitByExplosions := some (mapSet (p.hitByExplosions.getD []) e.bombId now) }) := by
  have hlast : (match p.lastHitTime with
      | none => (0 : Int)
      | some t => t) = p.lastHitTime.getD 0 := by cases p.lastHitTime <;> rfl
  have hhits : (match p.hitByExplosions with
      | none => ([] : List (Nat × Int))
      | some hits => hits) = p.hitByExplosions.getD [] := by cases p.hitByExplosions <;> rfl
  have hfind : findHit exps
      { p with
        lastHitTime := some (p.lastHitTime.getD 0)
        hitByExplosions := some (p.hitByExplosions.getD []) } = findHit exps p :=
    findHit_congr exps p _ rfl rfl
  unfold hitStep
  simp only [hlast, hhits, hfind]
  by_cases hdead : p.lives ≤ 0
  · left
    exact ⟨hdead, by rw [if_pos hdead]⟩
  · right
    rw [if_neg hdead]
    by_cases hinv : now - p.lastHitTime.getD 0 < 3000
    · left
      exact ⟨by omega, Or.inl hinv, by rw [if_pos hinv]⟩
    · rw [if_neg hinv]
      cases hf : findHit exps p with
      | none =>
        left
        exact ⟨by omega, Or.inr (by intro e he; simp at he), rfl⟩
      | some e =>
        by_cases ht : truthyId e.bombId = true
        · right
          refine ⟨by omega, by omega, e, rfl, ht, ?_⟩
          simp only [ht, if_true]
        · left
          refine ⟨by omega, Or.inr ?_, ?_⟩
          · intro e' he'
            simp only [Option.some.injEq] at he'
            subst he'
            simpa using ht
          · simp only [ht, Bool.false_eq_true, if_false]

theorem hitStep_idem (exps : List Explosion) (now : Int) (p : Player) :
    hitStep exps now (hitStep exps now p) = hitStep exps now p := by
  rcases hitStep_cases exps now p with ⟨_, h⟩ | ⟨hl, hc, h⟩ | ⟨hl, hv, e, hf, ht, h⟩
  · rw [h, h]
  · rw [h]
    rcases hitStep_cases exps now
        { p with
          lastHitTime := some (p.lastHitTime.getD 0)
          hitByExplosions := some (p.hitByExplosions.getD []) } with
      ⟨hd, _⟩ | ⟨_, _, h2⟩ | ⟨_, hv2, e2, hf2, ht2, _⟩
    · exact absurd hd (by simp only []; omega)
    · rw [h2]
      rfl
    · exfalso
      have hf2' : findHit exps p = some e2 := hf2
      simp only [Option.getD_some] at hv2
      rcases hc with hc | hc
      · omega
      · rw [hc e2 hf2'] at ht2
        simp at ht2
  · rw [h]
    rcases hitStep_cases exps now
        { p with
          lastHitTime := some now
          lives := p.lives - 1
          hitByExplosions := some (mapSet (p.hitByExplosions.getD []) e.bombId now) } with
      ⟨_, h2⟩ | ⟨_, _, h2⟩ | ⟨_, hv2, _⟩
    · rw [h2]
    · rw [h2]
      rfl
    · exfalso
      simp only [Option.getD_some] at hv2
      omega

theorem foldl_checkPlayer_objects (clients : List Nat) (game : Game) (exps : List Explosion)
    (now : Int) :
    ∀ (players : List Nat) (st : CheckState) (j : Nat),
      (players.foldl (checkPlayer clients game exps now) st).objects j =
        if j ∈ players then hitStep exps now (st.objects j) else st.objects j := by
  intro players
  induction players with
  | nil => intro st j; simp
  | cons id rest ih =>
    intro st j
    rw [List.foldl_cons, ih, checkPlayer_objects]
    by_cases hj : j = id
    · subst hj
      simp only [if_true, List.mem_cons, true_or, hitStep_idem]
      split <;> rfl
    · simp only [if_neg hj, List.mem_cons, hj, false_or, if_false]

/-- The client objects after a run of `checkExplosionCollisions` that is not
skipped: the callback has acted once on every player of the session. -/
theorem checkExplosionCollisions_objects (clients : List Nat) (objects : Nat → Player)
    (game : Game) (now : Int) (rand : Rand) (exps : List Explosion)
    (hstarted : game.started = true) (hexps : game.activeExplosions = some exps)
    (hne : exps ≠ [])
    (hguard : ∀ last, game.lastExplosionCheck = some last → last = 0 ∨ 50 ≤ now - last)
    (j : Nat) :
    (checkExplosionCollisions clients objects game now rand).objects j =
      if j ∈ game.players then hitStep exps now (objects j) else objects j := by
  unfold checkExplosionCollisions
  by_cases hp : game.players.length = 0
  · have : game.players = [] := List.length_eq_zero.mp hp
    simp [this]
  · have hlen : exps.length ≠ 0 := fun h => hne (List.length_eq_zero.mp h)
    have hskip : (match game.lastExplosionCheck with
        | none => false
        | some last => decide (last ≠ 0) && decide (now - last < 50)) = false := by
      cases hl : game.lastExplosionCheck with
      | none => rfl
      | some last =>
        rcases hguard last hl with h | h
        · simp [h]
        · simp only [Bool.and_eq_false_imp, decide_eq_true_eq, decide_eq_false_iff_not]
          intro _
          omega
    simp only [hstarted, hp, hexps, hlen, hskip, Bool.not_true, Bool.false_eq_true, or_self,
      if_false]
    exact foldl_checkPlayer_objects clients _ exps now game.players _ j

/-- Whatever the session and the time, a run of `checkExplosionCollisions`
either leaves a player object, or only initialises its bookkeeping fields, or
applies `hitStep` to it. -/
theorem checkExplosionCollisions_objects_cases (clients : List Nat) (objects : Nat → Player)
    (game : Game) (now : Int) (rand : Rand) (j : Nat) :
    (checkExplosionCollisions clients objects game now rand).objects j = objects j ∨
      ∃ exps, (checkExplosionCollisions clients objects game now rand).objects j =
        hitStep exps now (objects j) := by
  unfold checkExplosionCollisions
  dsimp only
  split_ifs
  · exact Or.inl rfl
  · exact Or.inl rfl
  · exact Or.inl rfl
  · dsimp only
    rw [foldl_checkPlayer_objects]
    split_ifs
    · exact Or.inr ⟨_, rfl⟩
    · exact Or.inl rfl

/-- C7 (amended). In a run of `checkExplosionCollisions` at time `now` on a
started session that is not skipped, a player with `lives > 0` and
`now - lastHitTime >= 3000` (an absent `lastHitTime` counts as 0) loses exactly
one life and gets `lastHitTime = now` if and only if the first entry of the
list of active explosions that lies on the tile of the player exists and has a
truthy `bombId`, whatever its expiry.  A player who is not in that situation
keeps `lives`, and keeps `lastHitTime` up to an absent value being stored
as 0. -/
theorem checkExplosionCollisions_hit_iff (clients : List Nat) (objects : Nat → Player)
    (game : Game) (now : Int) (rand : Rand) (exps : List Explosion) (id : Nat)
    (hstarted : game.started = true) (hexps : game.activeExplosions = some exps)
    (hne : exps ≠ [])
    (hguard : ∀ last, game.lastExplosionCheck = some last → last = 0 ∨ 50 ≤ now - last)
    (hmem : id ∈ game.players) :
    (0 < (objects id).lives ∧ 3000 ≤ now - (objects id).lastHitTime.getD 0 →
      ((((checkExplosionCollisions clients objects game now rand).objects id).lives =
            (objects id).lives - 1 ∧
          ((checkExplosionCollisions clients objects game now rand).objects id).lastHitTime =
            some now) ↔
        ∃ e, findHit exps (objects id) = some e ∧ truthyId e.bombId = true)) ∧
    (¬ (0 < (objects id).lives ∧ 3000 ≤ now - (objects id).lastHitTime.getD 0 ∧
        ∃ e, findHit exps (objects id) = some e ∧ truthyId e.bombId = true) →
      ((checkExplosionCollisions clients objects game now rand).objects id).lives =
          (objects id).lives ∧
        ((checkExplosionCollisions clients objects game now rand).objects id).lastHitTime.getD 0 =
          (objects id).lastHitTime.getD 0) := by
  rw [checkExplosionCollisions_objects clients objects game now rand exps hstarted hexps hne
    hguard id, if_pos hmem]
  rcases hitStep_cases exps now (objects id) with
    ⟨hdead, h⟩ | ⟨hl, hc, h⟩ | ⟨hl, hv, e, hf, ht, h⟩
  · rw [h]
    exact ⟨fun hv => absurd hv.1 (by omega), fun _ => ⟨rfl, rfl⟩⟩
  · rw [h]
    have hno : ¬ (3000 ≤ now - (objects id).lastHitTime.getD 0 ∧
        ∃ e, findHit exps (objects id) = some e ∧ truthyId e.bombId = true) := by
      rintro ⟨hv, e, hf, ht⟩
      rcases hc with hc | hc
      · omega
      · rw [hc e hf] at ht
        simp at ht
    refine ⟨fun hv => ⟨fun hhit => ?_, fun hon => absurd ⟨hv.2, hon⟩ hno⟩, fun _ => ⟨rfl, rfl⟩⟩
    have := hhit.1
    simp only [] at this
    omega
  · rw [h]
    refine ⟨fun _ => ⟨fun _ => ⟨e, hf, ht⟩, fun _ => ⟨rfl, rfl⟩⟩, fun hnot => ?_⟩
    exact absurd ⟨hl, hv, e, hf, ht⟩ hnot

theorem checkExplosionCollisions_hit_iff_witness :
    (0 < (demoObjects 1).lives ∧ 3000 ≤ 4990 - (demoObjects 1).lastHitTime.getD 0 →
      ((((checkExplosionCollisions [1, 2] demoObjects blastGame 4990
              (fun _ => 1 / 2)).objects 1).lives = (demoObjects 1).lives - 1 ∧
          ((checkExplosionCollisions [1, 2] demoObjects blastGame 4990
              (fun _ => 1 / 2)).objects 1).lastHitTime = some 4990) ↔
        ∃ e, findHit [⟨8, 1, 1, 5000⟩] (demoObjects 1) = some e ∧ truthyId e.bombId = true)) ∧
    (¬ (0 < (demoObjects 1).lives ∧ 3000 ≤ 4990 - (demoObjects 1).lastHitTime.getD 0 ∧
        ∃ e, findHit [⟨8, 1, 1, 5000⟩] (demoObjects 1) = some e ∧ truthyId e.bombId = true) →
      ((checkExplosionCollisions [1, 2] demoObjects blastGame 4990
          (fun _ => 1 / 2)).objects 1).lives = (demoObjects 1).lives ∧
        ((checkExplosionCollisions [1, 2] demoObjects blastGame 4990
          (fun _ => 1 / 2)).objects 1).lastHitTime.getD 0 =
          (demoObjects 1).lastHitTime.getD 0) :=
  checkExplosionCollisions_hit_iff [1, 2] demoObjects blastGame 4990 (fun _ => 1 / 2)
    [⟨8, 1, 1, 5000⟩] 1 rfl rfl (by decide) (by decide) (by decide)

/-- C7, as stated, fails.  The explosion tile on `(1, 1)` expired at 5000; the
purge of the previous tick, at 4993, kept it, and the check of the tick at 5010
runs before the purge: player 1, alive, vulnerable and standing on `(1, 1)`,
loses a life and gets `lastHitTime = 5010`, although no explosion tile with an
expiry later than 5010 lies on the tile of the player. -/
theorem checkExplosionCollisions_hit_by_expired_tile :
    cleanupExpiredExplosions blastGame 4993 = blastGame ∧
      blastGame.started = true ∧ blastGame.lastExplosionCheck = none ∧
      0 < (demoObjects 1).lives ∧ 3000 ≤ 5010 - (demoObjects 1).lastHitTime.getD 0 ∧
      ((checkExplosionCollisions [1, 2] demoObjects blastGame 5010
        (fun _ => 1 / 2)).objects 1).lives = (demoObjects 1).lives - 1 ∧
      ((checkExplosionCollisions [1, 2] demoObjects blastGame 5010
        (fun _ => 1 / 2)).objects 1).lastHitTime = some 5010 ∧
      ¬ ∃ e ∈ blastGame.activeExplosions.getD [], e.tileX = (demoObjects 1).tileX ∧
        e.tileY = (demoObjects 1).tileY ∧ e.expires > 5010 := by
  decide

theorem runChecks_cons_objects (clients : List Nat) (objects : Nat → Player) (game : Game)
    (rand : Rand) (now : Int) (explosions : Option (List Explosion))
    (rest : List (Int × Option (List Explosion))) :
    (runChecks clients objects game rand ((now, explosions) :: rest)).objects =
      (runChecks clients
        (checkExplosionCollisions clients objects { game with activeExplosions := explosions }
          now rand).objects
        (checkExplosionCollisions clients objects { game with activeExplosions := explosions }
          now rand).game
        (checkExplosionCollisions clients objects { game with activeExplosions := explosions }
          now rand).rand rest).objects := rfl

/-- In a sequence of runs a player either keeps the lives, or loses exactly
one, in a run that found the player vulnerable. -/
theorem runChecks_lives_cases (clients : List Nat) (id : Nat) :
    ∀ (runs : List (Int × Option (List Explosion))) (objects : Nat → Player) (game : Game)
      (rand : Rand), (∀ a ∈ runs, ∀ b ∈ runs, b.1 - a.1 < 3000) →
      ((runChecks clients objects game rand runs).objects id).lives = (objects id).lives ∨
      (((runChecks clients objects game rand runs).objects id).lives = (objects id).lives - 1 ∧
        ∃ a ∈ runs, 3000 ≤ a.1 - (objects id).lastHitTime.getD 0) := by
  intro runs
  induction runs with
  | nil => intro objects game rand _; exact Or.inl rfl
  | cons run rest ih =>
    intro objects game rand hwindow
    obtain ⟨now, explosions⟩ := run
    have hrest : ∀ a ∈ rest, ∀ b ∈ rest, b.1 - a.1 < 3000 := fun a ha b hb =>
      hwindow a (List.mem_cons_of_mem _ ha) b (List.mem_cons_of_mem _ hb)
    have hfirst := checkExplosionCollisions_objects_cases clients objects
      { game with activeExplosions := explosions } now rand id
    rw [runChecks_cons_objects]
    generalize checkExplosionCollisions clients objects
      { game with activeExplosions := explosions } now rand = r at hfirst ⊢
    have hstep := ih r.objects r.game r.rand hrest
    have hkeep : r.objects id = objects id ∨
        (r.objects id).lives = (objects id).lives ∧
          (r.objects id).lastHitTime.getD 0 = (objects id).lastHitTime.getD 0 →
        ((runChecks clients r.objects r.game r.rand rest).objects id).lives =
            (objects id).lives ∨
          (((runChecks clients r.objects r.game r.rand rest).objects id).lives =
              (objects id).lives - 1 ∧
            ∃ a ∈ (now, explosions) :: rest,
              3000 ≤ a.1 - (objects id).lastHitTime.getD 0) := by
      intro hsame
      have hl : (r.objects id).lives = (objects id).lives := by
        rcases hsame with h | h
        · rw [h]
        · exact h.1
      have ht : (r.objects id).lastHitTime.getD 0 = (objects id).lastHitTime.getD 0 := by
        rcases hsame with h | h
        · rw [h]
        · exact h.2
      rw [hl, ht] at hstep
      rcases hstep with h | ⟨h, a, ha, hv⟩
      · exact Or.inl h
      · exact Or.inr ⟨h, a, List.mem_cons_of_mem _ ha, hv⟩
    rcases hfirst with h | ⟨exps, h⟩
    · exact hkeep (Or.inl h)
    · rcases hitStep_cases exps now (objects id) with
        ⟨_, h2⟩ | ⟨_, _, h2⟩ | ⟨_, hv, e, _, _, h2⟩
      · exact hkeep (Or.inl (h.trans h2))
      · refine hkeep (Or.inr ?_)
        rw [h, h2]
        exact ⟨rfl, rfl⟩
      · rw [h, h2] at hstep
        rcases hstep with h3 | ⟨_, a, ha, hv3⟩
        · exact Or.inr ⟨h3, (now, explosions), List.mem_cons_self _ _, hv⟩
        · exfalso
          have := hwindow (now, explosions) (List.mem_cons_self _ _) a
            (List.mem_cons_of_mem _ ha)
          simp only [Option.getD_some] at hv3
          omega

/-- C8. In every sequence of runs of `checkExplosionCollisions` on a session
whose times lie within a window shorter than 3000 ms, whatever the explosion
tiles found at each run, the lives of every player decrease by at most one in
total, and never increase. -/
theorem runChecks_lives_window (clients : List Nat) (objects : Nat → Player) (game : Game)
    (rand : Rand) (runs : List (Int × Option (List Explosion))) (id : Nat)
    (hwindow : ∀ a ∈ runs, ∀ b ∈ runs, b.1 - a.1 < 3000) :
    (objects id).lives - 1 ≤ ((runChecks clients objects game rand runs).objects id).lives ∧
      ((runChecks clients objects game rand runs).objects id).lives ≤ (objects id).lives := by
  rcases runChecks_lives_cases clients id runs objects game rand hwindow with h | ⟨h, _⟩
  · rw [h]
    omega
  · rw [h]
    omega

theorem runChecks_lives_window_witness :
    (∀ a ∈ [((5010 : Int), some [(⟨8, 1, 1, 5000⟩ : Explosion)]),
        (5060, some [⟨8, 1, 1, 5000⟩, ⟨9, 1, 1, 5800⟩]), (8000, some [⟨9, 1, 1, 8100⟩])],
      ∀ b ∈ [((5010 : Int), some [(⟨8, 1, 1, 5000⟩ : Explosion)]),
        (5060, some [⟨8, 1, 1, 5000⟩, ⟨9, 1, 1, 5800⟩]), (8000, some [⟨9, 1, 1, 8100⟩])],
      b.1 - a.1 < 3000) ∧
    (demoObjects 1).lives - 1 ≤ ((runChecks [1, 2] demoObjects blastGame (fun _ => 1 / 2)
        [(5010, some [⟨8, 1, 1, 5000⟩]), (5060, some [⟨8, 1, 1, 5000⟩, ⟨9, 1, 1, 5800⟩]),
          (8000, some [⟨9, 1, 1, 8100⟩])]).objects 1).lives ∧
      ((runChecks [1, 2] demoObjects blastGame (fun _ => 1 / 2)
        [(5010, some [⟨8, 1, 1, 5000⟩]), (5060, some [⟨8, 1, 1, 5000⟩, ⟨9, 1, 1, 5800⟩]),
          (8000, some [⟨9, 1, 1, 8100⟩])]).objects 1).lives ≤ (demoObjects 1).lives :=
  ⟨by decide, runChecks_lives_window [1, 2] demoObjects blastGame (fun _ => 1 / 2)
    [(5010, some [⟨8, 1, 1, 5000⟩]), (5060, some [⟨8, 1, 1, 5000⟩, ⟨9, 1, 1, 5800⟩]),
      (8000, some [⟨9, 1, 1, 8100⟩])] 1 (by decide)⟩

/-! ## Map generation -/

theorem pickTile_wall_iff (x y : Nat) (rand : Rand) :
    (pickTile x y rand).1 = Tile.wall ↔ IsWallCell x y := by
  unfold pickTile IsWallCell mapWidth mapHeight
  split_ifs with h1 h2 h3
  · simp only [true_iff]
    omega
  · simp only [true_iff]
    omega
  · simp only [reduceCtorEq, false_iff]
    omega
  · simp only [reduceCtorEq, false_iff]
    omega

theorem rowLoop_spec (y : Nat) :
    ∀ (n x : Nat) (row : List Tile) (rand : Rand),
      ∃ tiles, (rowLoop y n x row rand).1 = row ++ tiles ∧ tiles.length = n ∧
        ∀ (i : Nat) (t : Tile), tiles[i]? = some t → (t = Tile.wall ↔ IsWallCell (x + i) y) := by
  intro n
  induction n with
  | zero =>
    intro x row rand
    exact ⟨[], by simp [rowLoop], rfl, by simp⟩
  | succ n ih =>
    intro x row rand
    obtain ⟨tiles, heq, hlen, hwall⟩ :=
      ih (x + 1) (row ++ [(pickTile x y rand).1]) (pickTile x y rand).2
    refine ⟨(pickTile x y rand).1 :: tiles, ?_, by simp [hlen], ?_⟩
    · rw [rowLoop, heq, List.append_assoc, List.singleton_append]
    · intro i t hi
      cases i with
      | zero =>
        simp only [List.getElem?_cons_zero, Option.some.injEq] at hi
        rw [← hi, Nat.add_zero]
        exact pickTile_wall_iff x y rand
      | succ j =>
        simp only [List.getElem?_cons_succ] at hi
        have := hwall j t hi
        rw [show x + (j + 1) = x + 1 + j by omega]
        exact this

theorem mapLoop_spec :
    ∀ (n y : Nat) (tileMap : TileMap) (rand : Rand),
      ∃ rows, (mapLoop n y tileMap rand).1 = tileMap ++ rows ∧ rows.length = n ∧
        ∀ (j : Nat) (row : List Tile), rows[j]? = some row →
          row.length = 15 ∧
          ∀ (i : Nat) (t : Tile), row[i]? = some t → (t = Tile.wall ↔ IsWallCell i (y + j)) := by
  intro n
  induction n with
  | zero =>
    intro y tileMap rand
    exact ⟨[], by simp [mapLoop], rfl, by simp⟩
  | succ n ih =>
    intro y tileMap rand
    obtain ⟨tiles, hrow, hlen, hwall⟩ := rowLoop_spec y mapWidth 0 [] rand
    obtain ⟨rows, heq, hrl, hrows⟩ :=
      ih (y + 1) (tileMap ++ [(rowLoop y mapWidth 0 [] rand).1]) (rowLoop y mapWidth 0 [] rand).2
    refine ⟨(rowLoop y mapWidth 0 [] rand).1 :: rows, ?_, by simp [hrl], ?_⟩
    · rw [mapLoop, heq, List.append_assoc, List.singleton_append]
    · intro j row hj
      cases j with
      | zero =>
        simp only [List.getElem?_cons_zero, Option.some.injEq] at hj
        rw [← hj, hrow, List.nil_append, Nat.add_zero]
        refine ⟨hlen, ?_⟩
        intro i t hi
        have := hwall i t hi
        rw [Nat.zero_add] at this
        exact this
      | succ k =>
        simp only [List.getElem?_cons_succ] at hj
        have := hrows k row hj
        rw [show y + (k + 1) = y + 1 + k by omega]
        exact this

theorem tileAt_natCast (m : TileMap) (x y : Nat) :
    tileAt m x y = (m[y]?).bind (fun row => row[x]?) := by
  rw [tileAt_of_nonneg (Int.natCast_nonneg x) (Int.natCast_nonneg y)]
  simp

theorem wallsInPlace_mapLoop (rand : Rand) : WallsInPlace (mapLoop mapHeight 0 [] rand).1 := by
  obtain ⟨rows, heq, hlen, hrows⟩ := mapLoop_spec mapHeight 0 [] rand
  rw [heq, List.nil_append]
  refine ⟨hlen, ?_, ?_⟩
  · intro row hrow
    obtain ⟨j, hj⟩ := List.mem_iff_getElem?.mp hrow
    exact (hrows j row hj).1
  · intro x y t ht
    rw [tileAt_natCast] at ht
    cases hy : rows[y]? with
    | none => simp [hy] at ht
    | some row =>
      simp only [hy, Option.some_bind] at ht
      have := (hrows y row hy).2 x t ht
      rw [Nat.zero_add] at this
      exact this

theorem tileAt_setTile_self (m : TileMap) {x y : Int} (e t : Tile) (hx : 0 ≤ x) (hy : 0 ≤ y)
    (h : tileAt (setTile m x y e) x y = some t) : t = e := by
  rw [tileAt_of_nonneg hx hy] at h
  unfold setTile at h
  cases hrow : m[y.toNat]? with
  | none => simp [hrow] at h
  | some row =>
    simp only [hrow] at h
    have hlt := (List.getElem?_eq_some.mp hrow).1
    rw [List.getElem?_set, if_pos rfl, if_pos hlt, Option.some_bind, List.getElem?_set,
      if_pos rfl] at h
    split at h
    · simpa using h.symm
    · simp at h

theorem setTile_rows (m : TileMap) (x y : Int) (e : Tile) (n w : Nat) (hlen : m.length = n)
    (hrows : ∀ row ∈ m, row.length = w) :
    (setTile m x y e).length = n ∧ ∀ row ∈ setTile m x y e, row.length = w := by
  have hshape := setTile_map_length m x y e
  refine ⟨by rw [length_of_shape hshape, hlen], ?_⟩
  intro row hrow
  have hmem : row.length ∈ (setTile m x y e).map List.length := List.mem_map_of_mem _ hrow
  rw [hshape, List.mem_map] at hmem
  obtain ⟨row0, hrow0, heq⟩ := hmem
  rw [← heq]
  exact hrows row0 hrow0

theorem wallsInPlace_clearCell (corner : Int × Int) (m : TileMap) (dy dx : Int)
    (h : WallsInPlace m) : WallsInPlace (clearCell corner m dy dx) := by
  unfold clearCell
  dsimp only
  split_ifs with hskip
  · exact h
  · obtain ⟨hlen, hrows, hwalls⟩ := h
    have hx : 0 ≤ corner.1 + dx := by omega
    have hy : 0 ≤ corner.2 + dy := by omega
    obtain ⟨hlen', hrows'⟩ := setTile_rows m (corner.1 + dx) (corner.2 + dy) Tile.empty 13 15
      hlen hrows
    refine ⟨hlen', hrows', ?_⟩
    intro x y t ht
    by_cases hpos : ((x : Int), (y : Int)) = (corner.1 + dx, corner.2 + dy)
    · have hxe : (x : Int) = corner.1 + dx := (Prod.mk.inj hpos).1
      have hye : (y : Int) = corner.2 + dy := (Prod.mk.inj hpos).2
      rw [hxe, hye] at ht
      have hte := tileAt_setTile_self m Tile.empty t hx hy ht
      rw [hte]
      simp only [reduceCtorEq, false_iff]
      unfold IsWallCell
      unfold mapWidth mapHeight at hskip
      omega
    · rw [tileAt_setTile_ne m Tile.empty hx hy hpos] at ht
      exact hwalls x y t ht

theorem wallsInPlace_clearCorner (m : TileMap) (corner : Int × Int) (h : WallsInPlace m) :
    WallsInPlace (clearCorner m corner) := by
  unfold clearCorner
  simp only [List.foldl_cons, List.foldl_nil]
  repeat apply wallsInPlace_clearCell
  exact h

theorem wallsInPlace_generateMap (rand : Rand) : WallsInPlace (generateMap rand).1 := by
  unfold generateMap corners
  simp only [List.foldl_cons, List.foldl_nil]
  repeat apply wallsInPlace_clearCorner
  exact wallsInPlace_mapLoop rand

/-- C20. Whatever the random draws, `generateMap` returns a grid of 13 rows of
15 tiles in which the tile `(x, y)` is a wall if and only if it lies on the
border (`x = 0`, `x = 14`, `y = 0` or `y = 12`) or both `x` and `y` are even,
and every other tile is a block or empty. -/
theorem generateMap_walls (rand : Rand) :
    (generateMap rand).1.length = 13 ∧
      (∀ row ∈ (generateMap rand).1, row.length = 15) ∧
      ∀ x y : Nat, x < 15 → y < 13 →
        (tileAt (generateMap rand).1 x y = some Tile.wall ↔
          (x = 0 ∨ x = 14 ∨ y = 0 ∨ y = 12 ∨ (x % 2 = 0 ∧ y % 2 = 0))) ∧
        (tileAt (generateMap rand).1 x y ≠ some Tile.wall →
          tileAt (generateMap rand).1 x y = some Tile.block ∨
            tileAt (generateMap rand).1 x y = some Tile.empty) := by
  obtain ⟨hlen, hrows, hwalls⟩ := wallsInPlace_generateMap rand
  refine ⟨hlen, hrows, ?_⟩
  intro x y hx hy
  have hsome : ∃ t, tileAt (generateMap rand).1 x y = some t := by
    rw [tileAt_natCast]
    have hylt : y < (generateMap rand).1.length := by omega
    rw [List.getElem?_eq_getElem hylt, Option.some_bind]
    have hrow := hrows _ (List.getElem_mem hylt)
    exact ⟨_, List.getElem?_eq_getElem (by omega)⟩
  obtain ⟨t, ht⟩ := hsome
  have hiff := hwalls x y t ht
  rw [ht]
  constructor
  · rw [Option.some.injEq]
    exact hiff
  · intro hne
    cases t with
    | wall => exact absurd rfl hne
    | block => exact Or.inl rfl
    | empty => exact Or.inr rfl

/-! ## Power-up selection -/

/-- The selection among the block-destruction weights, on a draw of `[0, 1)`,
in any ordered field. -/
theorem selectPowerUp_block_eq {K : Type} [LinearOrderedField K] (r : K) (h1 : r < 1) :
    selectPowerUp blockPowerUpTypes r =
      if r ≤ 37 / 100 then PowerUp.bomb
      else if r ≤ 74 / 100 then PowerUp.flame else PowerUp.speed := by
  have htotal : totalWeight (blockPowerUpTypes : List (PowerUp × K)) = 1 := by
    simp only [totalWeight, blockPowerUpTypes, List.foldl_cons, List.foldl_nil]
    norm_num
  have h74 : (0 : K) + 37 / 100 + 37 / 100 = 74 / 100 := by norm_num
  have h100 : (74 : K) / 100 + 26 / 100 = 1 := by norm_num
  unfold selectPowerUp
  rw [htotal, mul_one]
  simp only [blockPowerUpTypes, selectLoop, zero_add]
  rw [show (37 : K) / 100 + 37 / 100 = 74 / 100 by norm_num, h100]
  simp only [le_of_lt h1, if_true]

theorem selectPowerUp_block_iff {K : Type} [LinearOrderedField K] (r : K) (h1 : r < 1) :
    (selectPowerUp blockPowerUpTypes r = PowerUp.bomb ↔ r ≤ 37 / 100) ∧
    (selectPowerUp blockPowerUpTypes r = PowerUp.flame ↔ 37 / 100 < r ∧ r ≤ 74 / 100) ∧
    (selectPowerUp blockPowerUpTypes r = PowerUp.speed ↔ 74 / 100 < r) := by
  have hlt : (37 : K) / 100 < 74 / 100 := by norm_num
  rw [selectPowerUp_block_eq r h1]
  refine ⟨?_, ?_, ?_⟩
  · split_ifs with ha hb
    · simp [ha]
    · simp [ha]
    · simp [ha]
  · split_ifs with ha hb
    · simp only [reduceCtorEq, false_iff, not_and, not_le]
      intro hgt
      exact absurd ha (not_le.mpr hgt)
    · simp only [true_iff]
      exact ⟨not_le.mp ha, hb⟩
    · simp only [reduceCtorEq, false_iff, not_and]
      intro _
      exact hb
  · split_ifs with ha hb
    · simp only [reduceCtorEq, false_iff, not_lt]
      exact le_trans ha (le_of_lt hlt)
    · simp only [reduceCtorEq, false_iff, not_lt]
      exact hb
    · simp only [true_iff]
      exact not_le.mp hb

/-- C19. When `trySpawnPowerUp` spawns (first draw below 0.4), the type it
announces is the selection on its second draw `r`; on `[0, 1)` that selection
is 'bomb' iff `r <= 0.37`, 'flame' iff `0.37 < r <= 0.74` and 'speed' iff
`r > 0.74`; and the Lebesgue measure of the real draws of `[0, 1)` that select
each type is the weight of the type: 0.37, 0.37 and 0.26. -/
theorem trySpawnPowerUp_selection :
    (∀ (dest : List Nat) (tileX tileY : Int) (rand : Rand), rand 0 < 4 / 10 →
      (trySpawnPowerUp dest tileX tileY rand).1 =
        [Event.powerUpCreated dest tileX tileY (selectPowerUp blockPowerUpTypes (rand 1))
          false]) ∧
    (∀ r : ℚ, 0 ≤ r → r < 1 →
      (selectPowerUp blockPowerUpTypes r = PowerUp.bomb ↔ r ≤ 37 / 100) ∧
      (selectPowerUp blockPowerUpTypes r = PowerUp.flame ↔ 37 / 100 < r ∧ r ≤ 74 / 100) ∧
      (selectPowerUp blockPowerUpTypes r = PowerUp.speed ↔ 74 / 100 < r)) ∧
    MeasureTheory.volume
        {r : ℝ | 0 ≤ r ∧ r < 1 ∧ selectPowerUp blockPowerUpTypes r = PowerUp.bomb} =
      ENNReal.ofReal (37 / 100) ∧
    MeasureTheory.volume
        {r : ℝ | 0 ≤ r ∧ r < 1 ∧ selectPowerUp blockPowerUpTypes r = PowerUp.flame} =
      ENNReal.ofReal (37 / 100) ∧
    MeasureTheory.volume
        {r : ℝ | 0 ≤ r ∧ r < 1 ∧ selectPowerUp blockPowerUpTypes r = PowerUp.speed} =
      ENNReal.ofReal (26 / 100) := by
  refine ⟨?_, ?_, ?_, ?_, ?_⟩
  · intro dest tileX tileY rand hdraw
    simp only [trySpawnPowerUp, hdraw, if_true]
  · intro r _ h1
    exact selectPowerUp_block_iff r h1
  · have hset : {r : ℝ | 0 ≤ r ∧ r < 1 ∧ selectPowerUp blockPowerUpTypes r = PowerUp.bomb} =
        Set.Icc 0 (37 / 100) := by
      ext r
      simp only [Set.mem_setOf_eq, Set.mem_Icc]
      constructor
      · rintro ⟨h0, h1, hsel⟩
        exact ⟨h0, (selectPowerUp_block_iff r h1).1.mp hsel⟩
      · rintro ⟨h0, hle⟩
        have h1 : r < 1 := by linarith
        exact ⟨h0, h1, (selectPowerUp_block_iff r h1).1.mpr hle⟩
    rw [hset, Real.volume_Icc]
    norm_num
  · have hset : {r : ℝ | 0 ≤ r ∧ r < 1 ∧ selectPowerUp blockPowerUpTypes r = PowerUp.flame} =
        Set.Ioc (37 / 100) (74 / 100) := by
      ext r
      simp only [Set.mem_setOf_eq, Set.mem_Ioc]
      constructor
      · rintro ⟨_, h1, hsel⟩
        exact (selectPowerUp_block_iff r h1).2.1.mp hsel
      · rintro ⟨hgt, hle⟩
        have h1 : r < 1 := by linarith
        exact ⟨by linarith, h1, (selectPowerUp_block_iff r h1).2.1.mpr ⟨hgt, hle⟩⟩
    rw [hset, Real.volume_Ioc]
    norm_num
  · have hset : {r : ℝ | 0 ≤ r ∧ r < 1 ∧ selectPowerUp blockPowerUpTypes r = PowerUp.speed} =
        Set.Ioo (74 / 100) 1 := by
      ext r
      simp only [Set.mem_setOf_eq, Set.mem_Ioo]
      constructor
      · rintro ⟨_, h1, hsel⟩
        exact ⟨(selectPowerUp_block_iff r h1).2.2.mp hsel, h1⟩
      · rintro ⟨hgt, h1⟩
        exact ⟨by linarith, h1, (selectPowerUp_block_iff r h1).2.2.mpr hgt⟩
    rw [hset, Real.volume_Ioo]
    norm_num

/-! ## Power-up collection -/

/-- C18. For a player of a session with `bombCount >= 1`, `bombPower >= 1` and
`speed > 0`, `handlePowerUpCollected` with type 'bomb' sets `bombCount` to
`min(old + 1, 6)`, with type 'flame' sets `bombPower` to `min(old + 1, 6)`, with
type 'speed' sets `speed` to `min(old + 3/4, 7)`, and changes nothing else of
the player; with any other type it leaves the player as it is; no other client
object is written, and the only message is the echo, whose stats are those of
the player after the change. -/
theorem handlePowerUpCollected_stats (s : Server) (clientId gi : Nat) (game : Game)
    (data : PowerUpCollectedData)
    (hg : findGame s clientId = some (gi, game))
    (hcount : 1 ≤ (s.objects clientId).bombCount)
    (hpower : 1 ≤ (s.objects clientId).bombPower)
    (hspeed : 0 < (s.objects clientId).speed) :
    (data.type = some PowerUp.bomb →
      (handlePowerUpCollected s clientId data).server.objects clientId =
        { s.objects clientId with bombCount := min ((s.objects clientId).bombCount + 1) 6 }) ∧
    (data.type = some PowerUp.flame →
      (handlePowerUpCollected s clientId data).server.objects clientId =
        { s.objects clientId with bombPower := min ((s.objects clientId).bombPower + 1) 6 }) ∧
    (data.type = some PowerUp.speed →
      (handlePowerUpCollected s clientId data).server.objects clientId =
        { s.objects clientId with speed := min ((s.objects clientId).speed + 3 / 4) 7 }) ∧
    (data.type = none →
      (handlePowerUpCollected s clientId data).server.objects clientId = s.objects clientId) ∧
    (∀ id, id ≠ clientId →
      (handlePowerUpCollected s clientId data).server.objects id = s.objects id) ∧
    (handlePowerUpCollected s clientId data).events =
      [Event.powerUpCollected (recipients s.clients game) clientId data.tileX data.tileY
        data.type ((handlePowerUpCollected s clientId data).server.objects clientId).bombCount
        ((handlePowerUpCollected s clientId data).server.objects clientId).bombPower
        ((handlePowerUpCollected s clientId data).server.objects clientId).speed] := by
  have hc0 : (s.objects clientId).bombCount ≠ 0 := by omega
  have hp0 : (s.objects clientId).bombPower ≠ 0 := by omega
  have hs0 : (s.objects clientId).speed ≠ 0 := ne_of_gt hspeed
  unfold handlePowerUpCollected
  simp only [hg]
  refine ⟨?_, ?_, ?_, ?_, ?_, ?_⟩
  · intro ht
    simp [setObject, applyPowerUp, ht, hc0]
  · intro ht
    simp [setObject, applyPowerUp, ht, hp0]
  · intro ht
    simp [setObject, applyPowerUp, ht, hs0]
  · intro ht
    simp [setObject, applyPowerUp, ht]
  · intro id hid
    simp [setObject, hid]
  · simp [setObject]

theorem handlePowerUpCollected_stats_witness :
    (some PowerUp.bomb = some PowerUp.bomb →
      (handlePowerUpCollected demoServer 1 ⟨2, 1, some .bomb⟩).server.objects 1 =
        { demoServer.objects 1 with bombCount := min ((demoServer.objects 1).bombCount + 1) 6 }) ∧
    (some PowerUp.bomb = some PowerUp.flame →
      (handlePowerUpCollected demoServer 1 ⟨2, 1, some .bomb⟩).server.objects 1 =
        { demoServer.objects 1 with bombPower := min ((demoServer.objects 1).bombPower + 1) 6 }) ∧
    (some PowerUp.bomb = some PowerUp.speed →
      (handlePowerUpCollected demoServer 1 ⟨2, 1, some .bomb⟩).server.objects 1 =
        { demoServer.objects 1 with speed := min ((demoServer.objects 1).speed + 3 / 4) 7 }) ∧
    (some PowerUp.bomb = none →
      (handlePowerUpCollected demoServer 1 ⟨2, 1, some .bomb⟩).server.objects 1 =
        demoServer.objects 1) ∧
    (∀ id, id ≠ 1 →
      (handlePowerUpCollected demoServer 1 ⟨2, 1, some .bomb⟩).server.objects id =
        demoServer.objects id) ∧
    (handlePowerUpCollected demoServer 1 ⟨2, 1, some .bomb⟩).events =
      [Event.powerUpCollected (recipients demoServer.clients demoGame) 1 2 1 (some .bomb)
        ((handlePowerUpCollected demoServer 1 ⟨2, 1, some .bomb⟩).server.objects 1).bombCount
        ((handlePowerUpCollected demoServer 1 ⟨2, 1, some .bomb⟩).server.objects 1).bombPower
        ((handlePowerUpCollected demoServer 1 ⟨2, 1, some .bomb⟩).server.objects 1).speed] :=
  handlePowerUpCollected_stats demoServer 1 0 demoGame ⟨2, 1, some .bomb⟩ (by decide)
    (by decide) (by decide) (by decide)

/-! ## Lobby -/

/-- C11. A join of a connected client into the existing session, not started
and with fewer than 4 players, appends the client to the player list and: arms
`{remaining 20, phase waiting}` if the count becomes 2 and no countdown is
armed; cancels any countdown and arms `{remaining 10, phase starting}` if the
count becomes 4; leaves the countdown and all timers alone in every other case.
A join with no session present creates a session that is not started, has
exactly that player and has no countdown. -/
theorem handleJoinGame_countdown (s : Server) (clientId : Nat) (nickname : String)
    (gameId baseHue : Nat) (hconn : clientId ∈ s.clients) :
    (∀ game rest, s.games = game :: rest → game.started = false → game.players.length < 4 →
      ∃ game1, (handleJoinGame s clientId nickname gameId baseHue).server.games = game1 :: rest ∧
        game1.players = game.players ++ [clientId] ∧ game1.started = false ∧
        (game.players.length + 1 = 2 ∧ game.countdown = none →
          game1.countdown = some ⟨20, Phase.waiting⟩ ∧
          (handleJoinGame s clientId nickname gameId baseHue).timers =
            [Timer.countdownInterval 1000 game.id]) ∧
        (game.players.length + 1 = 4 →
          game1.countdown = some ⟨10, Phase.starting⟩ ∧
          (handleJoinGame s clientId nickname gameId baseHue).timers =
            (if game.countdown = none then [] else [Timer.clearCountdown game.id]) ++
              [Timer.countdownInterval 1000 game.id]) ∧
        (¬ (game.players.length + 1 = 2 ∧ game.countdown = none) →
          game.players.length + 1 ≠ 4 →
          game1.countdown = game.countdown ∧
          (handleJoinGame s clientId nickname gameId baseHue).timers = [])) ∧
    (s.games = [] →
      ∃ game1, (handleJoinGame s clientId nickname gameId baseHue).server.games = [game1] ∧
        game1.started = false ∧ game1.players = [clientId] ∧ game1.countdown = none ∧
        (handleJoinGame s clientId nickname gameId baseHue).timers = []) := by
  have hconn' : s.clients.contains clientId = true := by simpa using hconn
  constructor
  · intro game rest hgames hns hlen
    have hnot : ¬ (game.players.length ≥ 4) := by omega
    unfold handleJoinGame
    simp only [hconn', Bool.not_true, Bool.false_eq_true, if_false, hgames, hns, hnot,
      or_self, List.length_append, List.length_singleton]
    by_cases h2 : game.players.length + 1 = 2 ∧ game.countdown = none
    · rw [if_pos h2]
      refine ⟨_, rfl, rfl, rfl, fun _ => ⟨rfl, rfl⟩, fun h4 => absurd h4 (by omega),
        fun hn => absurd h2 hn⟩
    · rw [if_neg h2]
      by_cases h4 : game.players.length + 1 = 4
      · rw [if_pos h4]
        refine ⟨_, rfl, rfl, rfl, fun h => absurd h h2, fun _ => ⟨rfl, ?_⟩,
          fun _ hn => absurd h4 hn⟩
        cases game.countdown <;> simp [broadcastCountdown]
      · rw [if_neg h4]
        exact ⟨_, rfl, rfl, rfl, fun h => absurd h h2, fun h => absurd h h4,
          fun _ _ => ⟨rfl, rfl⟩⟩
  · intro hgames
    unfold handleJoinGame
    simp only [hconn', Bool.not_true, Bool.false_eq_true, if_false, hgames]
    exact ⟨_, rfl, rfl, rfl, rfl, trivial⟩

theorem handleJoinGame_countdown_witness :
    (∀ game rest, lobbyServer.games = game :: rest → game.started = false →
        game.players.length < 4 →
      ∃ game1, (handleJoinGame lobbyServer 2 "bob" 11 0).server.games = game1 :: rest ∧
        game1.players = game.players ++ [2] ∧ game1.started = false ∧
        (game.players.length + 1 = 2 ∧ game.countdown = none →
          game1.countdown = some ⟨20, Phase.waiting⟩ ∧
          (handleJoinGame lobbyServer 2 "bob" 11 0).timers =
            [Timer.countdownInterval 1000 game.id]) ∧
        (game.players.length + 1 = 4 →
          game1.countdown = some ⟨10, Phase.starting⟩ ∧
          (handleJoinGame lobbyServer 2 "bob" 11 0).timers =
            (if game.countdown = none then [] else [Timer.clearCountdown game.id]) ++
              [Timer.countdownInterval 1000 game.id]) ∧
        (¬ (game.players.length + 1 = 2 ∧ game.countdown = none) →
          game.players.length + 1 ≠ 4 →
          game1.countdown = game.countdown ∧
          (handleJoinGame lobbyServer 2 "bob" 11 0).timers = [])) ∧
    (lobbyServer.games = [] →
      ∃ game1, (handleJoinGame lobbyServer 2 "bob" 11 0).server.games = [game1] ∧
        game1.started = false ∧ game1.players = [2] ∧ game1.countdown = none ∧
        (handleJoinGame lobbyServer 2 "bob" 11 0).timers = []) :=
  handleJoinGame_countdown lobbyServer 2 "bob" 11 0 (by decide)

theorem getElem?_setGame {s : Server} {gi : Nat} {game : Game} (game1 : Game)
    (hget : s.games[gi]? = some game) : (setGame s gi game1).games[gi]? = some game1 := by
  simp only [setGame]
  rw [List.getElem?_set, if_pos rfl, if_pos (List.getElem?_eq_some.mp hget).1]

/-- C13. A countdown tick on a session with a countdown lowers `remaining` by
one.  While the result is positive nothing else changes.  When it is 0 or less:
in phase waiting with fewer than 4 players the countdown is re-armed as
`{remaining 10, phase starting}` and the started flag is left as it is;
otherwise (phase starting, or 4 or more players) the session is started, its
countdown keeping the lowered value. -/
theorem countdownTick_phases (s : Server) (gi : Nat) (game : Game) (countdown : Countdown)
    (rand : Rand)
    (hget : s.games[gi]? = some game) (hcd : game.countdown = some countdown) :
    ∃ out rand1 game1, countdownTick s gi rand = some (out, rand1) ∧
      out.server.games[gi]? = some game1 ∧
      (0 < countdown.remaining - 1 →
        game1.countdown = some ⟨countdown.remaining - 1, countdown.phase⟩ ∧
        game1.started = game.started ∧ out.timers = []) ∧
      (countdown.remaining - 1 ≤ 0 → countdown.phase = Phase.waiting →
        game.players.length < 4 →
        game1.countdown = some ⟨10, Phase.starting⟩ ∧ game1.started = game.started ∧
        out.timers = [Timer.clearCountdown game.id, Timer.countdownInterval 1000 game.id]) ∧
      (countdown.remaining - 1 ≤ 0 →
        countdown.phase = Phase.starting ∨ 4 ≤ game.players.length →
        game1.started = true ∧
        game1.countdown = some ⟨countdown.remaining - 1, countdown.phase⟩ ∧
        out.timers = [Timer.clearCountdown game.id]) := by
  unfold countdownTick
  simp only [hget, hcd]
  by_cases hexp : countdown.remaining - 1 ≤ 0
  · rw [if_pos hexp]
    by_cases hwait : countdown.phase = Phase.waiting ∧ game.players.length < 4
    · rw [if_pos hwait]
      refine ⟨_, _, _, rfl, getElem?_setGame _ hget, fun h => absurd hexp (by omega),
        fun _ _ _ => ⟨rfl, rfl, rfl⟩, fun _ h => ?_⟩
      rcases h with h | h
      · rw [hwait.1] at h
        exact absurd h (by decide)
      · exact absurd h (by omega)
    · rw [if_neg hwait]
      refine ⟨_, _,
        { game with
          countdown := some ⟨countdown.remaining - 1, countdown.phase⟩
          started := true
          state := { map := some (generateMap rand).1, bombs := some [] } },
        rfl, ?_, ?_, ?_, ?_⟩
      · simp only [startGame]
        exact getElem?_setGame _ hget
      · exact fun h => absurd hexp (by omega)
      · exact fun _ h1 h2 => absurd ⟨h1, h2⟩ hwait
      · exact fun _ _ => ⟨rfl, rfl, rfl⟩
  · rw [if_neg hexp]
    exact ⟨_, _, _, rfl, getElem?_setGame _ hget, fun _ => ⟨rfl, rfl, rfl⟩,
      fun h => absurd h hexp, fun h => absurd h hexp⟩

theorem countdownTick_phases_witness :
    ∃ out rand1 game1, countdownTick lobbyServer3 0 (fun _ => 1 / 2) = some (out, rand1) ∧
      out.server.games[0]? = some game1 ∧
      (0 < (12 : Int) - 1 →
        game1.countdown = some ⟨12 - 1, Phase.waiting⟩ ∧
        game1.started = lobbyGame3.started ∧ out.timers = []) ∧
      ((12 : Int) - 1 ≤ 0 → Phase.waiting = Phase.waiting →
        lobbyGame3.players.length < 4 →
        game1.countdown = some ⟨10, Phase.starting⟩ ∧ game1.started = lobbyGame3.started ∧
        out.timers = [Timer.clearCountdown lobbyGame3.id,
          Timer.countdownInterval 1000 lobbyGame3.id]) ∧
      ((12 : Int) - 1 ≤ 0 →
        Phase.waiting = Phase.starting ∨ 4 ≤ lobbyGame3.players.length →
        game1.started = true ∧ game1.countdown = some ⟨12 - 1, Phase.waiting⟩ ∧
        out.timers = [Timer.clearCountdown lobbyGame3.id]) :=
  countdownTick_phases lobbyServer3 0 lobbyGame3 ⟨12, Phase.waiting⟩ (fun _ => 1 / 2) rfl rfl

/-- C14. A disconnect of a player of a session that is not started and has a
countdown armed removes the player from the list and from the registry of
clients.  If the list becomes empty the session is deleted.  Otherwise: with
fewer than 2 players left the countdown is cancelled and set to none; with
exactly 2 left of 3 before, the countdown is cancelled and replaced by a fresh
`{remaining 20, phase waiting}`; in every other case the countdown is left
running unchanged. -/
theorem handleDisconnect_countdown (s : Server) (clientId gi : Nat) (game : Game)
    (countdown : Countdown)
    (hg : findGame s clientId = some (gi, game))
    (hns : game.started = false) (hcd : game.countdown = some countdown) :
    clientId ∉ (handleDisconnect s clientId).server.clients ∧
    (game.players.filter (fun id => id != clientId) = [] →
      (handleDisconnect s clientId).server.games = s.games.eraseIdx gi) ∧
    (game.players.filter (fun id => id != clientId) ≠ [] →
      ∃ game1, (handleDisconnect s clientId).server.games[gi]? = some game1 ∧
        game1.players = game.players.filter (fun id => id != clientId) ∧
        clientId ∉ game1.players ∧
        ((game.players.filter (fun id => id != clientId)).length < 2 →
          game1.countdown = none ∧
          (handleDisconnect s clientId).timers = [Timer.clearCountdown game.id]) ∧
        ((game.players.filter (fun id => id != clientId)).length = 2 ∧
            game.players.length = 3 →
          game1.countdown = some ⟨20, Phase.waiting⟩ ∧
          (handleDisconnect s clientId).timers =
            [Timer.clearCountdown game.id, Timer.countdownInterval 1000 game.id]) ∧
        (¬ (game.players.filter (fun id => id != clientId)).length < 2 →
          ¬ ((game.players.filter (fun id => id != clientId)).length = 2 ∧
            game.players.length = 3) →
          game1.countdown = some countdown ∧ (handleDisconnect s clientId).timers = [])) := by
  obtain ⟨_, hget, _⟩ := findGame_some hg
  have hnot : clientId ∉ game.players.filter (fun id => id != clientId) := by
    simp [List.mem_filter]
  refine ⟨?_, ?_, ?_⟩
  · unfold handleDisconnect
    simp only [hg]
    split_ifs <;> simp [List.mem_filter, setGame]
  · intro hempty
    unfold handleDisconnect
    simp only [hg, hempty, List.length_nil, if_true]
  · intro hne
    have hlen : (game.players.filter (fun id => id != clientId)).length ≠ 0 := fun h =>
      hne (List.length_eq_zero.mp h)
    unfold handleDisconnect
    simp only [hg, hlen, if_false, hns, hcd, ne_eq, reduceCtorEq, not_false_eq_true, and_self,
      if_true]
    by_cases h2 : (game.players.filter (fun id => id != clientId)).length < 2
    · rw [if_pos h2]
      exact ⟨_, getElem?_setGame _ hget, rfl, hnot, fun _ => ⟨rfl, rfl⟩,
        fun h => absurd h.1 (by omega), fun h => absurd h2 h⟩
    · rw [if_neg h2]
      by_cases h3 : (game.players.filter (fun id => id != clientId)).length = 2 ∧
          game.players.length = 3
      · rw [if_pos h3]
        exact ⟨_, getElem?_setGame _ hget, rfl, hnot, fun h => absurd h h2,
          fun _ => ⟨rfl, rfl⟩, fun _ h => absurd h3 h⟩
      · rw [if_neg h3]
        exact ⟨_, getElem?_setGame _ hget, rfl, hnot, fun h => absurd h h2,
          fun h => absurd h h3, fun _ _ => ⟨rfl, rfl⟩⟩

theorem handleDisconnect_countdown_witness :
    3 ∉ (handleDisconnect lobbyServer3 3).server.clients ∧
    (lobbyGame3.players.filter (fun id => id != 3) = [] →
      (handleDisconnect lobbyServer3 3).server.games = lobbyServer3.games.eraseIdx 0) ∧
    (lobbyGame3.players.filter (fun id => id != 3) ≠ [] →
      ∃ game1, (handleDisconnect lobbyServer3 3).server.games[0]? = some game1 ∧
        game1.players = lobbyGame3.players.filter (fun id => id != 3) ∧
        3 ∉ game1.players ∧
        ((lobbyGame3.players.filter (fun id => id != 3)).length < 2 →
          game1.countdown = none ∧
          (handleDisconnect lobbyServer3 3).timers = [Timer.clearCountdown lobbyGame3.id]) ∧
        ((lobbyGame3.players.filter (fun id => id != 3)).length = 2 ∧
            lobbyGame3.players.length = 3 →
          game1.countdown = some ⟨20, Phase.waiting⟩ ∧
          (handleDisconnect lobbyServer3 3).timers =
            [Timer.clearCountdown lobbyGame3.id,
              Timer.countdownInterval 1000 lobbyGame3.id]) ∧
        (¬ (lobbyGame3.players.filter (fun id => id != 3)).length < 2 →
          ¬ ((lobbyGame3.players.filter (fun id => id != 3)).length = 2 ∧
            lobbyGame3.players.length = 3) →
          game1.countdown = some ⟨12, Phase.waiting⟩ ∧
          (handleDisconnect lobbyServer3 3).timers = [])) :=
  handleDisconnect_countdown lobbyServer3 3 0 lobbyGame3 ⟨12, Phase.waiting⟩ (by decide) rfl rfl

/-! ## Starting a game -/

theorem resetPlayerStats_idem (p : Player) :
    resetPlayerStats (resetPlayerStats p) = resetPlayerStats p := rfl

theorem foldl_resetPlayerStats :
    ∀ (players : List Nat) (objects : Nat → Player) (id : Nat),
      (players.foldl (fun o i => setObject o i (resetPlayerStats (o i))) objects) id =
        if id ∈ players then resetPlayerStats (objects id) else objects id := by
  intro players
  induction players with
  | nil => intro objects id; simp
  | cons i rest ih =>
    intro objects id
    rw [List.foldl_cons, ih]
    by_cases hid : id = i
    · subst hid
      simp only [setObject, if_true, List.mem_cons, true_or, resetPlayerStats_idem]
      split <;> rfl
    · simp only [setObject, if_neg hid, List.mem_cons, hid, false_or, if_false]

/-- The placement loop on a list without repetition: the player at position `j`
gets spawn tile `index + j`, and no other object is written. -/
theorem placePlayers_nodup :
    ∀ (players : List Nat) (objects : Nat → Player) (index : Nat), players.Nodup →
      (∀ (j id : Nat), players[j]? = some id →
        (placePlayers objects players index).1 id =
          { objects id with
            tileX := (spawnPosition (index + j)).1, tileY := (spawnPosition (index + j)).2
            direction := some Direction.down, moving := some false
            activeBombs := 0, bombCount := 1, bombPower := 1 }) ∧
      (∀ id, id ∉ players → (placePlayers objects players index).1 id = objects id) := by
  intro players
  induction players with
  | nil =>
    intro objects index _
    exact ⟨fun j id h => by simp at h, fun _ _ => rfl⟩
  | cons i rest ih =>
    intro objects index hnodup
    rw [List.nodup_cons] at hnodup
    obtain ⟨hplaced, hother⟩ := ih (setObject objects i
      { objects i with
        tileX := (spawnPosition index).1, tileY := (spawnPosition index).2
        direction := some Direction.down, moving := some false
        activeBombs := 0, bombCount := 1, bombPower := 1 }) (index + 1) hnodup.2
    constructor
    · intro j id hj
      cases j with
      | zero =>
        simp only [List.getElem?_cons_zero, Option.some.injEq] at hj
        subst hj
        simp only [placePlayers]
        rw [hother i hnodup.1]
        simp [setObject]
      | succ k =>
        simp only [List.getElem?_cons_succ] at hj
        have hmem : id ∈ rest := List.mem_iff_getElem?.mpr ⟨k, hj⟩
        have hne : id ≠ i := fun h => hnodup.1 (h ▸ hmem)
        simp only [placePlayers]
        rw [hplaced k id hj]
        simp only [setObject, if_neg hne]
        rw [show index + 1 + k = index + (k + 1) by omega]
    · intro id hid
      rw [List.mem_cons, not_or] at hid
      simp only [placePlayers]
      rw [hother id hid.2]
      simp only [setObject, if_neg hid.1]

/-- C15 (amended). After `startGame` on a session of the registry with at most
4 players whose ids are pairwise distinct, the session is started, its list of
live bombs is empty, and the player at position `i` of the list has lives 3,
`bombCount` 1, `bombPower` 1, speed 3, `activeBombs` 0, direction 'down',
moving false and stands on the `i`-th of the tiles (1,1), (13,1), (1,11),
(13,11). -/
theorem startGame_players (s : Server) (gi : Nat) (game : Game) (rand : Rand)
    (hget : s.games[gi]? = some game) (hlen : game.players.length ≤ 4)
    (hnodup : game.players.Nodup) :
    ∃ game1, (startGame s gi game rand).1.server.games[gi]? = some game1 ∧
      game1.started = true ∧ game1.state.bombs = some [] ∧ game1.players = game.players ∧
      ∀ (i id : Nat), game.players[i]? = some id →
        ((startGame s gi game rand).1.server.objects id).lives = 3 ∧
        ((startGame s gi game rand).1.server.objects id).bombCount = 1 ∧
        ((startGame s gi game rand).1.server.objects id).bombPower = 1 ∧
        ((startGame s gi game rand).1.server.objects id).speed = 3 ∧
        ((startGame s gi game rand).1.server.objects id).activeBombs = 0 ∧
        ((startGame s gi game rand).1.server.objects id).direction = some Direction.down ∧
        ((startGame s gi game rand).1.server.objects id).moving = some false ∧
        [((1 : Int), (1 : Int)), (13, 1), (1, 11), (13, 11)][i]? =
          some (((startGame s gi game rand).1.server.objects id).tileX,
            ((startGame s gi game rand).1.server.objects id).tileY) := by
  refine ⟨{ game with
      started := true, state := { map := some (generateMap rand).1, bombs := some [] } },
    ?_, rfl, rfl, rfl, ?_⟩
  · simp only [startGame]
    exact getElem?_setGame _ hget
  · intro i id hi
    have hmem : id ∈ game.players := List.mem_iff_getElem?.mpr ⟨i, hi⟩
    have hilt : i < 4 := by
      have := (List.getElem?_eq_some.mp hi).1
      omega
    have hobj : (startGame s gi game rand).1.server.objects id =
        { resetPlayerStats (s.objects id) with
          tileX := (spawnPosition i).1, tileY := (spawnPosition i).2
          direction := some Direction.down, moving := some false
          activeBombs := 0, bombCount := 1, bombPower := 1 } := by
      simp only [startGame, startPlayers]
      rw [(placePlayers_nodup game.players _ 0 hnodup).1 i id hi, foldl_resetPlayerStats,
        if_pos hmem, Nat.zero_add]
    rw [hobj]
    refine ⟨rfl, rfl, rfl, rfl, rfl, rfl, rfl, ?_⟩
    have hcases : i = 0 ∨ i = 1 ∨ i = 2 ∨ i = 3 := by omega
    rcases hcases with h | h | h | h <;> subst h <;> rfl

theorem startGame_players_witness :
    ∃ game1, (startGame lobbyServer3 0 lobbyGame3 (fun _ => 1 / 2)).1.server.games[0]? =
        some game1 ∧
      game1.started = true ∧ game1.state.bombs = some [] ∧ game1.players = lobbyGame3.players ∧
      ∀ (i id : Nat), lobbyGame3.players[i]? = some id →
        ((startGame lobbyServer3 0 lobbyGame3 (fun _ => 1 / 2)).1.server.objects id).lives = 3 ∧
        ((startGame lobbyServer3 0 lobbyGame3 (fun _ => 1 / 2)).1.server.objects id).bombCount
          = 1 ∧
        ((startGame lobbyServer3 0 lobbyGame3 (fun _ => 1 / 2)).1.server.objects id).bombPower
          = 1 ∧
        ((startGame lobbyServer3 0 lobbyGame3 (fun _ => 1 / 2)).1.server.objects id).speed = 3 ∧
        ((startGame lobbyServer3 0 lobbyGame3 (fun _ => 1 / 2)).1.server.objects id).activeBombs
          = 0 ∧
        ((startGame lobbyServer3 0 lobbyGame3 (fun _ => 1 / 2)).1.server.objects id).direction =
          some Direction.down ∧
        ((startGame lobbyServer3 0 lobbyGame3 (fun _ => 1 / 2)).1.server.objects id).moving =
          some false ∧
        [((1 : Int), (1 : Int)), (13, 1), (1, 11), (13, 11)][i]? =
          some (((startGame lobbyServer3 0 lobbyGame3 (fun _ => 1 / 2)).1.server.objects id).tileX,
            ((startGame lobbyServer3 0 lobbyGame3 (fun _ => 1 / 2)).1.server.objects id).tileY) :=
  startGame_players lobbyServer3 0 lobbyGame3 (fun _ => 1 / 2) rfl (by decide) (by decide)

/-- C15, as stated, fails.  Client 1 sends `joinGame` twice: the session lists
the same player object twice.  After `startGame` the player at position 0 of
the list stands on (13, 1), the spawn tile of position 1, not on (1, 1). -/
theorem startGame_double_join :
    ∃ game, doubleJoin.games = [game] ∧ game.players = [1, 1] ∧ game.players.length ≤ 4 ∧
      game.players[0]? = some 1 ∧
      ((startGame doubleJoin 0 game (fun _ => 1 / 2)).1.server.objects 1).tileX = 13 ∧
      ((startGame doubleJoin 0 game (fun _ => 1 / 2)).1.server.objects 1).tileY = 1 := by
  refine ⟨_, rfl, rfl, ?_, ?_, ?_, ?_⟩ <;> decide

/-! ## The sessions of a reachable world -/

theorem atMostFour_set {games : List Game} {gi : Nat} {game game1 : Game}
    (hall : AtMostFour games) (hget : games[gi]? = some game)
    (hlen : game1.players.length ≤ game.players.length) :
    AtMostFour (games.set gi game1) := by
  intro g hg
  rcases List.mem_or_eq_of_mem_set hg with h | h
  · exact hall g h
  · rw [h]
    exact le_trans hlen (hall game (List.mem_iff_getElem?.mpr ⟨gi, hget⟩))

theorem atMostFour_eraseIdx {games : List Game} (gi : Nat) (hall : AtMostFour games) :
    AtMostFour (games.eraseIdx gi) :=
  fun g hg => hall g ((List.eraseIdx_sublist games gi).subset hg)

theorem atMostFour_filter {games : List Game} (p : Game → Bool) (hall : AtMostFour games) :
    AtMostFour (games.filter p) :=
  fun g hg => hall g (List.mem_of_mem_filter hg)

theorem playerUpdateNaN_games (s : Server) (game : Game) (clientId : Nat)
    (data : PlayerUpdateData) : (playerUpdateNaN s game clientId data).server.games = s.games := by
  unfold playerUpdateNaN
  split
  · rfl
  · simp only []
    split <;> rfl

theorem handlePlayerUpdate_games {s : Server} {clientId : Nat} {data : PlayerUpdateData}
    {out : Outcome} (h : handlePlayerUpdate s clientId data = some out) :
    out.server.games = s.games := by
  unfold handlePlayerUpdate at h
  split at h
  · simp only [Option.some.injEq] at h
    subst h
    rfl
  · split at h
    · simp only [] at h
      split at h
      · simp only [Option.some.injEq] at h
        subst h
        rfl
      · split at h
        · exact absurd h (by simp)
        · simp only [Option.some.injEq] at h
          subst h
          rfl
        · split at h
          · simp only [Option.some.injEq] at h
            subst h
            rfl
          · split at h <;>
            · simp only [Option.some.injEq] at h
              subst h
              rfl
    · simp only [Option.some.injEq] at h
      subst h
      exact playerUpdateNaN_games _ _ _ _

theorem handleBombPlaced_atMostFour {s : Server} {clientId : Nat} {data : BombPlacedData}
    {now : Int} {out : Outcome} (h : handleBombPlaced s clientId data now = some out)
    (hall : AtMostFour s.games) : AtMostFour out.server.games := by
  unfold handleBombPlaced at h
  split at h
  · simp only [Option.some.injEq] at h
    subst h
    exact hall
  · rename_i gi game hg
    obtain ⟨_, hget, _⟩ := findGame_some hg
    simp only [] at h
    split at h
    · split at h <;>
      · simp only [Option.some.injEq] at h
        subst h
        exact hall
    · split at h
      · exact absurd h (by simp)
      · simp only [Option.some.injEq] at h
        subst h
        exact atMostFour_set hall hget (le_refl _)

theorem handleBombExploded_atMostFour {s : Server} {clientId : Nat} {data : BombExplodedData}
    {now : Int} {rand rand1 : Rand} {out : Outcome}
    (h : handleBombExploded s clientId data now rand = some (out, rand1))
    (hall : AtMostFour s.games) : AtMostFour out.server.games := by
  unfold handleBombExploded at h
  split at h
  · simp only [Option.some.injEq, Prod.mk.injEq] at h
    obtain ⟨h, _⟩ := h
    subst h
    exact hall
  · rename_i gi game hg
    obtain ⟨_, hget, _⟩ := findGame_some hg
    split at h
    · exact absurd h (by simp)
    · split at h
      · simp only [Option.some.injEq, Prod.mk.injEq] at h
        obtain ⟨h, _⟩ := h
        subst h
        exact hall
      · split at h
        · simp only [Option.some.injEq, Prod.mk.injEq] at h
          obtain ⟨h, _⟩ := h
          subst h
          exact hall
        · split at h
          · simp only [Option.some.injEq, Prod.mk.injEq] at h
            obtain ⟨h, _⟩ := h
            subst h
            exact hall
          · split at h
            · simp only [Option.some.injEq, Prod.mk.injEq] at h
              obtain ⟨h, _⟩ := h
              subst h
              exact hall
            · simp only [] at h
              split at h
              · exact absurd h (by simp)
              · simp only [Option.some.injEq, Prod.mk.injEq] at h
                obtain ⟨h, _⟩ := h
                subst h
                exact atMostFour_set hall hget (le_refl _)

theorem handleDisconnect_atMostFour (s : Server) (clientId : Nat) (hall : AtMostFour s.games) :
    AtMostFour (handleDisconnect s clientId).server.games := by
  unfold handleDisconnect
  simp only []
  split
  · exact hall
  · rename_i gi game hg
    obtain ⟨_, hget, _⟩ := findGame_some hg
    have hlen : (game.players.filter (fun id => id != clientId)).length ≤ game.players.length :=
      List.length_filter_le _ _
    split
    · exact atMostFour_eraseIdx gi hall
    · split
      · split
        · exact atMostFour_set hall hget hlen
        · split
          · exact atMostFour_set hall hget hlen
          · exact atMostFour_set hall hget hlen
      · exact atMostFour_set hall hget hlen

theorem handleJoinGame_atMostFour (s : Server) (clientId : Nat) (nickname : String)
    (gameId baseHue : Nat) (hall : AtMostFour s.games) :
    AtMostFour (handleJoinGame s clientId nickname gameId baseHue).server.games := by
  unfold handleJoinGame
  split
  · exact hall
  · split
    · rename_i game rest hgames
      have hrest : ∀ g ∈ rest, g.players.length ≤ 4 := fun g hg =>
        hall g (by rw [hgames]; exact List.mem_cons_of_mem _ hg)
      split
      · exact hall
      · rename_i hnot
        have hlt : game.players.length < 4 := by
          by_contra hge
          exact hnot (Or.inr (by omega))
        have hcons : ∀ game1 : Game, game1.players = game.players ++ [clientId] →
            AtMostFour (game1 :: rest) := by
          intro game1 hp g hg
          rw [List.mem_cons] at hg
          rcases hg with rfl | hg
          · rw [hp, List.length_append, List.length_singleton]
            omega
          · exact hrest g hg
        simp only []
        split
        · exact hcons _ rfl
        · split
          · exact hcons _ rfl
          · exact hcons _ rfl
    · intro g hg
      simp only [List.mem_singleton] at hg
      rw [hg]
      exact Nat.le_of_ble_eq_true rfl

theorem handleJoinGame_started (s : Server) (clientId : Nat) (nickname : String)
    (gameId baseHue i : Nat) (g : Game) (hget : s.games[i]? = some g)
    (hstarted : g.started = true) :
    (handleJoinGame s clientId nickname gameId baseHue).server.games[i]? = some g := by
  unfold handleJoinGame
  split
  · exact hget
  · split
    · rename_i game rest hgames
      split
      · exact hget
      · rename_i hnot
        have hns : ¬ game.started = true := fun h => hnot (Or.inl h)
        rw [hgames] at hget
        cases i with
        | zero =>
          simp only [List.getElem?_cons_zero, Option.some.injEq] at hget
          exact absurd (hget ▸ hstarted) hns
        | succ j =>
          simp only [List.getElem?_cons_succ] at hget
          simp only []
          split
          · simpa only [List.getElem?_cons_succ] using hget
          · split
            · simpa only [List.getElem?_cons_succ] using hget
            · simpa only [List.getElem?_cons_succ] using hget
    · rename_i hgames
      rw [hgames] at hget
      simp at hget

theorem handlePowerUpCollected_games (s : Server) (clientId : Nat)
    (data : PowerUpCollectedData) :
    (handlePowerUpCollected s clientId data).server.games = s.games := by
  unfold handlePowerUpCollected
  split <;> rfl

/-- The two outcomes of `handleGameEnded` when it returns: the world left as it
is, the sender being in no session, or the session of the sender deleted. -/
theorem handleGameEnded_server_cases {s : Server} {clientId : Nat}
    {data : Option GameEndedData} {out : Outcome}
    (h : handleGameEnded s clientId data = some out) :
    (findGame s clientId = none ∧ out = ⟨s, [], []⟩) ∨
    ∃ gi game, findGame s clientId = some (gi, game) ∧
      out = ⟨{ s with games := s.games.eraseIdx gi }, [], []⟩ := by
  unfold handleGameEnded at h
  split at h
  · rename_i hg
    simp only [Option.some.injEq] at h
    exact Or.inl ⟨hg, h.symm⟩
  · rename_i gi game hg
    split at h
    · exact Option.noConfusion h
    · split at h
      · split at h
        · exact Option.noConfusion h
        · split at h
          · exact Option.noConfusion h
          · simp only [Option.some.injEq] at h
            exact Or.inr ⟨gi, game, hg, h.symm⟩
      · simp only [Option.some.injEq] at h
        exact Or.inr ⟨gi, game, hg, h.symm⟩

theorem handleGameEnded_atMostFour {s : Server} {clientId : Nat}
    {data : Option GameEndedData} {out : Outcome}
    (h : handleGameEnded s clientId data = some out) (hall : AtMostFour s.games) :
    AtMostFour out.server.games := by
  rcases handleGameEnded_server_cases h with ⟨_, hout⟩ | ⟨gi, game, _, hout⟩
  · rw [hout]
    exact hall
  · rw [hout]
    exact atMostFour_eraseIdx _ hall

theorem countdownTick_atMostFour {s : Server} {gi : Nat} {rand rand1 : Rand} {out : Outcome}
    (h : countdownTick s gi rand = some (out, rand1)) (hall : AtMostFour s.games) :
    AtMostFour out.server.games := by
  unfold countdownTick at h
  split at h
  · simp only [Option.some.injEq, Prod.mk.injEq] at h
    obtain ⟨h, _⟩ := h
    subst h
    exact hall
  · rename_i game hget
    split at h
    · exact absurd h (by simp)
    · simp only [] at h
      split at h
      · split at h
        · simp only [Option.some.injEq, Prod.mk.injEq] at h
          obtain ⟨h, _⟩ := h
          subst h
          exact atMostFour_set hall hget (le_refl _)
        · simp only [Option.some.injEq, Prod.mk.injEq] at h
          obtain ⟨h, _⟩ := h
          subst h
          exact atMostFour_set hall hget (le_refl _)
      · simp only [Option.some.injEq, Prod.mk.injEq] at h
        obtain ⟨h, _⟩ := h
        subst h
        exact atMostFour_set hall hget (le_refl _)

theorem checkExplosionCollisions_players (clients : List Nat) (objects : Nat → Player)
    (game : Game) (now : Int) (rand : Rand) :
    (checkExplosionCollisions clients objects game now rand).game.players = game.players := by
  unfold checkExplosionCollisions
  split
  · rfl
  · simp only []
    split
    · rfl
    · split <;> rfl

theorem cleanupExpiredExplosions_players (game : Game) (now : Int) :
    (cleanupExpiredExplosions game now).players = game.players := by
  unfold cleanupExpiredExplosions
  split <;> rfl

theorem tickGame_players (clients : List Nat) (objects : Nat → Player) (game : Game)
    (now : Int) (rand : Rand) :
    (tickGame clients objects game now rand).game.players = game.players := by
  unfold tickGame
  split
  · simp only []
    rw [cleanupExpiredExplosions_players, checkExplosionCollisions_players]
  · rfl

theorem tickGames_atMostFour (clients : List Nat) (now : Int) :
    ∀ (games : List Game) (objects : Nat → Player) (rand : Rand), AtMostFour games →
      AtMostFour (tickGames clients objects games now rand).2.1 := by
  intro games
  induction games with
  | nil =>
    intro objects rand _ g hg
    simp [tickGames] at hg
  | cons game rest ih =>
    intro objects rand hall g hg
    simp only [tickGames, List.mem_cons] at hg
    rcases hg with rfl | hg
    · rw [tickGame_players]
      exact hall game (List.mem_cons_self _ _)
    · exact ih _ _ (fun g' hg' => hall g' (List.mem_cons_of_mem _ hg')) g hg

/-- The bound on the player lists is kept by every operation of the server. -/
theorem step_atMostFour {s s' : Server} (hstep : Step s s') (hall : AtMostFour s.games) :
    AtMostFour s'.games := by
  cases hstep with
  | connect => exact hall
  | disconnect => exact handleDisconnect_atMostFour _ _ hall
  | joinGame => exact handleJoinGame_atMostFour _ _ _ _ _ hall
  | playerUpdate clientId data out _ h => rw [handlePlayerUpdate_games h]; exact hall
  | bombPlaced clientId data now out _ h => exact handleBombPlaced_atMostFour h hall
  | bombExploded clientId data now rand rand1 out h => exact handleBombExploded_atMostFour h hall
  | powerUpCollected => rw [handlePowerUpCollected_games]; exact hall
  | gameEnded clientId data out _ h => exact handleGameEnded_atMostFour h hall
  | countdownTick gi rand rand1 out h => exact countdownTick_atMostFour h hall
  | tick now rand => exact tickGames_atMostFour _ _ _ _ _ hall
  | gameOverTimer game winner => exact atMostFour_filter _ hall
  | orphanStart => exact hall

theorem reachable_atMostFour {s : Server} (h : Reachable s) : AtMostFour s.games := by
  obtain ⟨objects, hreach⟩ := h
  induction hreach with
  | refl => intro g hg; simp at hg
  | tail _ hstep ih => exact step_atMostFour hstep ih

/-- C12. A `joinGame` from a connected client while the existing session is
started or has 4 or more players sends the error message to that client alone
and returns the world as it was: player list and countdown of the session are
unchanged and no timer is touched.  In every reachable world every session has
at most 4 entries in its player list, and whatever the join, a started session
is the same after it as before. -/
theorem handleJoinGame_rejected :
    (∀ (s : Server) (clientId : Nat) (nickname : String) (gameId baseHue : Nat) (game : Game)
        (rest : List Game),
      clientId ∈ s.clients → s.games = game :: rest →
      game.started = true ∨ 4 ≤ game.players.length →
      handleJoinGame s clientId nickname gameId baseHue =
        ⟨s, [Event.error clientId
          "A game is already in progress or full. Please wait until it finishes."], []⟩) ∧
    (∀ s : Server, Reachable s → ∀ g ∈ s.games, g.players.length ≤ 4) ∧
    (∀ (s : Server) (clientId : Nat) (nickname : String) (gameId baseHue i : Nat) (g : Game),
      s.games[i]? = some g → g.started = true →
      (handleJoinGame s clientId nickname gameId baseHue).server.games[i]? = some g) := by
  refine ⟨?_, fun s hs => reachable_atMostFour hs, handleJoinGame_started⟩
  intro s clientId nickname gameId baseHue game rest hconn hgames hfull
  have hconn' : s.clients.contains clientId = true := by simpa using hconn
  unfold handleJoinGame
  simp only [hconn', Bool.not_true, Bool.false_eq_true, if_false, hgames]
  rw [if_pos hfull]

theorem handleJoinGame_rejected_witness :
    handleJoinGame startedServer 3 "cy" 11 0 =
        ⟨startedServer, [Event.error 3
          "A game is already in progress or full. Please wait until it finishes."], []⟩ ∧
      (∀ g ∈ (handleJoinGame (connect ⟨demoObjects, [], []⟩ 1).server 1 "ann" 10 0).server.games,
        g.players.length ≤ 4) ∧
      (handleJoinGame startedServer 3 "cy" 11 0).server.games[0]? = some demoGame :=
  ⟨handleJoinGame_rejected.1 startedServer 3 "cy" 11 0 demoGame [] (by decide) rfl (Or.inl rfl),
    handleJoinGame_rejected.2.1 _
      ⟨demoObjects, Relation.ReflTransGen.tail
        (Relation.ReflTransGen.tail Relation.ReflTransGen.refl
          (Step.connect ⟨demoObjects, [], []⟩ 1 (by decide) (by decide)))
        (Step.joinGame (connect ⟨demoObjects, [], []⟩ 1).server 1 "ann" 10 0 (by decide))⟩,
    handleJoinGame_rejected.2.2 startedServer 3 "cy" 11 0 0 demoGame rfl rfl⟩

/-! ## The end of a game -/

theorem checkGameOver_eq (s : Server) (game : Game)
    (h : (alivePlayers s.objects game).length ≤ 1) :
    checkGameOver s game =
      (game.players.map (fun id => broadcastUpdate s.clients game id (s.objects id) false),
        [Timer.gameOver 250 game.id (alivePlayers s.objects game).head?]) := by
  unfold alivePlayers at h
  unfold checkGameOver
  simp only []
  rw [if_pos h]
  rfl

theorem alivePlayers_congr {objects objects1 : Nat → Player} {game game1 : Game}
    (hplayers : game1.players = game.players)
    (hlives : ∀ id, (objects1 id).lives = (objects id).lives) :
    alivePlayers objects1 game1 = alivePlayers objects game := by
  unfold alivePlayers
  rw [hplayers]
  apply List.filter_congr
  intro id _
  rw [hlives]

/-- The outcome of an accepted detonation: the session keeps its id and its
players, no life is written, and the timers are the chain-reaction timers
followed by those of `checkGameOver` on the world left behind, whose messages
are sent last. -/
theorem handleBombExploded_accepted {s : Server} {clientId gi : Nat} {game : Game}
    {bombs : List Bomb} {idx : Nat} {bomb : Bomb} {data : BombExplodedData} {rand : Rand}
    {blast : Blast} (now : Int)
    (hg : findGame s clientId = some (gi, game))
    (hbombs : game.state.bombs = some bombs)
    (hidx : bombs.findIdx? (fun b => b.id == data.bombId) = some idx)
    (hbomb : bombs[idx]? = some bomb)
    (howner : bomb.ownerId = clientId)
    (htile : bomb.tileX = data.tileX ∧ bomb.tileY = data.tileY)
    (hblast : calculateExplosionTiles (recipients s.clients game) game.state.map
      ⟨bomb.tileX, bomb.tileY, bomb.power, bomb.id⟩ rand = some blast) :
    ∃ out game1 before, handleBombExploded s clientId data now rand = some (out, blast.rand) ∧
      out.server.games = s.games.set gi game1 ∧
      game1.players = game.players ∧ game1.id = game.id ∧
      (∀ id, (out.server.objects id).lives = (s.objects id).lives) ∧
      out.events = before ++ (checkGameOver out.server game1).1 ∧
      out.timers = chainTimers game.id ((bombs.eraseIdx idx).filter (bombHit blast.tiles)) 0 ++
        (checkGameOver out.server game1).2 := by
  unfold handleBombExploded
  simp only [hg, hbombs, hidx, hbomb, howner, htile.1, htile.2, ne_eq, not_true_eq_false,
    if_false, or_self]
  rw [← htile.1, ← htile.2, hblast]
  simp only []
  refine ⟨_, { game with
    state := { map := blast.map, bombs := some (bombs.eraseIdx idx) }
    activeExplosions := some ((match game.activeExplosions with
      | none => []
      | some l => l) ++
      blast.tiles.map (fun tile => ⟨bomb.id, tile.x, tile.y, now + 800⟩)) }, _, rfl, rfl, rfl,
    rfl, ?_, rfl, rfl⟩
  intro id
  simp only []
  split
  · unfold setObject
    split
    · rename_i h
      rw [h]
    · rfl
  · rfl

theorem tick_timers (s : Server) (now : Int) (rand : Rand) : (tick s now rand).1.timers = [] :=
  rfl

theorem playerUpdateNaN_timers (s : Server) (game : Game) (clientId : Nat)
    (data : PlayerUpdateData) : (playerUpdateNaN s game clientId data).timers = [] := by
  unfold playerUpdateNaN
  split
  · rfl
  · simp only []
    split <;> rfl

theorem handlePlayerUpdate_timers {s : Server} {clientId : Nat} {data : PlayerUpdateData}
    {out : Outcome} (h : handlePlayerUpdate s clientId data = some out) :
    out.timers = [] := by
  unfold handlePlayerUpdate at h
  split at h
  · simp only [Option.some.injEq] at h
    subst h
    rfl
  · split at h
    · simp only [] at h
      split at h
      · simp only [Option.some.injEq] at h
        subst h
        rfl
      · split at h
        · exact absurd h (by simp)
        · simp only [Option.some.injEq] at h
          subst h
          rfl
        · split at h
          · simp only [Option.some.injEq] at h
            subst h
            rfl
          · split at h <;>
            · simp only [Option.some.injEq] at h
              subst h
              rfl
    · simp only [Option.some.injEq] at h
      subst h
      exact playerUpdateNaN_timers _ _ _ _

/-- C16 (amended). In a session in which exactly one player `w` has lives above
0: a `verifyGameOver` request of a player of the session that names `w` leaves
the world as it is and registers its own timer `gameOver(250 ms, session, w)`;
an accepted detonation registers, after its chain-reaction timers, its own such
timer; and each such timer, when it fires, sends one `gameEnded` message with
winner `w` and leaves no session with that id in the registry.  There is one
`gameEnded` message per such call, not one per session. -/
theorem checkGameOver_sole_survivor (s : Server) (clientId gi w : Nat) (game : Game)
    (hg : findGame s clientId = some (gi, game))
    (halive : alivePlayers s.objects game = [w]) :
    ((handleVerifyGameOver s clientId w).server = s ∧
      (handleVerifyGameOver s clientId w).timers = [Timer.gameOver 250 game.id (some w)]) ∧
    (∀ (data : BombExplodedData) (now : Int) (rand : Rand) (bombs : List Bomb) (m : TileMap)
        (idx : Nat) (bomb : Bomb),
      game.state.bombs = some bombs → game.state.map = some m → m ≠ [] →
      bombs.findIdx? (fun b => b.id == data.bombId) = some idx → bombs[idx]? = some bomb →
      bomb.ownerId = clientId → bomb.tileX = data.tileX ∧ bomb.tileY = data.tileY →
      ∃ blast out,
        calculateExplosionTiles (recipients s.clients game) game.state.map
          ⟨bomb.tileX, bomb.tileY, bomb.power, bomb.id⟩ rand = some blast ∧
        handleBombExploded s clientId data now rand = some (out, blast.rand) ∧
        out.timers =
          chainTimers game.id ((bombs.eraseIdx idx).filter (bombHit blast.tiles)) 0 ++
            [Timer.gameOver 250 game.id (some w)]) ∧
    (∀ (s' : Server) (game' : Game), game'.id = game.id →
      (gameOverCallback s' game' (some w)).events =
        [Event.gameEnded (recipients s'.clients game') (some (w, (s'.objects w).nickname))
          (game'.players.map (fun id => (id, (s'.objects id).nickname, (s'.objects id).lives)))] ∧
      ∀ g ∈ (gameOverCallback s' game' (some w)).server.games, g.id ≠ game.id) := by
  have hlen : (alivePlayers s.objects game).length ≤ 1 := by rw [halive]; exact le_refl _
  refine ⟨?_, ?_, ?_⟩
  · unfold handleVerifyGameOver
    simp only [hg, halive, List.length_singleton, List.head?_cons, decide_True, Bool.and_self,
      if_true]
    refine ⟨trivial, ?_⟩
    rw [checkGameOver_eq s game hlen, halive]
    rfl
  · intro data now rand bombs m idx bomb hbombs hmap hrows hidx hbomb howner htile
    obtain ⟨blast, hblast⟩ : ∃ blast, calculateExplosionTiles (recipients s.clients game)
        game.state.map ⟨bomb.tileX, bomb.tileY, bomb.power, bomb.id⟩ rand = some blast := by
      rw [hmap]
      exact raysLoop_returns _ _ directions _ m rfl hrows
    obtain ⟨out, game1, _, hrun, _, hplayers, hid, hlives, _, htimers⟩ :=
      handleBombExploded_accepted now hg hbombs hidx hbomb howner htile hblast
    refine ⟨blast, out, hblast, hrun, ?_⟩
    have halive1 : alivePlayers out.server.objects game1 = [w] := by
      rw [alivePlayers_congr hplayers hlives, halive]
    rw [htimers, checkGameOver_eq out.server game1 (by rw [halive1]; exact le_refl _), halive1,
      hid]
    rfl
  · intro s' game' hid
    refine ⟨rfl, ?_⟩
    intro g hgmem
    have hne := (List.mem_filter.mp hgmem).2
    rw [← hid]
    simpa using hne

theorem checkGameOver_sole_survivor_witness :
    ((handleVerifyGameOver overServer 1 1).server = overServer ∧
      (handleVerifyGameOver overServer 1 1).timers = [Timer.gameOver 250 10 (some 1)]) ∧
    (∃ blast out,
      calculateExplosionTiles (recipients overServer.clients armedGame) armedGame.state.map
        ⟨1, 1, 1, 8⟩ (fun _ => 1 / 2) = some blast ∧
      handleBombExploded overServer 1 ⟨8, 1, 1, none⟩ 3000 (fun _ => 1 / 2) =
        some (out, blast.rand) ∧
      out.timers =
        chainTimers 10 (([⟨8, 1, 1, 1, 1, 0, 3000⟩, ⟨7, 2, 1, 1, 2, 0, 3000⟩] : List Bomb).eraseIdx
          0 |>.filter (bombHit blast.tiles)) 0 ++ [Timer.gameOver 250 10 (some 1)]) ∧
    ((gameOverCallback overServer armedGame (some 1)).events =
        [Event.gameEnded (recipients overServer.clients armedGame)
          (some (1, (overServer.objects 1).nickname))
          (armedGame.players.map (fun id =>
            (id, (overServer.objects id).nickname, (overServer.objects id).lives)))] ∧
      ∀ g ∈ (gameOverCallback overServer armedGame (some 1)).server.games, g.id ≠ 10) :=
  ⟨(checkGameOver_sole_survivor overServer 1 0 1 armedGame (by decide) (by decide)).1,
    (checkGameOver_sole_survivor overServer 1 0 1 armedGame (by decide) (by decide)).2.1
      ⟨8, 1, 1, none⟩ 3000 (fun _ => 1 / 2)
      [⟨8, 1, 1, 1, 1, 0, 3000⟩, ⟨7, 2, 1, 1, 2, 0, 3000⟩] demoMap 0 ⟨8, 1, 1, 1, 1, 0, 3000⟩
      rfl rfl (by decide) (by decide) rfl rfl ⟨rfl, rfl⟩,
    (checkGameOver_sole_survivor overServer 1 0 1 armedGame (by decide) (by decide)).2.2
      overServer armedGame rfl⟩

/-- C16, as stated, fails.  Player 2 of the started session has no life left,
player 1 has 3.  The two clients each send `verifyGameOver` naming player 1:
neither request changes the world and each registers a timer.  When the two
timers have fired, two `gameEnded` messages have been sent. -/
theorem verifyGameOver_twice_gameEnded_twice :
    armedGame.started = true ∧ alivePlayers overServer.objects armedGame = [1] ∧
    (handleVerifyGameOver overServer 1 1).server = overServer ∧
    (handleVerifyGameOver overServer 1 1).timers = [Timer.gameOver 250 10 (some 1)] ∧
    (handleVerifyGameOver (handleVerifyGameOver overServer 1 1).server 2 1).timers =
      [Timer.gameOver 250 10 (some 1)] ∧
    (gameOverCallback overServer armedGame (some 1)).events =
      [Event.gameEnded [1, 2] (some (1, "ann")) [(1, "ann", 3), (2, "bob", 0)]] ∧
    (gameOverCallback (gameOverCallback overServer armedGame (some 1)).server armedGame
        (some 1)).events =
      [Event.gameEnded [1, 2] (some (1, "ann")) [(1, "ann", 3), (2, "bob", 0)]] ∧
    ((gameOverCallback overServer armedGame (some 1)).events ++
      (gameOverCallback (gameOverCallback overServer armedGame (some 1)).server armedGame
        (some 1)).events).countP Event.isGameEnded = 2 := by
  refine ⟨rfl, by decide, rfl, by decide, by decide, by decide, by decide, by decide⟩

/-- C17 (amended). Neither the tick (the damage check
`checkExplosionCollisions` with the purge and the state broadcast) nor
`handlePlayerUpdate` registers a timer, whatever they do to lives: they do not
run `checkGameOver`.  `checkGameOver` runs in a `verifyGameOver` request with
which the server agrees and at the end of an accepted detonation; when at most
one player is alive it sends the state of every player and registers the timer
that sends `gameEnded` and deletes the session 250 ms later. -/
theorem checkGameOver_callers (s : Server) (clientId gi : Nat) (game : Game)
    (hg : findGame s clientId = some (gi, game)) :
    (∀ (now : Int) (rand : Rand), (tick s now rand).1.timers = []) ∧
    (∀ (data : PlayerUpdateData) (out : Outcome),
      handlePlayerUpdate s clientId data = some out → out.timers = []) ∧
    (∀ w : Nat, alivePlayers s.objects game = [w] →
      (handleVerifyGameOver s clientId w).timers = (checkGameOver s game).2 ∧
      ∃ after, (handleVerifyGameOver s clientId w).events = (checkGameOver s game).1 ++ after) ∧
    (∀ (data : BombExplodedData) (now : Int) (rand : Rand) (bombs : List Bomb) (m : TileMap)
        (idx : Nat) (bomb : Bomb),
      game.state.bombs = some bombs → game.state.map = some m → m ≠ [] →
      bombs.findIdx? (fun b => b.id == data.bombId) = some idx → bombs[idx]? = some bomb →
      bomb.ownerId = clientId → bomb.tileX = data.tileX ∧ bomb.tileY = data.tileY →
      ∃ out rand1 game1 before chain,
        handleBombExploded s clientId data now rand = some (out, rand1) ∧
        out.server.games[gi]? = some game1 ∧
        out.events = before ++ (checkGameOver out.server game1).1 ∧
        out.timers = chain ++ (checkGameOver out.server game1).2) ∧
    (∀ (s' : Server) (game' : Game), (alivePlayers s'.objects game').length ≤ 1 →
      checkGameOver s' game' =
        (game'.players.map (fun id => broadcastUpdate s'.clients game' id (s'.objects id) false),
          [Timer.gameOver 250 game'.id (alivePlayers s'.objects game').head?])) := by
  refine ⟨fun _ _ => rfl, fun _ _ h => handlePlayerUpdate_timers h, ?_, ?_, checkGameOver_eq⟩
  · intro w halive
    unfold handleVerifyGameOver
    simp only [hg, halive, List.length_singleton, List.head?_cons, decide_True, Bool.and_self,
      if_true]
    exact ⟨trivial, _, rfl⟩
  · intro data now rand bombs m idx bomb hbombs hmap hrows hidx hbomb howner htile
    obtain ⟨_, hget, _⟩ := findGame_some hg
    obtain ⟨blast, hblast⟩ : ∃ blast, calculateExplosionTiles (recipients s.clients game)
        game.state.map ⟨bomb.tileX, bomb.tileY, bomb.power, bomb.id⟩ rand = some blast := by
      rw [hmap]
      exact raysLoop_returns _ _ directions _ m rfl hrows
    obtain ⟨out, game1, before, hrun, hgames, _, _, _, hevents, htimers⟩ :=
      handleBombExploded_accepted now hg hbombs hidx hbomb howner htile hblast
    refine ⟨out, blast.rand, game1, before, _, hrun, ?_, hevents, htimers⟩
    rw [hgames, List.getElem?_set, if_pos rfl, if_pos (List.getElem?_eq_some.mp hget).1]

theorem checkGameOver_callers_witness :
    (∀ (now : Int) (rand : Rand), (tick overServer now rand).1.timers = []) ∧
    (∀ (data : PlayerUpdateData) (out : Outcome),
      handlePlayerUpdate overServer 1 data = some out → out.timers = []) ∧
    ((handleVerifyGameOver overServer 1 1).timers = (checkGameOver overServer armedGame).2 ∧
      ∃ after, (handleVerifyGameOver overServer 1 1).events =
        (checkGameOver overServer armedGame).1 ++ after) ∧
    (∃ out rand1 game1 before chain,
      handleBombExploded overServer 1 ⟨8, 1, 1, none⟩ 3000 (fun _ => 1 / 2) = some (out, rand1) ∧
      out.server.games[0]? = some game1 ∧
      out.events = before ++ (checkGameOver out.server game1).1 ∧
      out.timers = chain ++ (checkGameOver out.server game1).2) ∧
    checkGameOver overServer armedGame =
      (armedGame.players.map (fun id =>
          broadcastUpdate overServer.clients armedGame id (overServer.objects id) false),
        [Timer.gameOver 250 armedGame.id (alivePlayers overServer.objects armedGame).head?]) :=
  ⟨(checkGameOver_callers overServer 1 0 armedGame (by decide)).1,
    (checkGameOver_callers overServer 1 0 armedGame (by decide)).2.1,
    (checkGameOver_callers overServer 1 0 armedGame (by decide)).2.2.1 1 (by decide),
    (checkGameOver_callers overServer 1 0 armedGame (by decide)).2.2.2.1
      ⟨8, 1, 1, none⟩ 3000 (fun _ => 1 / 2)
      [⟨8, 1, 1, 1, 1, 0, 3000⟩, ⟨7, 2, 1, 1, 2, 0, 3000⟩] demoMap 0 ⟨8, 1, 1, 1, 1, 0, 3000⟩
      rfl rfl (by decide) (by decide) rfl rfl ⟨rfl, rfl⟩,
    (checkGameOver_callers overServer 1 0 armedGame (by decide)).2.2.2.2 overServer armedGame
      (by decide)⟩

/-- C17, as stated, fails.  Player 2 of a started session of two is on the last
life.  A `playerUpdate` of player 2 that lowers the lives to 0 is accepted, and
so is the loss of that life in the damage check of a tick, player 2 standing on
a burning tile: each leaves player 1 as the only one alive and registers no
timer, whereas `checkGameOver` on the world left behind would register the
`gameOver` timer. -/
theorem life_loss_without_checkGameOver :
    (lastLifeServer.objects 2).lives = 1 ∧
    (∃ out,
      handlePlayerUpdate lastLifeServer 2
        ⟨some 3, some 3, some Direction.down, some false, none, some 0, true⟩ = some out ∧
      (out.server.objects 2).lives = 0 ∧ out.server.games = [burningGame] ∧
      alivePlayers out.server.objects burningGame = [1] ∧
      out.timers = [] ∧
      (checkGameOver out.server burningGame).2 = [Timer.gameOver 250 10 (some 1)]) ∧
    (((tick lastLifeServer 5000 (fun _ => 1 / 2)).1.server.objects 2).lives = 0 ∧
      (tick lastLifeServer 5000 (fun _ => 1 / 2)).1.timers = [] ∧
      ∃ game1, (tick lastLifeServer 5000 (fun _ => 1 / 2)).1.server.games = [game1] ∧
        game1.players = [1, 2] ∧
        alivePlayers (tick lastLifeServer 5000 (fun _ => 1 / 2)).1.server.objects game1 = [1] ∧
        (checkGameOver (tick lastLifeServer 5000 (fun _ => 1 / 2)).1.server game1).2 =
          [Timer.gameOver 250 10 (some 1)]) := by
  refine ⟨by decide, ⟨_, rfl, by decide, rfl, by decide, rfl, by decide⟩,
    by decide, rfl, _, rfl, rfl, by decide, by decide⟩

/-! ## Spawn zones -/

theorem tileAt_setTile_same (m : TileMap) {x y : Int} (e : Tile) (hx : 0 ≤ x) (hy : 0 ≤ y)
    (h : tileAt m x y ≠ none) : tileAt (setTile m x y e) x y = some e := by
  rw [tileAt_of_nonneg hx hy] at h ⊢
  unfold setTile
  cases hrow : m[y.toNat]? with
  | none => simp [hrow] at h
  | some row =>
    simp only [hrow, Option.some_bind] at h ⊢
    have hlt := (List.getElem?_eq_some.mp hrow).1
    have hx' : x.toNat < row.length := by
      by_contra hge
      exact h (List.getElem?_eq_none (by omega))
    rw [List.getElem?_set, if_pos rfl, if_pos hlt, Option.some_bind, List.getElem?_set,
      if_pos rfl, if_pos hx']

theorem tileAt_ne_none_of_wallsInPlace {m : TileMap} (h : WallsInPlace m) {x y : Int}
    (hx : 0 ≤ x ∧ x < 15) (hy : 0 ≤ y ∧ y < 13) : tileAt m x y ≠ none := by
  obtain ⟨hlen, hrows, _⟩ := h
  rw [tileAt_of_nonneg hx.1 hy.1]
  have hylt : y.toNat < m.length := by omega
  rw [List.getElem?_eq_getElem hylt, Option.some_bind]
  have hrow := hrows _ (List.getElem_mem hylt)
  rw [List.getElem?_eq_getElem (by omega)]
  exact Option.some_ne_none _

theorem tileAt_clearCell_empty (corner : Int × Int) (m : TileMap) (dy dx : Int) {x y : Int}
    (h : tileAt m x y = some Tile.empty) :
    tileAt (clearCell corner m dy dx) x y = some Tile.empty := by
  unfold clearCell
  dsimp only
  split_ifs with hskip
  · exact h
  · have hx : 0 ≤ corner.1 + dx := by omega
    have hy : 0 ≤ corner.2 + dy := by omega
    by_cases hpos : (x, y) = (corner.1 + dx, corner.2 + dy)
    · rw [(Prod.mk.inj hpos).1, (Prod.mk.inj hpos).2] at h ⊢
      exact tileAt_setTile_same m Tile.empty hx hy (by rw [h]; exact Option.some_ne_none _)
    · rw [tileAt_setTile_ne m Tile.empty hx hy hpos]
      exact h

theorem tileAt_clearCell_target (corner : Int × Int) (m : TileMap) (dy dx : Int)
    (hw : WallsInPlace m)
    (hx : 0 < corner.1 + dx ∧ corner.1 + dx < 14) (hy : 0 < corner.2 + dy ∧ corner.2 + dy < 12)
    (hodd : ¬ ((corner.1 + dx) % 2 = 0 ∧ (corner.2 + dy) % 2 = 0)) :
    tileAt (clearCell corner m dy dx) (corner.1 + dx) (corner.2 + dy) = some Tile.empty := by
  unfold clearCell
  dsimp only
  have hnot : ¬ (corner.1 + dx ≤ 0 ∨ corner.1 + dx ≥ (mapWidth : Int) - 1 ∨ corner.2 + dy ≤ 0 ∨
      corner.2 + dy ≥ (mapHeight : Int) - 1 ∨
      ((corner.1 + dx) % 2 = 0 ∧ (corner.2 + dy) % 2 = 0)) := by
    unfold mapWidth mapHeight
    omega
  rw [if_neg hnot]
  exact tileAt_setTile_same m Tile.empty (by omega) (by omega)
    (tileAt_ne_none_of_wallsInPlace hw (by omega) (by omega))

theorem foldl_clearCell_empty (corner : Int × Int) (dy : Int) :
    ∀ (l : List Int) (m : TileMap) {x y : Int}, tileAt m x y = some Tile.empty →
      tileAt (l.foldl (fun m' dx => clearCell corner m' dy dx) m) x y = some Tile.empty := by
  intro l
  induction l with
  | nil => intro m x y h; exact h
  | cons a rest ih =>
    intro m x y h
    exact ih _ (tileAt_clearCell_empty corner m dy a h)

theorem foldl_clearCell_walls (corner : Int × Int) (dy : Int) :
    ∀ (l : List Int) (m : TileMap), WallsInPlace m →
      WallsInPlace (l.foldl (fun m' dx => clearCell corner m' dy dx) m) := by
  intro l
  induction l with
  | nil => intro m h; exact h
  | cons a rest ih =>
    intro m h
    exact ih _ (wallsInPlace_clearCell corner m dy a h)

theorem foldl_clearCell_target (corner : Int × Int) (dy dx : Int)
    (hx : 0 < corner.1 + dx ∧ corner.1 + dx < 14) (hy : 0 < corner.2 + dy ∧ corner.2 + dy < 12)
    (hodd : ¬ ((corner.1 + dx) % 2 = 0 ∧ (corner.2 + dy) % 2 = 0)) :
    ∀ (l : List Int) (m : TileMap), dx ∈ l → WallsInPlace m →
      tileAt (l.foldl (fun m' dx' => clearCell corner m' dy dx') m) (corner.1 + dx)
        (corner.2 + dy) = some Tile.empty := by
  intro l
  induction l with
  | nil => intro m hmem; simp at hmem
  | cons a rest ih =>
    intro m hmem hw
    rw [List.foldl_cons]
    by_cases ha : dx = a
    · subst ha
      exact foldl_clearCell_empty corner dy rest _
        (tileAt_clearCell_target corner m dy dx hw hx hy hodd)
    · rcases List.mem_cons.mp hmem with h | h
      · exact absurd h ha
      · exact ih _ h (wallsInPlace_clearCell corner m dy a hw)

theorem foldl_rows_empty (corner : Int × Int) (ldx : List Int) :
    ∀ (l : List Int) (m : TileMap) {x y : Int}, tileAt m x y = some Tile.empty →
      tileAt (l.foldl (fun m' dy => ldx.foldl (fun m'' dx => clearCell corner m'' dy dx) m') m)
        x y = some Tile.empty := by
  intro l
  induction l with
  | nil => intro m x y h; exact h
  | cons a rest ih =>
    intro m x y h
    exact ih _ (foldl_clearCell_empty corner a ldx m h)

theorem foldl_rows_target (corner : Int × Int) (ldx : List Int) (dy dx : Int) (hdx : dx ∈ ldx)
    (hx : 0 < corner.1 + dx ∧ corner.1 + dx < 14) (hy : 0 < corner.2 + dy ∧ corner.2 + dy < 12)
    (hodd : ¬ ((corner.1 + dx) % 2 = 0 ∧ (corner.2 + dy) % 2 = 0)) :
    ∀ (l : List Int) (m : TileMap), dy ∈ l → WallsInPlace m →
      tileAt (l.foldl (fun m' dy' => ldx.foldl (fun m'' dx' => clearCell corner m'' dy' dx') m')
        m) (corner.1 + dx) (corner.2 + dy) = some Tile.empty := by
  intro l
  induction l with
  | nil => intro m hmem; simp at hmem
  | cons a rest ih =>
    intro m hmem hw
    rw [List.foldl_cons]
    by_cases ha : dy = a
    · subst ha
      exact foldl_rows_empty corner ldx rest _
        (foldl_clearCell_target corner dy dx hx hy hodd ldx m hdx hw)
    · rcases List.mem_cons.mp hmem with h | h
      · exact absurd h ha
      · exact ih _ h (foldl_clearCell_walls corner a ldx m hw)

theorem tileAt_clearCorner_empty (m : TileMap) (corner : Int × Int) {x y : Int}
    (h : tileAt m x y = some Tile.empty) :
    tileAt (clearCorner m corner) x y = some Tile.empty :=
  foldl_rows_empty corner [-1, 0, 1] [-1, 0, 1] m h

/-- The cell `(x, y)` of the 3 x 3 neighbourhood of a corner is empty after the
clearing of that corner, unless it is a wall cell. -/
theorem tileAt_clearCorner_target (m : TileMap) (corner : Int × Int) (x y : Int)
    (hw : WallsInPlace m) (hdy : y - corner.2 ∈ [(-1 : Int), 0, 1])
    (hdx : x - corner.1 ∈ [(-1 : Int), 0, 1])
    (hx : 0 < x ∧ x < 14) (hy : 0 < y ∧ y < 12) (hodd : ¬ (x % 2 = 0 ∧ y % 2 = 0)) :
    tileAt (clearCorner m corner) x y = some Tile.empty := by
  have hxe : x = corner.1 + (x - corner.1) := by omega
  have hye : y = corner.2 + (y - corner.2) := by omega
  have h := foldl_rows_target corner [-1, 0, 1] (y - corner.2) (x - corner.1) hdx
    (by rw [← hxe]; exact hx) (by rw [← hye]; exact hy) (by rw [← hxe, ← hye]; exact hodd)
    [-1, 0, 1] m hdy hw
  rw [← hxe, ← hye] at h
  exact h

theorem foldl_clearCorner_empty :
    ∀ (cs : List (Int × Int)) (m : TileMap) {x y : Int}, tileAt m x y = some Tile.empty →
      tileAt (cs.foldl clearCorner m) x y = some Tile.empty := by
  intro cs
  induction cs with
  | nil => intro m x y h; exact h
  | cons c rest ih =>
    intro m x y h
    exact ih _ (tileAt_clearCorner_empty m c h)

theorem foldl_clearCorner_target (corner : Int × Int) (x y : Int)
    (hdy : y - corner.2 ∈ [(-1 : Int), 0, 1]) (hdx : x - corner.1 ∈ [(-1 : Int), 0, 1])
    (hx : 0 < x ∧ x < 14) (hy : 0 < y ∧ y < 12) (hodd : ¬ (x % 2 = 0 ∧ y % 2 = 0)) :
    ∀ (cs : List (Int × Int)) (m : TileMap), corner ∈ cs → WallsInPlace m →
      tileAt (cs.foldl clearCorner m) x y = some Tile.empty := by
  intro cs
  induction cs with
  | nil => intro m hmem; simp at hmem
  | cons c rest ih =>
    intro m hmem hw
    rw [List.foldl_cons]
    by_cases hc : corner = c
    · subst hc
      exact foldl_clearCorner_empty rest _
        (tileAt_clearCorner_target m corner x y hw hdy hdx hx hy hodd)
    · rcases List.mem_cons.mp hmem with h | h
      · exact absurd h hc
      · exact ih _ h (wallsInPlace_clearCorner m c hw)

/-- In the map of `generateMap`, a cell of the 3 x 3 neighbourhood of a corner
that is not a wall cell is empty. -/
theorem clearedCell_generateMap (rand : Rand) (corner : Int × Int) (x y : Int)
    (hc : corner ∈ [((1 : Int), (1 : Int)), (13, 1), (1, 11), (13, 11)])
    (hdy : y - corner.2 ∈ [(-1 : Int), 0, 1]) (hdx : x - corner.1 ∈ [(-1 : Int), 0, 1])
    (hx : 0 < x ∧ x < 14) (hy : 0 < y ∧ y < 12) (hodd : ¬ (x % 2 = 0 ∧ y % 2 = 0)) :
    tileAt (generateMap rand).1 x y = some Tile.empty := by
  have hc' : corner ∈ corners := by
    unfold corners mapWidth mapHeight
    norm_num
    simpa using hc
  unfold generateMap
  dsimp only
  exact foldl_clearCorner_target corner x y hdy hdx hx hy hodd corners _ hc'
    (wallsInPlace_mapLoop rand)

/-- In the map of `generateMap`, a wall cell holds a wall. -/
theorem wallCell_generateMap (rand : Rand) (x y : Nat) (hx : x < 15) (hy : y < 13)
    (hwall : IsWallCell x y) : tileAt (generateMap rand).1 x y = some Tile.wall := by
  have hw := wallsInPlace_generateMap rand
  have hne : tileAt (generateMap rand).1 x y ≠ none :=
    tileAt_ne_none_of_wallsInPlace hw (by omega) (by omega)
  cases ht : tileAt (generateMap rand).1 x y with
  | none => exact absurd ht hne
  | some t => rw [(hw.2.2 x y t ht).mpr hwall]

theorem wallCell_generateMap_int (rand : Rand) (x y : Int) (hx : 0 ≤ x ∧ x < 15)
    (hy : 0 ≤ y ∧ y < 13)
    (hwall : x = 0 ∨ x = 14 ∨ y = 0 ∨ y = 12 ∨ (x % 2 = 0 ∧ y % 2 = 0)) :
    tileAt (generateMap rand).1 x y = some Tile.wall := by
  have h := wallCell_generateMap rand x.toNat y.toNat (by omega) (by omega)
    (by unfold IsWallCell; omega)
  rw [Int.toNat_of_nonneg hx.1, Int.toNat_of_nonneg hy.1] at h
  exact h

/-- C21. Whatever the random draws, in the map of `generateMap` every tile of
the 3 x 3 neighbourhood of each corner (1,1), (13,1), (1,11), (13,11) is a wall
or empty; each spawn tile that `startGame` assigns is one of these corners, is
empty, and of its four orthogonal neighbours exactly two are empty, the other
two being walls. -/
theorem generateMap_spawn_zones (rand : Rand) :
    (∀ corner ∈ [((1 : Int), (1 : Int)), (13, 1), (1, 11), (13, 11)],
      ∀ dx ∈ [(-1 : Int), 0, 1], ∀ dy ∈ [(-1 : Int), 0, 1],
        tileAt (generateMap rand).1 (corner.1 + dx) (corner.2 + dy) = some Tile.wall ∨
        tileAt (generateMap rand).1 (corner.1 + dx) (corner.2 + dy) = some Tile.empty) ∧
    (∀ index : Nat,
      spawnPosition index ∈ [((1 : Int), (1 : Int)), (13, 1), (1, 11), (13, 11)] ∧
      tileAt (generateMap rand).1 (spawnPosition index).1 (spawnPosition index).2 =
        some Tile.empty ∧
      ([((1 : Int), (0 : Int)), (-1, 0), (0, 1), (0, -1)].filter (fun d =>
        decide (tileAt (generateMap rand).1 ((spawnPosition index).1 + d.1)
          ((spawnPosition index).2 + d.2) = some Tile.empty))).length = 2 ∧
      ([((1 : Int), (0 : Int)), (-1, 0), (0, 1), (0, -1)].filter (fun d =>
        decide (tileAt (generateMap rand).1 ((spawnPosition index).1 + d.1)
          ((spawnPosition index).2 + d.2) = some Tile.wall))).length = 2) := by
  have hzone : ∀ corner ∈ [((1 : Int), (1 : Int)), (13, 1), (1, 11), (13, 11)],
      ∀ dx ∈ [(-1 : Int), 0, 1], ∀ dy ∈ [(-1 : Int), 0, 1],
        tileAt (generateMap rand).1 (corner.1 + dx) (corner.2 + dy) =
          if corner.1 + dx = 0 ∨ corner.1 + dx = 14 ∨ corner.2 + dy = 0 ∨ corner.2 + dy = 12 ∨
            ((corner.1 + dx) % 2 = 0 ∧ (corner.2 + dy) % 2 = 0) then some Tile.wall
          else some Tile.empty := by
    intro corner hc dx hdx dy hdy
    have hcx : corner.1 = 1 ∨ corner.1 = 13 := by
      simp only [List.mem_cons, List.mem_singleton, List.not_mem_nil, or_false] at hc
      rcases hc with rfl | rfl | rfl | rfl <;> simp
    have hcy : corner.2 = 1 ∨ corner.2 = 11 := by
      simp only [List.mem_cons, List.mem_singleton, List.not_mem_nil, or_false] at hc
      rcases hc with rfl | rfl | rfl | rfl <;> simp
    have hdx' : dx = -1 ∨ dx = 0 ∨ dx = 1 := by simpa using hdx
    have hdy' : dy = -1 ∨ dy = 0 ∨ dy = 1 := by simpa using hdy
    by_cases hwall : corner.1 + dx = 0 ∨ corner.1 + dx = 14 ∨ corner.2 + dy = 0 ∨
        corner.2 + dy = 12 ∨ ((corner.1 + dx) % 2 = 0 ∧ (corner.2 + dy) % 2 = 0)
    · rw [if_pos hwall]
      exact wallCell_generateMap_int rand _ _ (by omega) (by omega) hwall
    · rw [if_neg hwall]
      refine clearedCell_generateMap rand corner _ _ hc ?_ ?_ (by omega) (by omega) (by omega)
      · rw [show corner.2 + dy - corner.2 = dy by omega]
        exact hdy
      · rw [show corner.1 + dx - corner.1 = dx by omega]
        exact hdx
  generalize (generateMap rand).1 = m at hzone ⊢
  refine ⟨fun corner hc dx hdx dy hdy => ?_, fun index => ?_⟩
  · rw [hzone corner hc dx hdx dy hdy]
    split
    · exact Or.inl rfl
    · exact Or.inr rfl
  · have hmem : spawnPosition index ∈ [((1 : Int), (1 : Int)), (13, 1), (1, 11), (13, 11)] := by
      unfold spawnPosition
      split <;> simp
    refine ⟨hmem, ?_⟩
    have hcentre := hzone _ hmem 0 (by simp) 0 (by simp)
    have hright := hzone _ hmem 1 (by simp) 0 (by simp)
    have hleft := hzone _ hmem (-1) (by simp) 0 (by simp)
    have hdown := hzone _ hmem 0 (by simp) 1 (by simp)
    have hup := hzone _ hmem 0 (by simp) (-1) (by simp)
    clear hzone
    generalize spawnPosition index = sp at hmem hcentre hright hleft hdown hup ⊢
    simp only [List.mem_cons, List.mem_singleton, List.not_mem_nil, or_false] at hmem
    rcases hmem with rfl | rfl | rfl | rfl <;>
      simp at hcentre hright hleft hdown hup <;>
      simp [List.filter_cons, hcentre, hright, hleft, hdown, hup]

/-! ## Blast tile tags -/

/-- C22, the code at two failing inputs on `demoMap`.  A bomb of power 3 on
(1,1): the ray to the right stops on the block tile (3,1) at distance 2, and
that tile, the last of its ray, is sent as 'extension'.  A bomb of power 3 on
(1,3): the ray to the right is cut by the wall (4,3), and its last tile (3,3) is
sent as 'extension'.  In both blasts no tile is sent as 'end'. -/
theorem explosionCreated_last_tile_extension :
    tileAt demoMap 3 1 = some Tile.block ∧
    (calculateExplosionTiles [1, 2] (some demoMap) ⟨1, 1, 3, 8⟩ (fun _ => 1 / 2)).map
        (fun blast => blast.tiles.map (explosionEvent [1, 2] ⟨8, 1, 1, 3, 1, 0, 3000⟩)) =
      some [Event.explosionCreated [1, 2] 1 1 BlastType.center none 8,
        Event.explosionCreated [1, 2] 2 1 BlastType.extension (some Direction.right) 8,
        Event.explosionCreated [1, 2] 3 1 BlastType.extension (some Direction.right) 8] ∧
    tileAt demoMap 4 3 = some Tile.wall ∧
    (calculateExplosionTiles [1, 2] (some demoMap) ⟨1, 3, 3, 8⟩ (fun _ => 1 / 2)).map
        (fun blast => blast.tiles.map (explosionEvent [1, 2] ⟨8, 1, 3, 3, 1, 0, 3000⟩)) =
      some [Event.explosionCreated [1, 2] 1 3 BlastType.center none 8,
        Event.explosionCreated [1, 2] 2 3 BlastType.extension (some Direction.right) 8,
        Event.explosionCreated [1, 2] 3 3 BlastType.extension (some Direction.right) 8] := by
  refine ⟨by decide, by decide, by decide, by decide⟩

/-! ## The blast and the map -/

/-- One ray and the map: the loop appends tiles off the bomb tile, keeps the
shape of the map, and its map is the old one with `empty` written on the
appended tiles that held a block. -/
theorem rayLoop_frame (dest : List Nat) (bomb : BlastSource) (dir : Direction) :
    ∀ (n i : Nat) (st st' : Blast) (m' : TileMap), 1 ≤ i → st.map = some m' →
      rayLoop dest bomb dir n i st = some st' →
      ∃ added m'', st'.tiles = st.tiles ++ added ∧ st'.map = some m'' ∧
        m''.map List.length = m'.map List.length ∧
        (∀ t ∈ added, (t.x, t.y) ≠ (bomb.tileX, bomb.tileY)) ∧
        ∀ p q, tileAt m'' p q =
          if tileAt m' p q = some Tile.block ∧ ∃ t ∈ added, t.x = p ∧ t.y = q
          then some Tile.empty else tileAt m' p q := by
  intro n
  induction n with
  | zero =>
    intro i st st' m' _ hmap hrun
    simp only [rayLoop, Option.some.injEq] at hrun
    subst hrun
    exact ⟨[], m', by simp, hmap, rfl, by simp, by simp⟩
  | succ n ih =>
    intro i st st' m' hi hmap hrun
    have hoff : (bomb.tileX + dir.dx * (i : Int), bomb.tileY + dir.dy * (i : Int)) ≠
        (bomb.tileX, bomb.tileY) := by
      intro h
      have h1 := (Prod.mk.inj h).1
      have h2 := (Prod.mk.inj h).2
      cases dir <;> simp [Direction.dx, Direction.dy] at h1 h2 <;> omega
    simp only [rayLoop, hmap] at hrun
    cases hhead : m'.head? with
    | none => simp [hhead] at hrun
    | some row0 =>
      simp only [hhead] at hrun
      split at hrun
      · simp only [Option.some.injEq] at hrun
        subst hrun
        exact ⟨[], m', by simp, hmap, rfl, by simp, by simp⟩
      · rename_i hin
        split at hrun
        · simp only [Option.some.injEq] at hrun
          subst hrun
          exact ⟨[], m', by simp, hmap, rfl, by simp, by simp⟩
        · rename_i hwall
          split at hrun
          · rename_i hblock
            simp only [Option.some.injEq] at hrun
            subst hrun
            have hx : 0 ≤ bomb.tileX + dir.dx * (i : Int) := by omega
            have hy : 0 ≤ bomb.tileY + dir.dy * (i : Int) := by omega
            refine ⟨[⟨bomb.tileX + dir.dx * (i : Int), bomb.tileY + dir.dy * (i : Int),
              some dir, decide (i = bomb.power)⟩], _, rfl, rfl, setTile_map_length _ _ _ _, ?_, ?_⟩
            · intro t ht
              simp only [List.mem_singleton] at ht
              subst ht
              exact hoff
            · intro p q
              by_cases hpq : (p, q) = (bomb.tileX + dir.dx * (i : Int),
                  bomb.tileY + dir.dy * (i : Int))
              · have hp := (Prod.mk.inj hpq).1
                have hq := (Prod.mk.inj hpq).2
                subst hp hq
                rw [tileAt_setTile_same m' Tile.empty hx hy (by rw [hblock]; simp), if_pos]
                exact ⟨hblock, _, List.mem_singleton_self _, rfl, rfl⟩
              · rw [tileAt_setTile_ne m' Tile.empty hx hy hpq, if_neg]
                rintro ⟨_, t, ht, htx, hty⟩
                simp only [List.mem_singleton] at ht
                subst ht
                exact hpq (by rw [← htx, ← hty])
          · rename_i hblock
            obtain ⟨added, m'', htiles, hmap'', hshape, hoffs, hframe⟩ :=
              ih (i + 1) _ st' m' (by omega) rfl hrun
            refine ⟨⟨bomb.tileX + dir.dx * (i : Int), bomb.tileY + dir.dy * (i : Int),
              some dir, decide (i = bomb.power)⟩ :: added, m'', ?_, hmap'', hshape, ?_, ?_⟩
            · rw [htiles]
              simp
            · intro t ht
              rcases List.mem_cons.mp ht with h | h
              · subst h
                exact hoff
              · exact hoffs t h
            · intro p q
              rw [hframe p q]
              by_cases hb : tileAt m' p q = some Tile.block
              · have hne : ¬ (bomb.tileX + dir.dx * (i : Int) = p ∧
                    bomb.tileY + dir.dy * (i : Int) = q) := by
                  rintro ⟨h1, h2⟩
                  rw [h1, h2] at hblock
                  exact hblock hb
                simp only [hb, true_and, List.mem_cons, exists_eq_or_imp, hne, false_or]
              · simp only [hb, false_and, if_false]

/-- The rays of a list of directions and the map: as for one ray. -/
theorem raysLoop_frame (dest : List Nat) (bomb : BlastSource) :
    ∀ (dirs : List Direction) (st st' : Blast) (m' : TileMap), st.map = some m' →
      raysLoop dest bomb dirs st = some st' →
      ∃ added m'', st'.tiles = st.tiles ++ added ∧ st'.map = some m'' ∧
        m''.map List.length = m'.map List.length ∧
        (∀ t ∈ added, (t.x, t.y) ≠ (bomb.tileX, bomb.tileY)) ∧
        ∀ p q, tileAt m'' p q =
          if tileAt m' p q = some Tile.block ∧ ∃ t ∈ added, t.x = p ∧ t.y = q
          then some Tile.empty else tileAt m' p q := by
  intro dirs
  induction dirs with
  | nil =>
    intro st st' m' hmap hrun
    simp only [raysLoop, Option.some.injEq] at hrun
    subst hrun
    exact ⟨[], m', by simp, hmap, rfl, by simp, by simp⟩
  | cons d rest ih =>
    intro st st' m' hmap hrun
    simp only [raysLoop] at hrun
    cases hray : rayLoop dest bomb d bomb.power 1 st with
    | none => simp [hray] at hrun
    | some st1 =>
      simp only [hray] at hrun
      obtain ⟨added1, m1, htiles1, hmap1, hshape1, hoff1, hframe1⟩ :=
        rayLoop_frame dest bomb d bomb.power 1 st st1 m' (le_refl 1) hmap hray
      obtain ⟨added2, m2, htiles2, hmap2, hshape2, hoff2, hframe2⟩ := ih st1 st' m1 hmap1 hrun
      refine ⟨added1 ++ added2, m2, ?_, hmap2, by rw [hshape2, hshape1], ?_, ?_⟩
      · rw [htiles2, htiles1, List.append_assoc]
      · intro t ht
        rcases List.mem_append.mp ht with h | h
        · exact hoff1 t h
        · exact hoff2 t h
      · intro p q
        by_cases hb : tileAt m' p q = some Tile.block
        · by_cases h1 : ∃ t ∈ added1, t.x = p ∧ t.y = q
          · have h12 : ∃ t ∈ added1 ++ added2, t.x = p ∧ t.y = q := by
              obtain ⟨t, ht, hxy⟩ := h1
              exact ⟨t, List.mem_append_left _ ht, hxy⟩
            have hm1 : tileAt m1 p q = some Tile.empty := by
              rw [hframe1 p q, if_pos ⟨hb, h1⟩]
            have hm2 : tileAt m2 p q = some Tile.empty := by
              rw [hframe2 p q, hm1]
              split <;> rfl
            rw [hm2, if_pos ⟨hb, h12⟩]
          · have hm1 : tileAt m1 p q = tileAt m' p q := by
              rw [hframe1 p q, if_neg (fun h => h1 h.2)]
            by_cases h2 : ∃ t ∈ added2, t.x = p ∧ t.y = q
            · have h12 : ∃ t ∈ added1 ++ added2, t.x = p ∧ t.y = q := by
                obtain ⟨t, ht, hxy⟩ := h2
                exact ⟨t, List.mem_append_right _ ht, hxy⟩
              have hm2 : tileAt m2 p q = some Tile.empty := by
                rw [hframe2 p q, hm1, if_pos ⟨hb, h2⟩]
              rw [hm2, if_pos ⟨hb, h12⟩]
            · have h12 : ¬ ∃ t ∈ added1 ++ added2, t.x = p ∧ t.y = q := by
                rintro ⟨t, ht, hxy⟩
                rcases List.mem_append.mp ht with h | h
                · exact h1 ⟨t, h, hxy⟩
                · exact h2 ⟨t, h, hxy⟩
              have hm2 : tileAt m2 p q = tileAt m' p q := by
                rw [hframe2 p q, hm1, if_neg (fun h => h2 h.2)]
              rw [hm2, if_neg (fun h => h12 h.2)]
        · have hm1 : tileAt m1 p q = tileAt m' p q := by
            rw [hframe1 p q, if_neg (fun h => hb h.1)]
          have hm2 : tileAt m2 p q = tileAt m' p q := by
            rw [hframe2 p q, hm1, if_neg (fun h => hb h.1)]
          rw [hm2, if_neg (fun h => hb h.1)]

/-- C23 (amended). On a map with at least one row `calculateExplosionTiles`
returns, and it changes the map only at the tiles of the returned blast set,
other than the bomb's own tile, that held a block: each of them becomes empty.
Every wall tile, every empty tile, the bomb's own tile and every tile outside
the blast set keep their type, and the number of rows and the length of each
row are unchanged. -/
theorem calculateExplosionTiles_frame (dest : List Nat) (m : TileMap) (bomb : BlastSource)
    (rand : Rand) (hrows : m ≠ []) :
    ∃ blast m', calculateExplosionTiles dest (some m) bomb rand = some blast ∧
      blast.map = some m' ∧ m'.map List.length = m.map List.length ∧
      ∀ p q : Int,
        (tileAt m' p q ≠ tileAt m p q →
          tileAt m p q = some Tile.block ∧ tileAt m' p q = some Tile.empty ∧
          (p, q) ≠ (bomb.tileX, bomb.tileY) ∧ ∃ t ∈ blast.tiles, t.x = p ∧ t.y = q) ∧
        ((p, q) ≠ (bomb.tileX, bomb.tileY) → (∃ t ∈ blast.tiles, t.x = p ∧ t.y = q) →
          tileAt m p q = some Tile.block → tileAt m' p q = some Tile.empty) ∧
        (tileAt m p q = some Tile.wall → tileAt m' p q = some Tile.wall) ∧
        (tileAt m p q = some Tile.empty → tileAt m' p q = some Tile.empty) ∧
        ((p, q) = (bomb.tileX, bomb.tileY) → tileAt m' p q = tileAt m p q) ∧
        ((∀ t ∈ blast.tiles, ¬ (t.x = p ∧ t.y = q)) → tileAt m' p q = tileAt m p q) := by
  obtain ⟨blast, hrun⟩ := raysLoop_returns dest bomb directions
    { tiles := [⟨bomb.tileX, bomb.tileY, none, false⟩], map := some m, events := [],
      rand := rand } m rfl hrows
  obtain ⟨added, m', htiles, hmap, hshape, hoff, hframe⟩ :=
    raysLoop_frame dest bomb directions _ blast m rfl hrun
  refine ⟨blast, m', hrun, hmap, hshape, ?_⟩
  intro p q
  have hmem : ∀ t, t ∈ added → t ∈ blast.tiles := by
    intro t ht
    rw [htiles]
    exact List.mem_append_right _ ht
  have hback : (p, q) ≠ (bomb.tileX, bomb.tileY) → (∃ t ∈ blast.tiles, t.x = p ∧ t.y = q) →
      ∃ t ∈ added, t.x = p ∧ t.y = q := by
    rintro hne ⟨t, ht, hx, hy⟩
    rw [htiles] at ht
    rcases List.mem_append.mp ht with h | h
    · simp only [List.mem_singleton] at h
      subst h
      exact absurd (by rw [← hx, ← hy]) hne
    · exact ⟨t, h, hx, hy⟩
  have hoff' : (∃ t ∈ added, t.x = p ∧ t.y = q) → (p, q) ≠ (bomb.tileX, bomb.tileY) := by
    rintro ⟨t, ht, hx, hy⟩
    rw [← hx, ← hy]
    exact hoff t ht
  rw [hframe p q]
  refine ⟨?_, ?_, ?_, ?_, ?_, ?_⟩
  · intro hne
    by_cases hc : tileAt m p q = some Tile.block ∧ ∃ t ∈ added, t.x = p ∧ t.y = q
    · rw [if_pos hc]
      obtain ⟨hb, t, ht, hxy⟩ := hc
      exact ⟨hb, rfl, hoff' ⟨t, ht, hxy⟩, t, hmem t ht, hxy⟩
    · rw [if_neg hc] at hne
      exact absurd rfl hne
  · intro hne hin hb
    rw [if_pos ⟨hb, hback hne hin⟩]
  · intro hw
    rw [if_neg, hw]
    rw [hw]
    rintro ⟨h, _⟩
    exact absurd h (by simp)
  · intro he
    rw [if_neg, he]
    rw [he]
    rintro ⟨h, _⟩
    exact absurd h (by simp)
  · intro hc
    rw [if_neg]
    rintro ⟨_, h⟩
    exact hoff' h hc
  · intro hout
    rw [if_neg]
    rintro ⟨_, t, ht, hxy⟩
    exact hout t (hmem t ht) hxy

theorem calculateExplosionTiles_frame_witness :
    ∃ blast m', calculateExplosionTiles [1, 2] (some demoMap) ⟨1, 1, 3, 8⟩ (fun _ => 1 / 2) =
        some blast ∧
      blast.map = some m' ∧ m'.map List.length = demoMap.map List.length ∧
      ∀ p q : Int,
        (tileAt m' p q ≠ tileAt demoMap p q →
          tileAt demoMap p q = some Tile.block ∧ tileAt m' p q = some Tile.empty ∧
          (p, q) ≠ ((1 : Int), (1 : Int)) ∧ ∃ t ∈ blast.tiles, t.x = p ∧ t.y = q) ∧
        ((p, q) ≠ ((1 : Int), (1 : Int)) → (∃ t ∈ blast.tiles, t.x = p ∧ t.y = q) →
          tileAt demoMap p q = some Tile.block → tileAt m' p q = some Tile.empty) ∧
        (tileAt demoMap p q = some Tile.wall → tileAt m' p q = some Tile.wall) ∧
        (tileAt demoMap p q = some Tile.empty → tileAt m' p q = some Tile.empty) ∧
        ((p, q) = ((1 : Int), (1 : Int)) → tileAt m' p q = tileAt demoMap p q) ∧
        ((∀ t ∈ blast.tiles, ¬ (t.x = p ∧ t.y = q)) → tileAt m' p q = tileAt demoMap p q) :=
  calculateExplosionTiles_frame [1, 2] demoMap ⟨1, 1, 3, 8⟩ (fun _ => 1 / 2) (by decide)

/-- C23, as stated, fails.  `handleBombPlaced` accepts a bomb on the block tile
(3,1) of `demoMap`.  The blast of that bomb holds its own tile (3,1), which was
a block, and the map after the blast still has the block there. -/
theorem calculateExplosionTiles_bomb_on_block :
    tileAt demoMap 3 1 = some Tile.block ∧
    (∃ out, handleBombPlaced demoServer 1 ⟨8, 3, 1⟩ 0 = some out ∧
      out.server.games.map (fun g => g.state.bombs) = [some [⟨8, 3, 1, 1, 1, 0, 3000⟩]]) ∧
    (calculateExplosionTiles [1, 2] (some demoMap) ⟨3, 1, 1, 8⟩ (fun _ => 1 / 2)).map
        (fun blast => blast.tiles.map BlastTile.coords) = some [(3, 1), (2, 1), (3, 2)] ∧
    (calculateExplosionTiles [1, 2] (some demoMap) ⟨3, 1, 1, 8⟩ (fun _ => 1 / 2)).bind
        (fun blast => blast.map.bind (fun m' => tileAt m' 3 1)) = some Tile.block := by
  refine ⟨by decide, ⟨_, rfl, by decide⟩, by decide, by decide⟩

/-! ## Detonation and placement checks -/

/-- The world left by an accepted detonation: the bomb found is removed from the
list, the blast is stored, and the count of active bombs of the sender drops by
one.  Neither the time of the message nor the time the bomb was planted is
looked at. -/
theorem handleBombExploded_accepted_server {s : Server} {clientId gi : Nat} {game : Game}
    {bombs : List Bomb} {idx : Nat} {bomb : Bomb} {data : BombExplodedData} {rand : Rand}
    {blast : Blast} (now : Int)
    (hg : findGame s clientId = some (gi, game))
    (hbombs : game.state.bombs = some bombs)
    (hidx : bombs.findIdx? (fun b => b.id == data.bombId) = some idx)
    (hbomb : bombs[idx]? = some bomb)
    (howner : bomb.ownerId = clientId)
    (htile : bomb.tileX = data.tileX ∧ bomb.tileY = data.tileY)
    (hblast : calculateExplosionTiles (recipients s.clients game) game.state.map
      ⟨bomb.tileX, bomb.tileY, bomb.power, bomb.id⟩ rand = some blast) :
    ∃ out, handleBombExploded s clientId data now rand = some (out, blast.rand) ∧
      out.server =
        { setGame s gi
            { game with
              state := { map := blast.map, bombs := some (bombs.eraseIdx idx) }
              activeExplosions := some ((match game.activeExplosions with
                | none => []
                | some l => l) ++
                blast.tiles.map (fun tile => ⟨bomb.id, tile.x, tile.y, now + 800⟩)) } with
          objects := setObject s.objects clientId
            { s.objects clientId with activeBombs := (s.objects clientId).activeBombs - 1 } } := by
  obtain ⟨_, _, hmem⟩ := findGame_some hg
  unfold handleBombExploded
  simp only [hg, hbombs, hidx, hbomb, howner, htile.1, htile.2, ne_eq, not_true_eq_false,
    if_false, or_self]
  rw [← htile.1, ← htile.2, hblast]
  simp only [hmem, if_true]
  exact ⟨_, rfl, rfl⟩

/-- The world left by an accepted placement: the bomb of the message is appended
with the tile that the message names, and the count of active bombs of the
sender grows by one.  The map is not looked at. -/
theorem handleBombPlaced_accepted_server {s : Server} {clientId gi : Nat} {game : Game}
    {bombs : List Bomb} (data : BombPlacedData) (now : Int)
    (hg : findGame s clientId = some (gi, game))
    (hbombs : game.state.bombs = some bombs)
    (hfree : (s.objects clientId).activeBombs < (s.objects clientId).bombCount) :
    handleBombPlaced s clientId data now =
      some ⟨{ setGame s gi
          { game with
            state := { game.state with bombs := some (bombs ++
              [⟨data.bombId, data.tileX, data.tileY, (s.objects clientId).bombPower, clientId,
                now, 3000⟩]) } } with
        objects := setObject s.objects clientId
          { s.objects clientId with activeBombs := (s.objects clientId).activeBombs + 1 } },
        [Event.bombPlaced (recipients s.clients game) data.bombId data.tileX data.tileY
          clientId], []⟩ := by
  obtain ⟨_, _, hmem⟩ := findGame_some hg
  unfold handleBombPlaced
  simp only [hg, hmem, hbombs]
  rw [if_neg (by
    rintro (h | h)
    · simp at h
    · omega)]
  rfl

/-- C24 (amended). A detonate intent is validated against ownership and tile
only, not against the fuse: for every live bomb of a session with a map, a
`bombExploded` message from its owner with the matching tile is accepted at any
time `now`, whatever the `planted` timestamp and the `timer` of the bomb, and
the bomb leaves the live-bomb list. -/
theorem handleBombExploded_any_time (s : Server) (clientId gi : Nat) (game : Game)
    (bombs : List Bomb) (m : TileMap) (idx : Nat) (bomb : Bomb) (data : BombExplodedData)
    (now : Int) (rand : Rand)
    (hg : findGame s clientId = some (gi, game))
    (hbombs : game.state.bombs = some bombs)
    (hmap : game.state.map = some m) (hrows : m ≠ [])
    (hidx : bombs.findIdx? (fun b => b.id == data.bombId) = some idx)
    (hbomb : bombs[idx]? = some bomb)
    (howner : bomb.ownerId = clientId)
    (htile : bomb.tileX = data.tileX ∧ bomb.tileY = data.tileY) :
    ∃ out rand1 game1, handleBombExploded s clientId data now rand = some (out, rand1) ∧
      out.server.games[gi]? = some game1 ∧
      game1.state.bombs = some (bombs.eraseIdx idx) ∧
      (out.server.objects clientId).activeBombs = (s.objects clientId).activeBombs - 1 := by
  obtain ⟨_, hget, _⟩ := findGame_some hg
  obtain ⟨blast, hblast⟩ : ∃ blast, calculateExplosionTiles (recipients s.clients game)
      game.state.map ⟨bomb.tileX, bomb.tileY, bomb.power, bomb.id⟩ rand = some blast := by
    rw [hmap]
    exact raysLoop_returns _ _ directions _ m rfl hrows
  obtain ⟨out, hrun, hserver⟩ :=
    handleBombExploded_accepted_server now hg hbombs hidx hbomb howner htile hblast
  refine ⟨out, blast.rand,
    { game with
      state := { map := blast.map, bombs := some (bombs.eraseIdx idx) }
      activeExplosions := some ((match game.activeExplosions with
        | none => []
        | some l => l) ++
        blast.tiles.map (fun tile => ⟨bomb.id, tile.x, tile.y, now + 800⟩)) },
    hrun, ?_, rfl, ?_⟩
  · rw [hserver]
    exact getElem?_setGame _ hget
  · rw [hserver]
    simp [setObject]

theorem handleBombExploded_any_time_witness :
    ∃ out rand1 game1,
      handleBombExploded armedServer 1 ⟨8, 1, 1, none⟩ 1 (fun _ => 1 / 2) = some (out, rand1) ∧
      out.server.games[0]? = some game1 ∧
      game1.state.bombs =
        some (([⟨8, 1, 1, 1, 1, 0, 3000⟩, ⟨7, 2, 1, 1, 2, 0, 3000⟩] : List Bomb).eraseIdx 0) ∧
      (out.server.objects 1).activeBombs = (armedServer.objects 1).activeBombs - 1 :=
  handleBombExploded_any_time armedServer 1 0 armedGame
    [⟨8, 1, 1, 1, 1, 0, 3000⟩, ⟨7, 2, 1, 1, 2, 0, 3000⟩] demoMap 0 ⟨8, 1, 1, 1, 1, 0, 3000⟩
    ⟨8, 1, 1, none⟩ 1 (fun _ => 1 / 2)
    (by decide) rfl rfl (by decide) (by decide) rfl rfl ⟨rfl, rfl⟩

/-- C24, as stated, fails.  Bomb 8 of player 1 was planted at time 0 with a
timer of 3000 ms.  The `bombExploded` message of player 1 for it, with the
matching tile, arrives at time 1: it is accepted and the bomb has left the
live-bomb list. -/
theorem handleBombExploded_before_fuse :
    armedGame.state.bombs = some [⟨8, 1, 1, 1, 1, 0, 3000⟩, ⟨7, 2, 1, 1, 2, 0, 3000⟩] ∧
    (1 : Int) - 0 < 3000 ∧
    (handleBombExploded armedServer 1 ⟨8, 1, 1, none⟩ 1 (fun _ => 1 / 2)).map
        (fun r => r.1.server.games.map (fun g => g.state.bombs)) =
      some [some [⟨7, 2, 1, 1, 2, 0, 3000⟩]] := by
  refine ⟨rfl, by decide, by decide⟩

/-- C25 (amended). `handleBombPlaced` does not look at the map: a `bombPlaced`
message of a player below the bomb cap, in a session that has its bomb list, is
accepted whatever tile it names, and the bomb is appended with that tile. -/
theorem handleBombPlaced_any_tile (s : Server) (clientId gi : Nat) (game : Game)
    (bombs : List Bomb) (data : BombPlacedData) (now : Int)
    (hg : findGame s clientId = some (gi, game))
    (hbombs : game.state.bombs = some bombs)
    (hfree : (s.objects clientId).activeBombs < (s.objects clientId).bombCount) :
    ∃ out game1, handleBombPlaced s clientId data now = some out ∧
      out.events = [Event.bombPlaced (recipients s.clients game) data.bombId data.tileX
        data.tileY clientId] ∧
      out.server.games[gi]? = some game1 ∧
      game1.state.map = game.state.map ∧
      game1.state.bombs = some (bombs ++
        [⟨data.bombId, data.tileX, data.tileY, (s.objects clientId).bombPower, clientId,
          now, 3000⟩]) := by
  obtain ⟨_, hget, _⟩ := findGame_some hg
  refine ⟨_,
    { game with
      state := { game.state with bombs := some (bombs ++
        [⟨data.bombId, data.tileX, data.tileY, (s.objects clientId).bombPower, clientId,
          now, 3000⟩]) } },
    handleBombPlaced_accepted_server data now hg hbombs hfree, rfl, ?_, rfl, rfl⟩
  exact getElem?_setGame _ hget

theorem handleBombPlaced_any_tile_witness :
    ∃ out game1, handleBombPlaced demoServer 1 ⟨8, 0, 0⟩ 100 = some out ∧
      out.events = [Event.bombPlaced (recipients demoServer.clients demoGame) 8 0 0 1] ∧
      out.server.games[0]? = some game1 ∧
      game1.state.map = demoGame.state.map ∧
      game1.state.bombs = some ([] ++
        [⟨8, 0, 0, (demoServer.objects 1).bombPower, 1, 100, 3000⟩]) :=
  handleBombPlaced_any_tile demoServer 1 0 demoGame [] ⟨8, 0, 0⟩ 100 (by decide) rfl (by decide)

/-- C25, as stated, fails.  Player 1 of `demoServer` holds no bomb and may
hold one.  The `bombPlaced` messages naming the wall tile (0,0), the block tile
(3,1) and the tile (99,99) outside the grid are each accepted: the bomb is in
the live-bomb list with that tile. -/
theorem handleBombPlaced_on_wall :
    tileAt demoMap 0 0 = some Tile.wall ∧ tileAt demoMap 3 1 = some Tile.block ∧
    tileAt demoMap 99 99 = none ∧
    (handleBombPlaced demoServer 1 ⟨8, 0, 0⟩ 100).map
        (fun out => out.server.games.map (fun g => g.state.bombs)) =
      some [some [⟨8, 0, 0, 1, 1, 100, 3000⟩]] ∧
    (handleBombPlaced demoServer 1 ⟨8, 3, 1⟩ 100).map
        (fun out => out.server.games.map (fun g => g.state.bombs)) =
      some [some [⟨8, 3, 1, 1, 1, 100, 3000⟩]] ∧
    (handleBombPlaced demoServer 1 ⟨8, 99, 99⟩ 100).map
        (fun out => out.server.games.map (fun g => g.state.bombs)) =
      some [some [⟨8, 99, 99, 1, 1, 100, 3000⟩]] := by
  refine ⟨by decide, by decide, by decide, by decide, by decide, by decide⟩

/-! ## Joining twice, client speed, and messages before the start -/

theorem reachable_step {s s' : Server} (h : Reachable s) (hstep : Step s s') : Reachable s' := by
  obtain ⟨objects, hreach⟩ := h
  exact ⟨objects, Relation.ReflTransGen.tail hreach hstep⟩

theorem reachable_connectedOnce : Reachable connectedOnce :=
  reachable_step ⟨demoObjects, Relation.ReflTransGen.refl⟩
    (Step.connect ⟨demoObjects, [], []⟩ 1 (by decide) (by decide))

theorem reachable_joinedOnce : Reachable joinedOnce :=
  reachable_step reachable_connectedOnce (Step.joinGame connectedOnce 1 "ann" 10 0 (by decide))

theorem reachable_joinedTwice : Reachable joinedTwice :=
  reachable_step reachable_joinedOnce (Step.joinGame joinedOnce 1 "ann" 11 0 (by decide))

theorem reachable_recruiting : Reachable recruiting :=
  reachable_step
    (reachable_step
      (reachable_step reachable_connectedOnce
        (Step.connect connectedOnce 2 (by decide) (by decide)))
      (Step.joinGame (connect connectedOnce 2).server 1 "ann" 10 0 (by decide)))
    (Step.joinGame (handleJoinGame (connect connectedOnce 2).server 1 "ann" 10 0).server 2 "bob"
      11 0 (by decide))

/-- C26, the code at the failing input.  Client 1 connects to the empty
server and sends `joinGame` twice: in the world reached, the recruiting session
lists the id 1 twice. -/
theorem joinGame_twice_listed_twice :
    Reachable joinedTwice ∧
    joinedTwice.games.map (fun g => (g.started, g.players)) = [(false, [1, 1])] ∧
    ∃ g ∈ joinedTwice.games, ¬ g.players.Nodup := by
  refine ⟨reachable_joinedTwice, by decide, ?_⟩
  refine ⟨_, List.mem_singleton.mpr rfl, ?_⟩
  decide

/-- C29, the code at the failing input.  Clients 1 and 2 connect and join: the
session is recruiting, with no map and no bomb list.  A `bombPlaced` message of
player 2 (no bomb placed, one allowed) and a `bombExploded` message of either
player raise: the handlers read `game.state.bombs`, which is undefined. -/
theorem bomb_message_before_start_raises :
    Reachable recruiting ∧
    recruiting.games.map (fun g => (g.started, g.players, g.state.map, g.state.bombs)) =
      [(false, [1, 2], none, none)] ∧
    (recruiting.objects 2).activeBombs = 0 ∧ (recruiting.objects 2).bombCount = 1 ∧
    handleBombPlaced recruiting 2 ⟨8, 1, 1⟩ 100 = none ∧
    handleBombExploded recruiting 1 ⟨8, 1, 1, none⟩ 100 (fun _ => 1 / 2) = none ∧
    handleBombExploded recruiting 2 ⟨8, 1, 1, none⟩ 100 (fun _ => 1 / 2) = none := by
  refine ⟨reachable_recruiting, rfl, by decide, by decide, rfl, rfl, rfl⟩

/-- What `handlePlayerUpdate` writes: at most the object of the sender, and of
it neither `bombCount` nor `bombPower` nor `activeBombs`; `speed` is either kept
or taken from the message. -/
theorem handlePlayerUpdate_objects {s : Server} {clientId : Nat} {data : PlayerUpdateData}
    {out : Outcome} (h : handlePlayerUpdate s clientId data = some out) :
    ∃ p : Player, (out.server.objects = s.objects ∨
        out.server.objects = setObject s.objects clientId p) ∧
      p.bombCount = (s.objects clientId).bombCount ∧
      p.bombPower = (s.objects clientId).bombPower ∧
      p.activeBombs = (s.objects clientId).activeBombs ∧
      (p.speed = (s.objects clientId).speed ∨ data.speed = some p.speed) ∧
      (data.speed = none → p.speed = (s.objects clientId).speed) := by
  have hkeep : ∃ p : Player, (s.objects = s.objects ∨
        s.objects = setObject s.objects clientId p) ∧
      p.bombCount = (s.objects clientId).bombCount ∧
      p.bombPower = (s.objects clientId).bombPower ∧
      p.activeBombs = (s.objects clientId).activeBombs ∧
      (p.speed = (s.objects clientId).speed ∨ data.speed = some p.speed) ∧
      (data.speed = none → p.speed = (s.objects clientId).speed) :=
    ⟨s.objects clientId, Or.inl rfl, rfl, rfl, rfl, Or.inl rfl, fun _ => rfl⟩
  unfold handlePlayerUpdate at h
  split at h
  · simp only [Option.some.injEq] at h
    subst h
    exact hkeep
  · split at h
    · cases hs : data.speed <;> cases hl : data.lives <;> simp only [hs, hl] at h <;>
        repeat' (first
          | (simp only [Option.some.injEq] at h
             subst h
             first
             | exact ⟨_, Or.inr rfl, rfl, rfl, rfl, Or.inl rfl, fun _ => rfl⟩
             | exact ⟨_, Or.inr rfl, rfl, rfl, rfl, Or.inr rfl,
                 fun hn => absurd hn (by simp)⟩)
          | exact Option.noConfusion h
          | split at h)
    · simp only [Option.some.injEq] at h
      subst h
      unfold playerUpdateNaN
      split
      · exact hkeep
      · simp only []
        split
        · exact ⟨_, Or.inr rfl, rfl, rfl, rfl, Or.inl rfl, fun _ => rfl⟩
        · exact hkeep

/-- C27 (amended). `handlePlayerUpdate` never writes `bombCount` or `bombPower`
and writes no `speed` but that of the sender.  It leaves the sender's `speed`
alone when the message has no `speed` field, and overwrites it with that field,
whatever its value, when the coordinates are numeric and the field is present.
The cap of 7 is applied by `handlePowerUpCollected` to the speed it computes. -/
theorem handlePlayerUpdate_stats (s : Server) (clientId : Nat) (data : PlayerUpdateData)
    (out : Outcome) (h : handlePlayerUpdate s clientId data = some out) :
    (∀ id, (out.server.objects id).bombCount = (s.objects id).bombCount ∧
      (out.server.objects id).bombPower = (s.objects id).bombPower) ∧
    (∀ id, id ≠ clientId → (out.server.objects id).speed = (s.objects id).speed) ∧
    (data.speed = none → (out.server.objects clientId).speed = (s.objects clientId).speed) ∧
    (∀ (gi : Nat) (game : Game) (x y : Int) (v : Rat),
      findGame s clientId = some (gi, game) → data.tileX = some x → data.tileY = some y →
      data.speed = some v → (out.server.objects clientId).speed = v) ∧
    (∀ (gi : Nat) (game : Game) (d : PowerUpCollectedData),
      findGame s clientId = some (gi, game) → d.type = some PowerUp.speed →
      ((handlePowerUpCollected s clientId d).server.objects clientId).speed ≤ 7) := by
  obtain ⟨p, hobj, hbc, hbp, _, _, hnone⟩ := handlePlayerUpdate_objects h
  refine ⟨?_, ?_, ?_, ?_, ?_⟩
  · intro id
    rcases hobj with ho | ho
    · rw [ho]
      exact ⟨rfl, rfl⟩
    · rw [ho]
      unfold setObject
      by_cases hid : id = clientId
      · rw [if_pos hid, hid]
        exact ⟨hbc, hbp⟩
      · rw [if_neg hid]
        exact ⟨rfl, rfl⟩
  · intro id hid
    rcases hobj with ho | ho
    · rw [ho]
    · rw [ho]
      unfold setObject
      rw [if_neg hid]
  · intro hn
    rcases hobj with ho | ho
    · rw [ho]
    · rw [ho]
      unfold setObject
      rw [if_pos rfl]
      exact hnone hn
  · intro gi game x y v hg hx hy hv
    unfold handlePlayerUpdate at h
    simp only [hg, hx, hy, hv] at h
    cases hl : data.lives <;> simp only [hl] at h <;>
      repeat' (first
        | (simp only [Option.some.injEq] at h
           subst h
           simp [setObject])
        | exact Option.noConfusion h
        | split at h)
  · intro gi game d hg hd
    unfold handlePowerUpCollected
    simp only [hg, hd, applyPowerUp, setObject, if_true]
    exact min_le_right _ _

theorem handlePlayerUpdate_stats_witness :
    (∀ id, (fastOutcome.server.objects id).bombCount = (joinedOnce.objects id).bombCount ∧
      (fastOutcome.server.objects id).bombPower = (joinedOnce.objects id).bombPower) ∧
    (∀ id, id ≠ 1 → (fastOutcome.server.objects id).speed = (joinedOnce.objects id).speed) ∧
    (fastUpdate.speed = none →
      (fastOutcome.server.objects 1).speed = (joinedOnce.objects 1).speed) ∧
    (∀ (gi : Nat) (game : Game) (x y : Int) (v : Rat),
      findGame joinedOnce 1 = some (gi, game) → fastUpdate.tileX = some x →
      fastUpdate.tileY = some y → fastUpdate.speed = some v →
      (fastOutcome.server.objects 1).speed = v) ∧
    (∀ (gi : Nat) (game : Game) (d : PowerUpCollectedData),
      findGame joinedOnce 1 = some (gi, game) → d.type = some PowerUp.speed →
      ((handlePowerUpCollected joinedOnce 1 d).server.objects 1).speed ≤ 7) :=
  handlePlayerUpdate_stats joinedOnce 1 fastUpdate fastOutcome rfl

/-- C27, as stated, fails.  Client 1 connects, joins, and sends a
`playerUpdate` with numeric coordinates and `speed: 99`: the server held speed
3 and now holds speed 99, above the cap of 7, in a reachable world. -/
theorem handlePlayerUpdate_speed_from_client :
    Reachable joinedOnce ∧ (joinedOnce.objects 1).speed = 3 ∧
    handlePlayerUpdate joinedOnce 1
        ⟨some 1, some 1, some Direction.down, some false, some 99, none, true⟩ =
      some fastOutcome ∧
    Reachable fastOutcome.server ∧ (fastOutcome.server.objects 1).speed = 99 ∧
    (7 : Rat) < 99 := by
  refine ⟨reachable_joinedOnce, by decide, rfl, ?_, by decide, by norm_num⟩
  exact reachable_step reachable_joinedOnce
    (Step.playerUpdate joinedOnce 1 fastUpdate fastOutcome (by decide) rfl)

/-! ## Removal of a session -/

theorem idsKept_refl (games : List Game) : IdsKept games games :=
  fun g hg => ⟨g, hg, rfl⟩

theorem idsKept_set {games : List Game} {gi : Nat} {game game1 : Game}
    (hget : games[gi]? = some game) (hid : game1.id = game.id) :
    IdsKept games (games.set gi game1) := by
  intro g hg
  obtain ⟨j, hj⟩ := List.mem_iff_getElem?.mp hg
  have hlt := (List.getElem?_eq_some.mp hget).1
  by_cases hji : gi = j
  · subst hji
    rw [hget, Option.some.injEq] at hj
    subst hj
    refine ⟨game1, List.mem_iff_getElem?.mpr ⟨gi, ?_⟩, hid⟩
    rw [List.getElem?_set, if_pos rfl, if_pos hlt]
  · refine ⟨g, List.mem_iff_getElem?.mpr ⟨j, ?_⟩, rfl⟩
    rw [List.getElem?_set, if_neg hji]
    exact hj

theorem idsKept_cons {game game1 : Game} (rest : List Game) (hid : game1.id = game.id) :
    IdsKept (game :: rest) (game1 :: rest) := by
  intro g hg
  rcases List.mem_cons.mp hg with h | h
  · exact ⟨game1, List.mem_cons_self _ _, by rw [hid, h]⟩
  · exact ⟨g, List.mem_cons_of_mem _ h, rfl⟩

theorem handleBombPlaced_idsKept {s : Server} {clientId : Nat} {data : BombPlacedData}
    {now : Int} {out : Outcome} (h : handleBombPlaced s clientId data now = some out) :
    IdsKept s.games out.server.games := by
  unfold handleBombPlaced at h
  split at h
  · simp only [Option.some.injEq] at h
    subst h
    exact idsKept_refl _
  · rename_i gi game hg
    obtain ⟨_, hget, _⟩ := findGame_some hg
    simp only [] at h
    split at h
    · split at h <;>
      · simp only [Option.some.injEq] at h
        subst h
        exact idsKept_refl _
    · split at h
      · exact Option.noConfusion h
      · simp only [Option.some.injEq] at h
        subst h
        exact idsKept_set hget rfl

theorem handleBombExploded_idsKept {s : Server} {clientId : Nat} {data : BombExplodedData}
    {now : Int} {rand rand1 : Rand} {out : Outcome}
    (h : handleBombExploded s clientId data now rand = some (out, rand1)) :
    IdsKept s.games out.server.games := by
  unfold handleBombExploded at h
  split at h
  · simp only [Option.some.injEq, Prod.mk.injEq] at h
    obtain ⟨h, _⟩ := h
    subst h
    exact idsKept_refl _
  · rename_i gi game hg
    obtain ⟨_, hget, _⟩ := findGame_some hg
    split at h
    · exact Option.noConfusion h
    · split at h
      · simp only [Option.some.injEq, Prod.mk.injEq] at h
        obtain ⟨h, _⟩ := h
        subst h
        exact idsKept_refl _
      · split at h
        · simp only [Option.some.injEq, Prod.mk.injEq] at h
          obtain ⟨h, _⟩ := h
          subst h
          exact idsKept_refl _
        · split at h
          · simp only [Option.some.injEq, Prod.mk.injEq] at h
            obtain ⟨h, _⟩ := h
            subst h
            exact idsKept_refl _
          · split at h
            · simp only [Option.some.injEq, Prod.mk.injEq] at h
              obtain ⟨h, _⟩ := h
              subst h
              exact idsKept_refl _
            · simp only [] at h
              split at h
              · exact Option.noConfusion h
              · simp only [Option.some.injEq, Prod.mk.injEq] at h
                obtain ⟨h, _⟩ := h
                subst h
                exact idsKept_set hget rfl

theorem handleJoinGame_idsKept (s : Server) (clientId : Nat) (nickname : String)
    (gameId baseHue : Nat) :
    IdsKept s.games (handleJoinGame s clientId nickname gameId baseHue).server.games := by
  unfold handleJoinGame
  split
  · exact idsKept_refl _
  · split
    · rename_i game rest hgames
      rw [hgames]
      split
      · rw [hgames]
        exact idsKept_refl _
      · simp only []
        split
        · exact idsKept_cons rest rfl
        · split
          · exact idsKept_cons rest rfl
          · exact idsKept_cons rest rfl
    · rename_i hgames
      rw [hgames]
      intro g hg
      simp at hg

theorem countdownTick_idsKept {s : Server} {gi : Nat} {rand rand1 : Rand} {out : Outcome}
    (h : countdownTick s gi rand = some (out, rand1)) : IdsKept s.games out.server.games := by
  unfold countdownTick at h
  split at h
  · simp only [Option.some.injEq, Prod.mk.injEq] at h
    obtain ⟨h, _⟩ := h
    subst h
    exact idsKept_refl _
  · rename_i game hget
    split at h
    · exact Option.noConfusion h
    · simp only [] at h
      split at h
      · split at h
        · simp only [Option.some.injEq, Prod.mk.injEq] at h
          obtain ⟨h, _⟩ := h
          subst h
          exact idsKept_set hget rfl
        · simp only [Option.some.injEq, Prod.mk.injEq] at h
          obtain ⟨h, _⟩ := h
          subst h
          exact idsKept_set hget rfl
      · simp only [Option.some.injEq, Prod.mk.injEq] at h
        obtain ⟨h, _⟩ := h
        subst h
        exact idsKept_set hget rfl

theorem tickGame_id (clients : List Nat) (objects : Nat → Player) (game : Game)
    (now : Int) (rand : Rand) : (tickGame clients objects game now rand).game.id = game.id := by
  unfold tickGame
  split
  · simp only []
    unfold cleanupExpiredExplosions checkExplosionCollisions
    split <;> (simp only []; repeat' split) <;> rfl
  · rfl

theorem tickGames_idsKept (clients : List Nat) (now : Int) :
    ∀ (games : List Game) (objects : Nat → Player) (rand : Rand),
      IdsKept games (tickGames clients objects games now rand).2.1 := by
  intro games
  induction games with
  | nil =>
    intro objects rand g hg
    simp at hg
  | cons game rest ih =>
    intro objects rand g hg
    simp only [tickGames]
    rcases List.mem_cons.mp hg with h | h
    · exact ⟨_, List.mem_cons_self _ _, by rw [tickGame_id, h]⟩
    · obtain ⟨g', hg', hid⟩ := ih _ _ g h
      exact ⟨g', List.mem_cons_of_mem _ hg', hid⟩

/-- C28 (amended). Every operation of the server keeps every session of the
registry (a session with the same id is there afterwards), with three
exceptions: a disconnect that leaves the player list of the sender's session
empty, a `gameEnded` message of a player of a session from which the handler
returns, and a `gameOver` timer that fires.  A `gameEnded` message whose reason
is not 'playerWon', or whose reason is 'playerWon' and whose `players` array the
winner lookup runs over, deletes the session of its sender whatever the lives
of the players. -/
theorem session_removed_only (s s' : Server) (hstep : Step s s') :
    (IdsKept s.games s'.games ∨
      (∃ clientId gi game, findGame s clientId = some (gi, game) ∧
        game.players.filter (fun id => id != clientId) = [] ∧
        s' = (handleDisconnect s clientId).server ∧ s'.games = s.games.eraseIdx gi) ∨
      (∃ clientId data out gi game, findGame s clientId = some (gi, game) ∧
        handleGameEnded s clientId data = some out ∧ s' = out.server ∧
        s'.games = s.games.eraseIdx gi) ∨
      (∃ game winner, s' = (gameOverCallback s game winner).server ∧
        s'.games = s.games.filter (fun g => g.id != game.id))) ∧
    (∀ (clientId gi : Nat) (game : Game) (d : GameEndedData),
      findGame s clientId = some (gi, game) →
      (d.playerWon = false ∨
        ∃ players, d.players = some players ∧ findRaises d.winnerId players = false) →
      handleGameEnded s clientId (some d) =
        some ⟨{ s with games := s.games.eraseIdx gi }, [], []⟩) := by
  constructor
  · cases hstep with
    | connect => exact Or.inl (idsKept_refl _)
    | disconnect clientId _ =>
      cases hg : findGame s clientId with
      | none =>
        left
        unfold handleDisconnect
        simp only [hg]
        exact idsKept_refl _
      | some found =>
        obtain ⟨gi, game⟩ := found
        obtain ⟨_, hget, _⟩ := findGame_some hg
        by_cases hempty : game.players.filter (fun id => id != clientId) = []
        · right
          left
          refine ⟨clientId, gi, game, hg, hempty, rfl, ?_⟩
          unfold handleDisconnect
          simp only [hg, hempty, List.length_nil, if_true]
        · left
          have hlen : ¬ (game.players.filter (fun id => id != clientId)).length = 0 := by
            intro h
            exact hempty (List.length_eq_zero.mp h)
          unfold handleDisconnect
          simp only [hg, hlen, if_false]
          split
          · split
            · exact idsKept_set hget rfl
            · split
              · exact idsKept_set hget rfl
              · exact idsKept_set hget rfl
          · exact idsKept_set hget rfl
    | joinGame => exact Or.inl (handleJoinGame_idsKept _ _ _ _ _)
    | playerUpdate clientId data out _ h =>
      left
      rw [handlePlayerUpdate_games h]
      exact idsKept_refl _
    | bombPlaced clientId data now out _ h => exact Or.inl (handleBombPlaced_idsKept h)
    | bombExploded clientId data now rand rand1 out h =>
      exact Or.inl (handleBombExploded_idsKept h)
    | powerUpCollected =>
      left
      rw [handlePowerUpCollected_games]
      exact idsKept_refl _
    | gameEnded clientId data out _ h =>
      rcases handleGameEnded_server_cases h with ⟨_, hout⟩ | ⟨gi, game, hg, hout⟩
      · left
        rw [hout]
        exact idsKept_refl _
      · right
        right
        left
        refine ⟨clientId, data, out, gi, game, hg, h, rfl, ?_⟩
        rw [hout]
    | countdownTick gi rand rand1 out h => exact Or.inl (countdownTick_idsKept h)
    | tick now rand => exact Or.inl (tickGames_idsKept _ _ _ _ _)
    | gameOverTimer game winner => exact Or.inr (Or.inr (Or.inr ⟨game, winner, rfl, rfl⟩))
    | orphanStart => exact Or.inl (idsKept_refl _)
  · intro clientId gi game d hg hd
    unfold handleGameEnded
    simp only [hg]
    rcases hd with hd | ⟨players, hp, hfind⟩
    · simp only [hd, Bool.false_eq_true, if_false]
    · simp only [hp, hfind, Bool.false_eq_true, if_false]
      split <;> rfl

theorem session_removed_only_witness :
    (IdsKept demoServer.games endedOutcome.server.games ∨
      (∃ clientId gi game, findGame demoServer clientId = some (gi, game) ∧
        game.players.filter (fun id => id != clientId) = [] ∧
        endedOutcome.server = (handleDisconnect demoServer clientId).server ∧
        endedOutcome.server.games = demoServer.games.eraseIdx gi) ∨
      (∃ clientId data out gi game, findGame demoServer clientId = some (gi, game) ∧
        handleGameEnded demoServer clientId data = some out ∧ endedOutcome.server = out.server ∧
        endedOutcome.server.games = demoServer.games.eraseIdx gi) ∨
      (∃ game winner,
        endedOutcome.server = (gameOverCallback demoServer game winner).server ∧
        endedOutcome.server.games = demoServer.games.filter (fun g => g.id != game.id))) ∧
    (∀ (clientId gi : Nat) (game : Game) (d : GameEndedData),
      findGame demoServer clientId = some (gi, game) →
      (d.playerWon = false ∨
        ∃ players, d.players = some players ∧ findRaises d.winnerId players = false) →
      handleGameEnded demoServer clientId (some d) =
        some ⟨{ demoServer with games := demoServer.games.eraseIdx gi }, [], []⟩) :=
  session_removed_only demoServer endedOutcome.server
    (Step.gameEnded demoServer 1 (some timeExpired) endedOutcome (by decide) rfl)

/-- C28, as stated, fails.  Both players of the started session of `demoServer`
have 3 lives.  Player 1 sends the `gameEnded` message that the client sends when
the game timer runs out (reason 'timeExpired', `winnerId: null`, the two
players listed): the handler returns and the registry is empty afterwards.  So
it is after a `gameEnded` message claiming that player 1 won. -/
theorem handleGameEnded_two_alive :
    demoServer.games = [demoGame] ∧ demoGame.started = true ∧
    alivePlayers demoServer.objects demoGame = [1, 2] ∧
    (handleGameEnded demoServer 1
        (some ⟨false, IdValue.null, some [some (IdValue.id 1), some (IdValue.id 2)]⟩)).map
      (fun out => out.server.games) = some [] ∧
    (handleGameEnded demoServer 1
        (some ⟨true, IdValue.id 1, some [some (IdValue.id 1), some (IdValue.id 2)]⟩)).map
      (fun out => out.server.games) = some [] := by
  refine ⟨rfl, rfl, by decide, by decide, by decide⟩

/-! ## Bomb bookkeeping of a started session -/

theorem ownedBombs_append (bombs : List Bomb) (bomb : Bomb) (id : Nat) :
    ownedBombs (bombs ++ [bomb]) id =
      ownedBombs bombs id + (if bomb.ownerId = id then 1 else 0) := by
  unfold ownedBombs
  rw [List.filter_append, List.length_append]
  by_cases h : bomb.ownerId = id
  · simp [h]
  · simp [h]

theorem ownedBombs_eraseIdx :
    ∀ (bombs : List Bomb) (idx : Nat) (bomb : Bomb) (id : Nat), bombs[idx]? = some bomb →
      ownedBombs (bombs.eraseIdx idx) id =
        ownedBombs bombs id - (if bomb.ownerId = id then 1 else 0) := by
  intro bombs
  induction bombs with
  | nil => intro idx bomb id h; simp at h
  | cons b rest ih =>
    intro idx bomb id h
    cases idx with
    | zero =>
      simp only [List.getElem?_cons_zero, Option.some.injEq] at h
      subst h
      unfold ownedBombs
      rw [List.eraseIdx_cons_zero]
      by_cases hb : b.ownerId = id
      · simp [hb]
      · simp [hb]
    | succ k =>
      simp only [List.getElem?_cons_succ] at h
      have hrec := ih k bomb id h
      unfold ownedBombs at hrec ⊢
      rw [List.eraseIdx_cons_succ]
      by_cases hb : b.ownerId = id
      · simp only [List.filter_cons, hb, beq_self_eq_true, if_true, List.length_cons,
          Nat.cast_add, Nat.cast_one]
        rw [hrec]
        omega
      · have hb' : (b.ownerId == id) = false := by simpa using hb
        simp only [List.filter_cons, hb', Bool.false_eq_true, if_false]
        exact hrec

/-- The placement loop of `startGame` on any list: each listed player ends
with no active bomb and one bomb allowed, and no other object is written. -/
theorem placePlayers_counters :
    ∀ (players : List Nat) (objects : Nat → Player) (index : Nat) (id : Nat),
      (id ∈ players →
        ((placePlayers objects players index).1 id).activeBombs = 0 ∧
        ((placePlayers objects players index).1 id).bombCount = 1) ∧
      (id ∉ players → (placePlayers objects players index).1 id = objects id) := by
  intro players
  induction players with
  | nil =>
    intro objects index id
    exact ⟨fun h => absurd h (List.not_mem_nil _), fun _ => rfl⟩
  | cons i rest ih =>
    intro objects index id
    simp only [placePlayers]
    obtain ⟨hin, hout⟩ := ih (setObject objects i
      { objects i with
        tileX := (spawnPosition index).1, tileY := (spawnPosition index).2
        direction := some Direction.down, moving := some false
        activeBombs := 0, bombCount := 1, bombPower := 1 }) (index + 1) id
    constructor
    · intro hmem
      by_cases hrest : id ∈ rest
      · exact hin hrest
      · have hid : id = i := by
          rcases List.mem_cons.mp hmem with h | h
          · exact h
          · exact absurd h hrest
        rw [hout hrest, hid]
        simp [setObject]
    · intro hmem
      rw [List.mem_cons, not_or] at hmem
      rw [hout hmem.2]
      simp only [setObject, if_neg hmem.1]

theorem findGame_singleton {s : Server} {g game : Game} {clientId gi : Nat}
    (hgames : s.games = [g]) (hg : findGame s clientId = some (gi, game)) :
    gi = 0 ∧ game = g ∧ clientId ∈ g.players := by
  obtain ⟨_, hget, hmem⟩ := findGame_some hg
  rw [hgames] at hget
  cases gi with
  | zero =>
    simp only [List.getElem?_cons_zero, Option.some.injEq] at hget
    subst hget
    exact ⟨rfl, rfl, by simpa using hmem⟩
  | succ k => simp at hget

theorem bombsCounted_start (s : Server) (game : Game) (rand : Rand) (hgames : s.games = [game]) :
    BombsCounted (startGame s 0 game rand).1.server := by
  refine ⟨{ game with
      started := true, state := { map := some (generateMap rand).1, bombs := some [] } },
    [], ?_, rfl, rfl, ?_⟩
  · simp only [startGame, setGame, hgames, List.set_cons_zero]
  · intro id hid
    have h := (placePlayers_counters game.players
      (game.players.foldl (fun o i => setObject o i (resetPlayerStats (o i))) s.objects) 0 id).1
      hid
    have hobj : (startGame s 0 game rand).1.server.objects id =
        (placePlayers (game.players.foldl (fun o i => setObject o i (resetPlayerStats (o i)))
          s.objects) game.players 0).1 id := rfl
    rw [hobj, h.1, h.2]
    exact ⟨rfl, by decide, by decide⟩

/-- The two outcomes of `handleBombPlaced` for the world: left as it is, or one
bomb of the sender appended and the sender's count of active bombs, which was
below the cap, raised by one. -/
theorem handleBombPlaced_server_cases {s : Server} {clientId : Nat} {data : BombPlacedData}
    {now : Int} {out : Outcome} (h : handleBombPlaced s clientId data now = some out) :
    out.server = s ∨
    ∃ gi game bombs, findGame s clientId = some (gi, game) ∧ game.state.bombs = some bombs ∧
      (s.objects clientId).activeBombs < (s.objects clientId).bombCount ∧
      out.server =
        { setGame s gi
            { game with
              state := { game.state with bombs := some (bombs ++
                [⟨data.bombId, data.tileX, data.tileY, (s.objects clientId).bombPower, clientId,
                  now, 3000⟩]) } } with
          objects := setObject s.objects clientId
            { s.objects clientId with activeBombs := (s.objects clientId).activeBombs + 1 } } := by
  unfold handleBombPlaced at h
  split at h
  · simp only [Option.some.injEq] at h
    subst h
    exact Or.inl rfl
  · rename_i gi game hg
    simp only [] at h
    split at h
    · split at h <;>
      · simp only [Option.some.injEq] at h
        subst h
        exact Or.inl rfl
    · rename_i hfree
      split at h
      · exact Option.noConfusion h
      · rename_i bombs hbombs
        simp only [Option.some.injEq] at h
        subst h
        refine Or.inr ⟨gi, game, bombs, hg, hbombs, ?_, rfl⟩
        by_contra hge
        exact hfree (Or.inr (by omega))

/-- The two outcomes of `handleBombExploded` for the world: left as it is, or
one bomb of the sender removed from the list and the sender's count of active
bombs lowered by one. -/
theorem handleBombExploded_server_cases {s : Server} {clientId : Nat}
    {data : BombExplodedData} {now : Int} {rand rand1 : Rand} {out : Outcome}
    (h : handleBombExploded s clientId data now rand = some (out, rand1)) :
    out.server = s ∨
    ∃ gi game bombs idx bomb game1, findGame s clientId = some (gi, game) ∧
      game.state.bombs = some bombs ∧ bombs[idx]? = some bomb ∧ bomb.ownerId = clientId ∧
      game1.started = game.started ∧ game1.players = game.players ∧
      game1.state.bombs = some (bombs.eraseIdx idx) ∧
      out.server =
        { setGame s gi game1 with
          objects := setObject s.objects clientId
            { s.objects clientId with activeBombs := (s.objects clientId).activeBombs - 1 } } := by
  unfold handleBombExploded at h
  split at h
  · simp only [Option.some.injEq, Prod.mk.injEq] at h
    obtain ⟨h, _⟩ := h
    subst h
    exact Or.inl rfl
  · rename_i gi game hg
    obtain ⟨_, _, hmem⟩ := findGame_some hg
    split at h
    · exact Option.noConfusion h
    · rename_i bombs hbombs
      split at h
      · simp only [Option.some.injEq, Prod.mk.injEq] at h
        obtain ⟨h, _⟩ := h
        subst h
        exact Or.inl rfl
      · rename_i idx hidx
        split at h
        · simp only [Option.some.injEq, Prod.mk.injEq] at h
          obtain ⟨h, _⟩ := h
          subst h
          exact Or.inl rfl
        · rename_i bomb hbomb
          split at h
          · simp only [Option.some.injEq, Prod.mk.injEq] at h
            obtain ⟨h, _⟩ := h
            subst h
            exact Or.inl rfl
          · rename_i howner
            split at h
            · simp only [Option.some.injEq, Prod.mk.injEq] at h
              obtain ⟨h, _⟩ := h
              subst h
              exact Or.inl rfl
            · simp only [] at h
              split at h
              · exact Option.noConfusion h
              · rename_i blast hblast
                simp only [hmem, if_true, Option.some.injEq, Prod.mk.injEq] at h
                obtain ⟨h, _⟩ := h
                subst h
                exact Or.inr ⟨gi, game, bombs, idx, bomb,
                  { game with
                    state := { map := blast.map, bombs := some (bombs.eraseIdx idx) }
                    activeExplosions := some ((match game.activeExplosions with
                      | none => []
                      | some l => l) ++
                      blast.tiles.map (fun tile => ⟨bomb.id, tile.x, tile.y, now + 800⟩)) },
                  hg, hbombs, hbomb, not_not.mp howner, rfl, rfl, rfl, rfl⟩

theorem bombsCounted_bombPlaced {s : Server} {clientId : Nat} {data : BombPlacedData}
    {now : Int} {out : Outcome} (h : handleBombPlaced s clientId data now = some out)
    (hinv : BombsCounted s) : BombsCounted out.server := by
  rcases handleBombPlaced_server_cases h with hs | ⟨gi, game, bombs, hg, hbombs, hfree, hs⟩
  · rw [hs]
    exact hinv
  · obtain ⟨g, bombs0, hgames, hstarted, hb0, hall⟩ := hinv
    obtain ⟨hgi, hgame, hmem⟩ := findGame_singleton hgames hg
    subst hgi hgame
    rw [hbombs, Option.some.injEq] at hb0
    subst hb0
    rw [hs]
    refine ⟨
      { game with
        state := { game.state with bombs := some (bombs ++
          [⟨data.bombId, data.tileX, data.tileY, (s.objects clientId).bombPower, clientId,
            now, 3000⟩]) } },
      bombs ++ [⟨data.bombId, data.tileX, data.tileY, (s.objects clientId).bombPower, clientId,
        now, 3000⟩], ?_, hstarted, rfl, ?_⟩
    · simp only [setGame]
      rw [hgames]
      rfl
    · intro id hid
      obtain ⟨h1, h2, h3⟩ := hall id hid
      simp only [setObject]
      rw [ownedBombs_append]
      by_cases hc : id = clientId
      · subst hc
        simp only [if_true]
        omega
      · have hc' : ¬ clientId = id := fun h => hc h.symm
        simp only [if_neg hc, if_neg hc']
        omega

theorem bombsCounted_bombExploded {s : Server} {clientId : Nat} {data : BombExplodedData}
    {now : Int} {rand rand1 : Rand} {out : Outcome}
    (h : handleBombExploded s clientId data now rand = some (out, rand1))
    (hinv : BombsCounted s) : BombsCounted out.server := by
  rcases handleBombExploded_server_cases h with
    hs | ⟨gi, game, bombs, idx, bomb, game1, hg, hbombs, hbomb, howner, hst, hpl, hb1, hs⟩
  · rw [hs]
    exact hinv
  · obtain ⟨g, bombs0, hgames, hstarted, hb0, hall⟩ := hinv
    obtain ⟨hgi, hgame, hmem⟩ := findGame_singleton hgames hg
    subst hgi hgame
    rw [hbombs, Option.some.injEq] at hb0
    subst hb0
    rw [hs]
    refine ⟨game1, _, ?_, by rw [hst]; exact hstarted, hb1, ?_⟩
    · simp only [setGame, hgames, List.set_cons_zero]
    · intro id hid
      rw [hpl] at hid
      obtain ⟨h1, h2, h3⟩ := hall id hid
      simp only [setObject]
      rw [ownedBombs_eraseIdx bombs idx bomb id hbomb, howner]
      by_cases hc : id = clientId
      · subst hc
        simp only [if_true]
        omega
      · have hc' : ¬ clientId = id := fun h => hc h.symm
        simp only [if_neg hc, if_neg hc']
        omega

theorem bombsCounted_powerUpCollected (s : Server) (clientId : Nat)
    (data : PowerUpCollectedData) (hinv : BombsCounted s) :
    BombsCounted (handlePowerUpCollected s clientId data).server := by
  obtain ⟨g, bombs, hgames, hstarted, hb, hall⟩ := hinv
  unfold handlePowerUpCollected
  split
  · exact ⟨g, bombs, hgames, hstarted, hb, hall⟩
  · refine ⟨g, bombs, hgames, hstarted, hb, ?_⟩
    intro id hid
    obtain ⟨h1, h2, h3⟩ := hall id hid
    simp only [setObject]
    by_cases hc : id = clientId
    · subst hc
      simp only [if_true]
      unfold applyPowerUp
      split
      · simp only []
        refine ⟨h1, ?_, min_le_right _ _⟩
        rw [le_min_iff]
        constructor
        · split <;> omega
        · omega
      · exact ⟨h1, h2, h3⟩
      · exact ⟨h1, h2, h3⟩
      · exact ⟨h1, h2, h3⟩
    · simp only [if_neg hc]
      exact ⟨h1, h2, h3⟩

theorem bombsCounted_playerUpdate {s : Server} {clientId : Nat} {data : PlayerUpdateData}
    {out : Outcome} (h : handlePlayerUpdate s clientId data = some out)
    (hinv : BombsCounted s) : BombsCounted out.server := by
  obtain ⟨g, bombs, hgames, hstarted, hb, hall⟩ := hinv
  obtain ⟨p, hobj, hbc, _, hab, _, _⟩ := handlePlayerUpdate_objects h
  refine ⟨g, bombs, by rw [handlePlayerUpdate_games h]; exact hgames, hstarted, hb, ?_⟩
  intro id hid
  obtain ⟨h1, h2, h3⟩ := hall id hid
  rcases hobj with ho | ho
  · rw [ho]
    exact ⟨h1, h2, h3⟩
  · rw [ho]
    simp only [setObject]
    by_cases hc : id = clientId
    · subst hc
      simp only [if_true]
      rw [hab, hbc]
      exact ⟨h1, h2, h3⟩
    · simp only [if_neg hc]
      exact ⟨h1, h2, h3⟩

theorem played_bombsCounted {s : Server} (h : Played s) : BombsCounted s := by
  induction h with
  | start s game rand hgames => exact bombsCounted_start s game rand hgames
  | bombPlaced s clientId data now out _ h ih => exact bombsCounted_bombPlaced h ih
  | bombExploded s clientId data now rand rand1 out _ h ih =>
    exact bombsCounted_bombExploded h ih
  | powerUpCollected s clientId data _ ih => exact bombsCounted_powerUpCollected s clientId data ih
  | playerUpdate s clientId data out _ h ih => exact bombsCounted_playerUpdate h ih

theorem tickGames_length (clients : List Nat) (now : Int) :
    ∀ (games : List Game) (objects : Nat → Player) (rand : Rand),
      (tickGames clients objects games now rand).2.1.length = games.length := by
  intro games
  induction games with
  | nil => intro objects rand; rfl
  | cons game rest ih =>
    intro objects rand
    simp only [tickGames, List.length_cons, ih]

/-- The registry never grows beyond one session: a session is created only
when there is none. -/
theorem step_one_session {s s' : Server} (hstep : Step s s') (h : s.games.length ≤ 1) :
    s'.games.length ≤ 1 := by
  cases hstep with
  | connect => exact h
  | disconnect clientId _ =>
    unfold handleDisconnect
    simp only []
    split
    · exact h
    · repeat' split
      all_goals first
        | exact le_trans (List.eraseIdx_sublist _ _).length_le h
        | (simp only [setGame, List.length_set]; exact h)
  | joinGame clientId nickname gameId baseHue _ =>
    unfold handleJoinGame
    split
    · exact h
    · split
      · rename_i game rest hgames
        rw [hgames] at h
        split
        · rw [hgames]
          exact h
        · simp only []
          repeat' split
          all_goals exact h
      · exact le_refl 1
  | playerUpdate clientId data out _ hrun =>
    rw [handlePlayerUpdate_games hrun]
    exact h
  | bombPlaced clientId data now out _ hrun =>
    rcases handleBombPlaced_server_cases hrun with hs | ⟨gi, game, bombs, _, _, _, hs⟩
    · rw [hs]
      exact h
    · rw [hs]
      simp only [setGame, List.length_set]
      exact h
  | bombExploded clientId data now rand rand1 out hrun =>
    rcases handleBombExploded_server_cases hrun with
      hs | ⟨gi, game, bombs, idx, bomb, game1, _, _, _, _, _, _, _, hs⟩
    · rw [hs]
      exact h
    · rw [hs]
      simp only [setGame, List.length_set]
      exact h
  | powerUpCollected =>
    rw [handlePowerUpCollected_games]
    exact h
  | gameEnded clientId data out _ hrun =>
    rcases handleGameEnded_server_cases hrun with ⟨_, hout⟩ | ⟨gi, game, _, hout⟩
    · rw [hout]
      exact h
    · rw [hout]
      exact le_trans (List.eraseIdx_sublist _ _).length_le h
  | countdownTick gi rand rand1 out hrun =>
    unfold countdownTick at hrun
    split at hrun
    · simp only [Option.some.injEq, Prod.mk.injEq] at hrun
      obtain ⟨hrun, _⟩ := hrun
      subst hrun
      exact h
    · split at hrun
      · exact Option.noConfusion hrun
      · simp only [] at hrun
        split at hrun
        · split at hrun
          · simp only [Option.some.injEq, Prod.mk.injEq] at hrun
            obtain ⟨hrun, _⟩ := hrun
            subst hrun
            simp only [setGame, List.length_set]
            exact h
          · simp only [Option.some.injEq, Prod.mk.injEq] at hrun
            obtain ⟨hrun, _⟩ := hrun
            subst hrun
            simp only [startGame, setGame, List.length_set]
            exact h
        · simp only [Option.some.injEq, Prod.mk.injEq] at hrun
          obtain ⟨hrun, _⟩ := hrun
          subst hrun
          simp only [setGame, List.length_set]
          exact h
  | tick now rand =>
    show (tickGames s.clients s.objects s.games now rand).2.1.length ≤ 1
    rw [tickGames_length]
    exact h
  | gameOverTimer game winner => exact le_trans (List.length_filter_le _ _) h
  | orphanStart => exact h

theorem reachable_one_session {s : Server} (h : Reachable s) : s.games.length ≤ 1 := by
  obtain ⟨objects, hreach⟩ := h
  induction hreach with
  | refl => exact Nat.zero_le 1
  | tail _ hstep ih => exact step_one_session hstep ih

/-- C30. In every world of a started session reached from `startGame` (run
on the only session of the registry) through `handleBombPlaced`,
`handleBombExploded`, `handlePowerUpCollected` and `handlePlayerUpdate`, the
session is started, has its bomb list, and each player of it has `activeBombs`
equal to the number of live bombs whose `ownerId` is the id of the player, and
`activeBombs <= bombCount <= 6`.  A reachable registry never holds more than
one session. -/
theorem played_bombs_counted :
    (∀ s : Server, Played s →
      ∃ game bombs, s.games = [game] ∧ game.started = true ∧ game.state.bombs = some bombs ∧
        ∀ id ∈ game.players,
          (s.objects id).activeBombs =
            ((bombs.filter (fun b => b.ownerId == id)).length : Int) ∧
          (s.objects id).activeBombs ≤ (s.objects id).bombCount ∧
          (s.objects id).bombCount ≤ 6) ∧
    (∀ s : Server, Reachable s → s.games.length ≤ 1) :=
  ⟨fun _ h => played_bombsCounted h, fun _ h => reachable_one_session h⟩

theorem played_bombs_counted_witness :
    ∃ game bombs, placedOutcome.server.games = [game] ∧ game.started = true ∧
      game.state.bombs = some bombs ∧
      ∀ id ∈ game.players,
        (placedOutcome.server.objects id).activeBombs =
          ((bombs.filter (fun b => b.ownerId == id)).length : Int) ∧
        (placedOutcome.server.objects id).activeBombs ≤
          (placedOutcome.server.objects id).bombCount ∧
        (placedOutcome.server.objects id).bombCount ≤ 6 :=
  played_bombs_counted.1 placedOutcome.server
    (Played.bombPlaced startedLobby 1 ⟨8, 1, 1⟩ 0 placedOutcome
      (Played.start lobbyServer3 lobbyGame3 (fun _ => 1 / 2) rfl) rfl)

end Bomberman
